import Mathlib

/-!
# X1 Punks: the provisioning pipeline of `server.js` and the batch uploader

A shallow embedding of the identifier allocator, the four-step inscription
pipeline, the two file-backed documents (mint state, inscription index) and the
`POST /api/inscribe` batch loop of `server.js`, and of the batch loop of
`scripts/upload-arweave.js` with its manifest, followed by the properties proved
about them.

Conventions of the embedding.

* Everything outside the process is an explicit input: the value of each
  `Math.random()` call, the keys produced by the key generators, the outcome of
  each ledger RPC, the content of the payload file, the clock.
* Everything the process does to the outside is recorded, in program order, in
  `World.log` (ledger calls and file writes); the two JSON files themselves are
  the fields `World.stateFile` and `World.indexFile`.
* `console.log` / `console.error` output is not modelled.
* One request is run from its first statement to its response without another
  request interleaving at the `await` points.
* `fs.writeFileSync` is taken to succeed.
* A string is a list of Unicode code points; `trim` and `split` are the
  functions `jsTrim` and `split` below.
-/

namespace X1Punks

/-! ## Configuration constants -/

def TOTAL_SUPPLY : Nat := 10000
def PROGRAM_NAME : String := "X1 Punks"
def COLLECTION_NAME : String := "X1 Punk"
def COLLECTION_SYMBOL : String := "X1PUNK"

/-! ## Identifier allocator -/

/-- The value of one `Math.random()` call: a number `r` with `0 ≤ r < 1`.
A double is a rational number; the product `Math.random() * available.length`
is taken exactly, without the rounding of the floating-point multiplication. -/
structure RandomDraw where
  val : ℚ
  nonneg : 0 ≤ val
  lt_one : val < 1

/-- The draw whose value is `0`. -/
def RandomDraw.zero : RandomDraw := ⟨0, le_refl 0, by norm_num⟩

/-- The array `available` built by the `for` loop of `getRandomUnmintedId`:
the `i` of `0 .. TOTAL_SUPPLY - 1`, ascending, with `!mintedIds.includes(i)`.
Irreducible, so that no proof step evaluates the range of 10000 numbers; proofs
go through `mem_availableIds` and the lemmas next to it. -/
@[irreducible]
def availableIds (mintedIds : List Nat) : List Nat :=
  (List.range TOTAL_SUPPLY).filter (fun i => !mintedIds.contains i)

/-- The index `Math.floor(Math.random() * available.length)`. -/
def randomIndex (rnd : RandomDraw) (len : Nat) : Nat :=
  (Int.floor (rnd.val * (len : ℚ))).toNat

/-- `getRandomUnmintedId(mintedIds)`; `none` is the JavaScript `null`. The index
is always within `available` (`randomIndex_lt`), so the read never yields
`undefined`. -/
def getRandomUnmintedId (mintedIds : List Nat) (rnd : RandomDraw) : Option Nat :=
  let available := availableIds mintedIds
  if available.length = 0 then none
  else available[randomIndex rnd available.length]?

/-! ## Metadata builder -/

/-- One entry of the trait table: `{ type, traits }`. -/
structure PunkMeta where
  type : String
  traits : List String
deriving DecidableEq, Repr

/-- The object returned by `loadPunkMetadata()`, keyed by punk index. -/
abbrev TraitTable := Nat → Option PunkMeta

/-- The code points that `String.prototype.trim` removes: the white space and the
line terminators of ECMAScript. -/
def isWhiteSpace (c : Char) : Bool :=
  [0x09, 0x0A, 0x0B, 0x0C, 0x0D, 0x20, 0xA0, 0x1680, 0x2028, 0x2029, 0x202F, 0x205F, 0x3000,
    0xFEFF].contains c.toNat || (0x2000 ≤ c.toNat && c.toNat ≤ 0x200A)

/-- The value of `s.trim()`. -/
def jsTrim (s : String) : String :=
  String.mk ((s.toList.dropWhile isWhiteSpace).reverse.dropWhile isWhiteSpace).reverse

/-- The value of `s.split(sep)` for a separator of one character. -/
def split (s : String) (sep : Char) : List String :=
  (s.toList.splitOn sep).map String.mk

/-- `loadPunkMetadata()` of `server.js`. `punkMetaCache` is the module variable
(`none` for `null`), `csv` the content of `punks.whitelabel/punks.csv` (`none`
when the file does not exist); the result is the object returned and the cache
afterwards. The object has the property `index` exactly when the line `index` of
`lines.slice(1)` is not blank. -/
def loadPunkMetadata (punkMetaCache : Option TraitTable) (csv : Option String) :
    TraitTable × Option TraitTable :=
  match punkMetaCache with
  | some cached => (cached, punkMetaCache)
  | none =>
    match csv with
    | none => (fun _ => none, none)
    | some content =>
      let lines := split content '\n'
      let metadata : TraitTable := fun index =>
        match (lines.drop 1)[index]? with
        | none => none
        | some line =>
          if jsTrim line = "" then none
          else
            let parts := split line ','
            let traits := (parts.drop 1).filter (fun t => t ≠ "" && jsTrim t ≠ "")
            some { type := if parts.headD "" = "" then "Unknown" else parts.headD ""
                   traits := traits }
      (metadata, some metadata)

def getRarity (type : String) : String :=
  if type = "Alien" then "Legendary"
  else if type = "Ape" then "Epic"
  else if type = "Zombie" then "Rare"
  else "Common"

structure Attribute where
  trait_type : String
  value : String
deriving DecidableEq, Repr

structure FileRef where
  type : String
  uri : String
deriving DecidableEq, Repr

/-- The document built by `buildInscriptionJson`. -/
structure InscriptionJson where
  name : String
  symbol : String
  description : String
  collectionName : String
  collectionFamily : String
  attributes : List Attribute
  propertiesCategory : String
  propertiesFiles : List FileRef
  inscriptionProtocol : String
  inscriptionVersion : String
  inscriptionChain : String
  inscriptionProgramId : String
deriving DecidableEq, Repr

/-- The `Accessory` attributes: `meta.traits.map((trait, i) => ...)`, `i` counted
from `start`. -/
def accessoryAttributes : Nat → List String → List Attribute
  | _, [] => []
  | i, trait :: rest =>
    { trait_type := "Accessory " ++ toString (i + 1), value := jsTrim trait } ::
      accessoryAttributes (i + 1) rest

def buildInscriptionJson (allMeta : TraitTable) (punkId : Nat) : InscriptionJson :=
  let meta : PunkMeta := (allMeta punkId).getD { type := "Unknown", traits := [] }
  let rarity := getRarity meta.type
  { name := COLLECTION_NAME ++ " #" ++ toString punkId
    symbol := COLLECTION_SYMBOL
    description := "X1 Punk #" ++ toString punkId ++
      " - Unique pixel punk fully inscribed on the X1 blockchain. Image and metadata stored 100% on-chain."
    collectionName := COLLECTION_NAME
    collectionFamily := PROGRAM_NAME
    attributes :=
      { trait_type := "Type", value := meta.type } ::
      { trait_type := "Rarity", value := rarity } ::
      accessoryAttributes 0 meta.traits
    propertiesCategory := "image"
    propertiesFiles := [{ type := "image/png", uri := "inscription" }]
    inscriptionProtocol := "metaplex-inscription"
    inscriptionVersion := "1.0"
    inscriptionChain := "x1"
    inscriptionProgramId := "1NSCRfGeyo7wPUazGbaPBUsTM49e1k2aXewHGARfzSo" }

/-! ## Arweave manifest -/

structure UploadEntry where
  imageTxId : String
  imageUrl : String
  imageSize : Nat
  uploadedAt : String
deriving DecidableEq, Repr

/-- The manifest document; `uploads` is the object keyed by `String(punkId)`. -/
structure ArweaveManifest where
  uploads : List (String × UploadEntry)
  totalUploaded : Nat
deriving DecidableEq, Repr

def getArweaveImageUrl (manifest : ArweaveManifest) (punkId : Nat) : String :=
  match manifest.uploads.lookup (toString punkId) with
  | some entry => entry.imageUrl
  | none =>
    "https://raw.githubusercontent.com/Execute007/x1punks-images/master/generated/punk_" ++
      toString punkId ++ ".png"

/-! ## The ledger, as seen from the pipeline -/

abbrev Bytes := List Nat

inductive Instruction where
  | createAccount (fromPubkey newAccountPubkey : String) (lamports space : Nat)
      (programId : String)
  | transfer (fromPubkey toPubkey : String) (lamports : Nat)
deriving DecidableEq, Repr

structure Transaction where
  instructions : List Instruction
  recentBlockhash : String
  feePayer : String
deriving DecidableEq, Repr

structure Creator where
  address : String
  verified : Bool
  share : Nat
deriving DecidableEq, Repr

/-- The argument object of `createNft`. -/
structure CreateNftInput where
  mint : String
  name : String
  symbol : String
  uri : String
  sellerFeeBasisPoints : Nat
  tokenOwner : String
  creators : List Creator
deriving DecidableEq, Repr

/-- The external calls of `inscribePunkOnChain`. -/
inductive LedgerCall where
  | createNft (input : CreateNftInput)
  | getMinimumBalanceForRentExemption (space : Nat)
  | getLatestBlockhash
  | sendAndConfirmTransaction (tx : Transaction) (signers : List String)
deriving DecidableEq, Repr

/-- The four `---- STEP k ----` sections of `inscribePunkOnChain`. -/
inductive Step where
  | recordCreation
  | metadataPersistence
  | binaryPersistence
  | linkage
deriving DecidableEq, Repr

def Step.num : Step → Nat
  | .recordCreation => 1
  | .metadataPersistence => 2
  | .binaryPersistence => 3
  | .linkage => 4

/-- A ledger call together with the section of the source that issues it. -/
structure LedgerEffect where
  step : Step
  call : LedgerCall
deriving DecidableEq, Repr

/-- What the outside answers during one `inscribePunkOnChain` call: the keys of
the three generated keypairs, the outcome of each ledger call, and `imageFile`,
the bytes of `punk_<punkId>.png` for the identifier of this call (`none` when the
file does not exist). An `Except.error m` is the call throwing an error whose
`message` is `m`. -/
structure PipelineEnv where
  mintKey : String
  createNft : Except String Unit
  jsonKey : String
  jsonRent : Except String Nat
  jsonBlockhash : Except String String
  jsonSend : Except String String
  imageFile : Option Bytes
  imageKey : String
  imageRent : Except String Nat
  imageBlockhash : Except String String
  imageSend : Except String String
  memoBlockhash : Except String String
  memoSend : Except String String

/-- Process-wide values the pipeline reads. `stringify` is
`Buffer.from(JSON.stringify(·))`, `sha256hex` is
`crypto.createHash('sha256').update(·).digest('hex')`. -/
structure Config where
  payer : String
  allMeta : TraitTable
  manifest : ArweaveManifest
  stringify : InscriptionJson → Bytes
  sha256hex : Bytes → String

/-- The object returned by `inscribePunkOnChain`. -/
structure OnChainResult where
  mintAddress : String
  jsonAccount : String
  imageAccount : String
  memoSignature : String
  name : String
  symbol : String
  jsonSize : Nat
  imageSize : Nat
  imageHash : String
deriving DecidableEq, Repr

/-- Reading a string-valued property of the returned object by name; a name
that is not a property of the object reads as `undefined` (`none`). -/
def OnChainResult.stringProp (r : OnChainResult) : String → Option String
  | "mintAddress" => some r.mintAddress
  | "jsonAccount" => some r.jsonAccount
  | "imageAccount" => some r.imageAccount
  | "memoSignature" => some r.memoSignature
  | "name" => some r.name
  | "symbol" => some r.symbol
  | "imageHash" => some r.imageHash
  | _ => none

/-- The error thrown out of `inscribePunkOnChain`. The JavaScript `Error` carries
only `message`; `step` records in which section of the source it was thrown. -/
structure PipelineError where
  step : Step
  message : String
deriving DecidableEq, Repr

/-! ## The inscription pipeline -/

/-- `inscribePunkOnChain(punkId, recipientWallet)`: the value returned or the
error thrown, and the ledger calls issued, in program order. -/
def inscribePunkOnChain (cfg : Config) (env : PipelineEnv) (punkId : Nat)
    (recipientWallet : String) : Except PipelineError OnChainResult × List LedgerEffect :=
  let nftName := COLLECTION_NAME ++ " #" ++ toString punkId
  -- STEP 1: create NFT and mint to recipient
  let c1 : LedgerEffect := ⟨.recordCreation, .createNft
    { mint := env.mintKey
      name := nftName
      symbol := COLLECTION_SYMBOL
      uri := getArweaveImageUrl cfg.manifest punkId
      sellerFeeBasisPoints := 0
      tokenOwner := recipientWallet
      creators := [{ address := cfg.payer, verified := true, share := 100 }] }⟩
  match env.createNft with
  | .error m => (.error ⟨.recordCreation, m⟩, [c1])
  | .ok _ =>
  -- STEP 2: JSON metadata data account
  let jsonMetadata := buildInscriptionJson cfg.allMeta punkId
  let jsonBytes := cfg.stringify jsonMetadata
  let jsonSpace := jsonBytes.length
  let c2 : LedgerEffect := ⟨.metadataPersistence, .getMinimumBalanceForRentExemption jsonSpace⟩
  match env.jsonRent with
  | .error m => (.error ⟨.metadataPersistence, m⟩, [c1, c2])
  | .ok jsonRent =>
  let c3 : LedgerEffect := ⟨.metadataPersistence, .getLatestBlockhash⟩
  match env.jsonBlockhash with
  | .error m => (.error ⟨.metadataPersistence, m⟩, [c1, c2, c3])
  | .ok jsonBlockhash =>
  let jsonTx : Transaction :=
    { instructions := [.createAccount cfg.payer env.jsonKey jsonRent jsonSpace cfg.payer]
      recentBlockhash := jsonBlockhash
      feePayer := cfg.payer }
  let c4 : LedgerEffect :=
    ⟨.metadataPersistence, .sendAndConfirmTransaction jsonTx [cfg.payer, env.jsonKey]⟩
  match env.jsonSend with
  | .error m => (.error ⟨.metadataPersistence, m⟩, [c1, c2, c3, c4])
  | .ok _ =>
  -- STEP 3: PNG image data account
  match env.imageFile with
  | none =>
    (.error ⟨.binaryPersistence, "Image not found: punk_" ++ toString punkId ++ ".png"⟩,
      [c1, c2, c3, c4])
  | some imageBytes =>
  let imageSpace := imageBytes.length
  let c5 : LedgerEffect := ⟨.binaryPersistence, .getMinimumBalanceForRentExemption imageSpace⟩
  match env.imageRent with
  | .error m => (.error ⟨.binaryPersistence, m⟩, [c1, c2, c3, c4, c5])
  | .ok imageRent =>
  let c6 : LedgerEffect := ⟨.binaryPersistence, .getLatestBlockhash⟩
  match env.imageBlockhash with
  | .error m => (.error ⟨.binaryPersistence, m⟩, [c1, c2, c3, c4, c5, c6])
  | .ok imgBlockhash =>
  let imageTx : Transaction :=
    { instructions := [.createAccount cfg.payer env.imageKey imageRent imageSpace cfg.payer]
      recentBlockhash := imgBlockhash
      feePayer := cfg.payer }
  let c7 : LedgerEffect :=
    ⟨.binaryPersistence, .sendAndConfirmTransaction imageTx [cfg.payer, env.imageKey]⟩
  match env.imageSend with
  | .error m => (.error ⟨.binaryPersistence, m⟩, [c1, c2, c3, c4, c5, c6, c7])
  | .ok _ =>
  -- STEP 4: the link transaction (`inscriptionRecord` is built but not passed on)
  let c8 : LedgerEffect := ⟨.linkage, .getLatestBlockhash⟩
  match env.memoBlockhash with
  | .error m => (.error ⟨.linkage, m⟩, [c1, c2, c3, c4, c5, c6, c7, c8])
  | .ok memoBlockhash =>
  let memoTx : Transaction :=
    { instructions := [.transfer cfg.payer cfg.payer 0]
      recentBlockhash := memoBlockhash
      feePayer := cfg.payer }
  let c9 : LedgerEffect := ⟨.linkage, .sendAndConfirmTransaction memoTx [cfg.payer]⟩
  match env.memoSend with
  | .error m => (.error ⟨.linkage, m⟩, [c1, c2, c3, c4, c5, c6, c7, c8, c9])
  | .ok memoSig =>
  let imageHash := cfg.sha256hex imageBytes
  (.ok
    { mintAddress := env.mintKey
      jsonAccount := env.jsonKey
      imageAccount := env.imageKey
      memoSignature := memoSig
      name := nftName
      symbol := COLLECTION_SYMBOL
      jsonSize := jsonBytes.length
      imageSize := imageBytes.length
      imageHash := imageHash },
    [c1, c2, c3, c4, c5, c6, c7, c8, c9])

/-! ## State management -/

structure NftInscription where
  account : Option String
  metadata : Option String
  image : Option String
  jsonSize : Nat
  imageSize : Nat
  imageHash : String
deriving DecidableEq, Repr

/-- A mint record, the `nft` object of the handler. -/
structure Nft where
  id : Nat
  name : String
  symbol : String
  owner : String
  imageUrl : String
  txSignature : String
  mintAddress : String
  inscribedAt : String
  onChain : Bool
  inscription : NftInscription
deriving DecidableEq, Repr

/-- The mint state held in memory by the handler. -/
structure MintState where
  mintedCount : Nat
  mints : List Nft
  mintedIds : List Nat
deriving DecidableEq, Repr

/-- The mint state as a parsed `mint-state.json`; `mintedIds` may be missing. -/
structure MintStateDoc where
  mintedCount : Nat
  mints : List Nft
  mintedIds : Option (List Nat)
deriving DecidableEq, Repr

structure OnChainInfo where
  mintAddress : String
  jsonAccount : String
  imageAccount : String
  memoSignature : String
  jsonSize : Nat
  imageSize : Nat
  imageHash : String
deriving DecidableEq, Repr

/-- An inscription record of the index. -/
structure Inscription where
  punkId : Nat
  name : String
  symbol : String
  owner : String
  inscribedAt : String
  onChain : OnChainInfo
  metadata : InscriptionJson
deriving DecidableEq, Repr

structure InscriptionsIndex where
  program : String
  inscriptions : List Inscription
  totalInscribed : Nat
  lastUpdated : Option String
deriving DecidableEq, Repr

/-- A JSON file on disk: not there, there but not parsable, or a document. -/
inductive JsonFile (α : Type) where
  | absent
  | unparsable
  | json (doc : α)
deriving DecidableEq, Repr

/-- What the process does to the outside. -/
inductive Effect where
  | ledger (e : LedgerEffect)
  | writeStateFile (doc : MintStateDoc)
  | writeIndexFile (doc : InscriptionsIndex)
deriving DecidableEq, Repr

structure World where
  stateFile : JsonFile MintStateDoc
  indexFile : JsonFile InscriptionsIndex
  log : List Effect
deriving DecidableEq, Repr

def getMintState (w : World) : MintState :=
  match w.stateFile with
  | .json doc =>
    { mintedCount := doc.mintedCount
      mints := doc.mints
      mintedIds := match doc.mintedIds with
        | some ids => ids
        | none => doc.mints.map (fun m => m.id) }
  | _ => { mintedCount := 0, mints := [], mintedIds := [] }

def MintState.toDoc (state : MintState) : MintStateDoc :=
  { mintedCount := state.mintedCount, mints := state.mints, mintedIds := some state.mintedIds }

def saveMintState (w : World) (state : MintState) : World :=
  { w with stateFile := .json state.toDoc, log := w.log ++ [.writeStateFile state.toDoc] }

def getInscriptionsIndex (w : World) : InscriptionsIndex :=
  match w.indexFile with
  | .json doc => doc
  | _ => { program := PROGRAM_NAME, inscriptions := [], totalInscribed := 0, lastUpdated := none }

def saveInscriptionsIndex (w : World) (index : InscriptionsIndex) : World :=
  { w with indexFile := .json index, log := w.log ++ [.writeIndexFile index] }

/-- The `inscription` object built by `indexInscription`. -/
def mkInscription (cfg : Config) (punkId : Nat) (wallet : String)
    (onChainResult : OnChainResult) (inscribedAt : String) : Inscription :=
  { punkId := punkId
    name := COLLECTION_NAME ++ " #" ++ toString punkId
    symbol := COLLECTION_SYMBOL
    owner := wallet
    inscribedAt := inscribedAt
    onChain :=
      { mintAddress := onChainResult.mintAddress
        jsonAccount := onChainResult.jsonAccount
        imageAccount := onChainResult.imageAccount
        memoSignature := onChainResult.memoSignature
        jsonSize := onChainResult.jsonSize
        imageSize := onChainResult.imageSize
        imageHash := onChainResult.imageHash }
    metadata := buildInscriptionJson cfg.allMeta punkId }

/-- `indexInscription(punkId, wallet, onChainResult)`; `inscribedAt` and
`lastUpdated` are the values of its two `new Date().toISOString()`. -/
def indexInscription (cfg : Config) (w : World) (punkId : Nat) (wallet : String)
    (onChainResult : OnChainResult) (inscribedAt lastUpdated : String) :
    Inscription × World :=
  let index := getInscriptionsIndex w
  match index.inscriptions.find? (fun i => i.punkId == punkId) with
  | some existing => (existing, w)
  | none =>
    let inscription := mkInscription cfg punkId wallet onChainResult inscribedAt
    let inscriptions := index.inscriptions ++ [inscription]
    let index1 : InscriptionsIndex :=
      { index with
        inscriptions := inscriptions
        lastUpdated := some lastUpdated
        totalInscribed := inscriptions.length }
    (inscription, saveInscriptionsIndex w index1)

/-! ## `POST /api/inscribe` -/

/-- The parsed request body. A field that is missing from the body is held as
its falsy value (`""`, `0`). -/
structure InscribeRequest where
  wallet : String
  quantity : Int
  txSignature : String
deriving DecidableEq, Repr

/-- What the outside answers during iteration `i` of the batch loop: the random
draw of the allocator, the answers to the pipeline, and the three clock reads
(`nft.inscribedAt`, then the two of `indexInscription`). -/
structure IterEnv where
  rnd : RandomDraw
  pipeline : PipelineEnv
  nftTime : String
  indexTime : String
  indexUpdated : String

/-- The JSON bodies the handler sends, one constructor per object literal. -/
inductive ResponseBody where
  | error (error : String)
  | soldOut (error : String) (partialMinted : List Nft)
  | partialSuccess (success : Bool) (partialFlag : Bool) (requested : Int) (completed : Nat)
      (minted : List Nft) (totalMinted : Nat) (error : String)
  | failure (error : String) (punkId : Nat)
  | success (success : Bool) (minted : List Nft) (totalMinted : Nat)
deriving DecidableEq, Repr

structure Response where
  status : Nat
  body : ResponseBody
deriving DecidableEq, Repr

/-- The end of one request: the response, the handler's local `state` (`none`
when the handler answered before loading it), its local `inscribedNfts`, and the
outside. -/
structure Outcome where
  response : Response
  state : Option MintState
  inscribedNfts : List Nft
  world : World
deriving DecidableEq, Repr

/-- The `nft` object built after a successful pipeline call. -/
def mkNft (cfg : Config) (req : InscribeRequest) (punkId : Nat)
    (onChainResult : OnChainResult) (inscribedAt : String) : Nft :=
  { id := punkId
    name := COLLECTION_NAME ++ " #" ++ toString punkId
    symbol := COLLECTION_SYMBOL
    owner := req.wallet
    imageUrl := getArweaveImageUrl cfg.manifest punkId
    txSignature := req.txSignature
    mintAddress := onChainResult.mintAddress
    inscribedAt := inscribedAt
    onChain := true
    inscription :=
      { account := onChainResult.stringProp "inscriptionAccount"
        metadata := onChainResult.stringProp "inscriptionMetadata"
        image := onChainResult.stringProp "associatedInscription"
        jsonSize := onChainResult.jsonSize
        imageSize := onChainResult.imageSize
        imageHash := onChainResult.imageHash } }

def appendLedger (w : World) (effects : List LedgerEffect) : World :=
  { w with log := w.log ++ effects.map Effect.ledger }

/-- How one pass through the loop body ends: with a `return` after a response,
or at the end of the body with the updated locals. -/
inductive LoopStep where
  | respond (o : Outcome)
  | next (state : MintState) (inscribedNfts : List Nft) (w : World)

/-- The body of the loop `for (let i = 0; i < quantity; i++)` of the handler. -/
def inscribeBody (cfg : Config) (req : InscribeRequest) (env : IterEnv)
    (state : MintState) (inscribedNfts : List Nft) (w : World) : LoopStep :=
  match getRandomUnmintedId state.mintedIds env.rnd with
  | none =>
    let w1 := if inscribedNfts.length > 0 then saveMintState w state else w
    .respond
      { response := ⟨400, .soldOut "Sold out!" inscribedNfts⟩
        state := some state, inscribedNfts := inscribedNfts, world := w1 }
  | some punkId =>
    match inscribePunkOnChain cfg env.pipeline punkId req.wallet with
    | (.ok onChainResult, effects) =>
      let w1 := appendLedger w effects
      let nft := mkNft cfg req punkId onChainResult env.nftTime
      let w2 := (indexInscription cfg w1 punkId req.wallet onChainResult
        env.indexTime env.indexUpdated).2
      let state1 : MintState :=
        { mints := state.mints ++ [nft]
          mintedIds := state.mintedIds ++ [punkId]
          mintedCount := state.mintedCount + 1 }
      let inscribedNfts1 := inscribedNfts ++ [nft]
      let w3 := saveMintState w2 state1
      .next state1 inscribedNfts1 w3
    | (.error inscribeErr, effects) =>
      let w1 := appendLedger w effects
      if inscribedNfts.length > 0 then
        let w2 := saveMintState w1 state
        .respond
          { response := ⟨200, .partialSuccess true true req.quantity inscribedNfts.length
              inscribedNfts state.mintedCount
              ("Completed " ++ toString inscribedNfts.length ++ "/" ++ toString req.quantity ++
                ". Failed on punk #" ++ toString punkId ++ ": " ++ inscribeErr.message)⟩
            state := some state, inscribedNfts := inscribedNfts, world := w2 }
      else
        .respond
          { response := ⟨500, .failure ("Inscription failed: " ++ inscribeErr.message) punkId⟩
            state := some state, inscribedNfts := inscribedNfts, world := w1 }

/-- The loop `for (let i = 0; i < quantity; i++)` of the handler and the success
response after it; `remaining` is `quantity - i`. -/
def inscribeLoop (cfg : Config) (req : InscribeRequest) (envs : Nat → IterEnv) :
    (remaining : Nat) → (i : Nat) → MintState → List Nft → World → Outcome
  | 0, _, state, inscribedNfts, w =>
    { response := ⟨200, .success true inscribedNfts state.mintedCount⟩
      state := some state, inscribedNfts := inscribedNfts, world := w }
  | remaining + 1, i, state, inscribedNfts, w =>
    match inscribeBody cfg req (envs i) state inscribedNfts w with
    | .respond o => o
    | .next state1 inscribedNfts1 w1 =>
      inscribeLoop cfg req envs remaining (i + 1) state1 inscribedNfts1 w1

/-- The `POST /api/inscribe` handler on a parsed body. -/
def handleInscribe (cfg : Config) (w : World) (req : InscribeRequest)
    (envs : Nat → IterEnv) : Outcome :=
  if req.wallet = "" ∨ req.quantity = 0 ∨ req.txSignature = "" then
    { response := ⟨400, .error "Missing required fields: wallet, quantity, txSignature"⟩
      state := none, inscribedNfts := [], world := w }
  else if req.quantity < 1 ∨ req.quantity > 10 then
    { response := ⟨400, .error "Quantity must be 1-10"⟩
      state := none, inscribedNfts := [], world := w }
  else
    inscribeLoop cfg req envs req.quantity.toNat 0 (getMintState w) [] w

/-! ## The batch uploader (`scripts/upload-arweave.js`)

The uploader is run on its own. Its outside is the manifest file, the payload
files, the storage network and the clock; what it does to the outside is
recorded in `UploaderWorld.log`. The uploads of one group are held in the order
in which `batch.map` issues them, which is also the order of the array that
`Promise.allSettled` resolves to. -/

def BATCH_SIZE : Nat := 5
def DELAY_BETWEEN_BATCHES_MS : Nat := 2000

/-- The `uploads` object of the manifest: property names with their entries, no
name twice. The order of the properties is not modelled. -/
abbrev Uploads := AList (fun _ : String => UploadEntry)

/-- The manifest document of the uploader. -/
structure UploadManifest where
  uploads : Uploads
  totalUploaded : Nat
  startedAt : Option String
  lastUpdated : Option String
deriving DecidableEq

/-- `manifest.uploads[i]` for a number `i`: the property named `String(i)`. -/
def UploadManifest.entry (manifest : UploadManifest) (i : Nat) : Option UploadEntry :=
  manifest.uploads.lookup (toString i)

/-- The object returned by `uploadPunk`. -/
structure UploadResult where
  punkId : Nat
  imageTxId : String
  imageUrl : String
  imageSize : Nat
deriving DecidableEq, Repr

structure Tag where
  name : String
  value : String
deriving DecidableEq, Repr

/-- What the uploader does to the outside: a call of `uploadPunk`, a call of
`uploadData` (the upload to the storage network), a write of the manifest file,
a pause. -/
inductive UploaderEffect where
  | uploadPunk (punkId : Nat)
  | uploadData (data : Bytes) (contentType : String) (tags : List Tag)
  | writeManifest (doc : UploadManifest)
  | sleep (ms : Nat)
deriving DecidableEq

/-- What the outside answers to `uploadPunk(key, punkId)`: the bytes of
`punk_<punkId>.png` (`none` when the file does not exist), the outcome of
`uploadData` (the transaction id, or the error thrown), and the clock read when
the result is merged into the manifest. -/
structure UploadEnv where
  imageFile : Option Bytes
  uploadData : Except String String
  uploadedAt : String

/-- `uploadPunk(key, punkId)`: the value the promise is fulfilled with or the
error it is rejected with, and the calls issued. -/
def uploadPunk (env : UploadEnv) (punkId : Nat) :
    Except String UploadResult × List UploaderEffect :=
  match env.imageFile with
  | none => (.error ("Image not found: punk_" ++ toString punkId ++ ".png"), [])
  | some imageData =>
    let call : UploaderEffect := .uploadData imageData "image/png"
      [⟨"App-Name", "X1Punks"⟩, ⟨"Punk-Id", toString punkId⟩, ⟨"Type", "image"⟩]
    match env.uploadData with
    | .error m => (.error m, [call])
    | .ok imageTxId =>
      (.ok
        { punkId := punkId
          imageTxId := imageTxId
          imageUrl := "https://arweave.net/" ++ imageTxId
          imageSize := imageData.length },
       [call])

/-- What the outside answers during one run of the uploader: the answers to
`uploadPunk` for each identifier, the clock read by `saveManifest` in the pass
that starts at `batchStart`, and the clock read by `loadManifest`. -/
structure UploaderEnv where
  punk : Nat → UploadEnv
  saveTime : Nat → String
  startedAt : String

structure UploaderWorld where
  manifestFile : JsonFile UploadManifest
  log : List UploaderEffect
deriving DecidableEq

/-- `loadManifest()`; on a file that does not parse `JSON.parse` throws. -/
def loadManifest (w : UploaderWorld) (now : String) : Except String UploadManifest :=
  match w.manifestFile with
  | .json doc => .ok doc
  | .unparsable => .error "Unexpected token in JSON"
  | .absent => .ok { uploads := ∅, totalUploaded := 0, startedAt := some now, lastUpdated := none }

/-- `saveManifest(manifest)`: the manifest with `lastUpdated` set, and the
outside after the write. -/
def saveManifest (w : UploaderWorld) (manifest : UploadManifest) (now : String) :
    UploadManifest × UploaderWorld :=
  let manifest1 := { manifest with lastUpdated := some now }
  (manifest1, { manifestFile := .json manifest1, log := w.log ++ [.writeManifest manifest1] })

/-- The locals of `main` that the batch loop changes, and the outside. -/
structure UploaderState where
  manifest : UploadManifest
  uploaded : Nat
  failed : Nat
  world : UploaderWorld
deriving DecidableEq

/-- The body of `for (const result of results)`; `now` is the clock read for
`uploadedAt`. -/
def mergeResult (st : UploaderState) (result : Except String UploadResult) (now : String) :
    UploaderState :=
  match result with
  | .ok r =>
    let uploads := st.manifest.uploads.insert (toString r.punkId)
      { imageTxId := r.imageTxId, imageUrl := r.imageUrl, imageSize := r.imageSize
        uploadedAt := now }
    { st with
      manifest := { st.manifest with uploads := uploads, totalUploaded := uploads.keys.length }
      uploaded := st.uploaded + 1 }
  | .error _ => { st with failed := st.failed + 1 }

/-- The calls issued by `batch.map(id => uploadPunk(key, id))`. -/
def batchCalls (env : UploaderEnv) (batch : List Nat) : List UploaderEffect :=
  (batch.map (fun id => UploaderEffect.uploadPunk id :: (uploadPunk (env.punk id) id).2)).flatten

/-- The merge loop over the settled results of a group, in the order of the group. -/
def mergeBatch (env : UploaderEnv) (batch : List Nat) (st : UploaderState) : UploaderState :=
  batch.foldl
    (fun s id => mergeResult s (uploadPunk (env.punk id) id).1 (env.punk id).uploadedAt) st

/-- The body of the loop over `batchStart`: one group. -/
def uploadPass (env : UploaderEnv) (punkIds : List Nat) (batchStart : Nat)
    (st : UploaderState) : UploaderState :=
  let batch := (punkIds.drop batchStart).take BATCH_SIZE
  let st1 : UploaderState :=
    { st with world := { st.world with log := st.world.log ++ batchCalls env batch } }
  let st2 := mergeBatch env batch st1
  let saved := saveManifest st2.world st2.manifest (env.saveTime batchStart)
  let st3 : UploaderState := { st2 with manifest := saved.1, world := saved.2 }
  if batchStart + BATCH_SIZE < punkIds.length then
    { st3 with
      world := { st3.world with log := st3.world.log ++ [.sleep DELAY_BETWEEN_BATCHES_MS] } }
  else st3

/-- The loop `for (let batchStart = 0; batchStart < punkIds.length;
batchStart += BATCH_SIZE)`, entered at `batchStart`. -/
def uploadBatches (env : UploaderEnv) (punkIds : List Nat) (batchStart : Nat)
    (st : UploaderState) : UploaderState :=
  if batchStart < punkIds.length then
    uploadBatches env punkIds (batchStart + BATCH_SIZE) (uploadPass env punkIds batchStart st)
  else st
termination_by punkIds.length - batchStart
decreasing_by
  simp only [BATCH_SIZE]
  omega

/-- The loop `for (let i = startFrom; i < endId; i++)` that counts the
identifiers with a manifest entry and collects the others: `(skipped, punkIds)`. -/
def partitionIds (manifest : UploadManifest) (startFrom endId : Nat) : Nat × List Nat :=
  (List.range' startFrom (endId - startFrom)).foldl
    (fun acc i =>
      if (manifest.entry i).isSome then (acc.1 + 1, acc.2) else (acc.1, acc.2 ++ [i]))
    (0, [])

/-- The end of a run: the counter `skipped`, the list `punkIds`, and the loop's
locals and the outside after the last group. -/
structure UploadRun where
  skipped : Nat
  punkIds : List Nat
  final : UploaderState
deriving DecidableEq

/-- The part of `main` from the loaded manifest to the end of the batch loop. -/
def uploadAll (env : UploaderEnv) (w : UploaderWorld) (manifest : UploadManifest)
    (startFrom endId : Nat) : UploadRun :=
  let parts := partitionIds manifest startFrom endId
  { skipped := parts.1
    punkIds := parts.2
    final := uploadBatches env parts.2 0
      { manifest := manifest, uploaded := 0, failed := 0, world := w } }

/-- The part of `main` from `loadManifest()` to the end of the batch loop; a
manifest file that does not parse ends the run with the error thrown. -/
def runUploader (env : UploaderEnv) (w : UploaderWorld) (startFrom endId : Nat) :
    Except String UploadRun :=
  match loadManifest w env.startedAt with
  | .error m => .error m
  | .ok manifest => .ok (uploadAll env w manifest startFrom endId)

/-! ## The command line, the credential file and the exit code (`main`) -/

/-- The command line as `main` reads it: whether `--test` is among the
arguments, and the number `parseInt` reads after `--start=` (`0` without that
argument). A `--start` value that is negative or not a number is outside this
description. -/
structure UploaderArgs where
  testMode : Bool
  startFrom : Nat
deriving DecidableEq, Repr

/-- The bound `endId` computed by `main`. -/
def UploaderArgs.endId (args : UploaderArgs) : Nat :=
  if args.testMode then min (args.startFrom + 5) TOTAL_SUPPLY else TOTAL_SUPPLY

/-- What the outside answers to `main` besides the uploads: the credential file
`arweave-wallet.json`, the outcome of `arweave.wallets.jwkToAddress(key)`, of the
first `arweave.wallets.getBalance(addr)` and of the one after the batch loop. -/
structure MainEnv where
  walletFile : JsonFile String
  jwkToAddress : Except String String
  getBalance : Except String String
  finalBalance : Except String String
  uploader : UploaderEnv

/-- How the call `main()` ends: `process.exit(code)` inside it, a rejected
promise, or a fulfilled promise after the run. -/
inductive MainEnd where
  | exit (code : Nat)
  | rejected (err : String)
  | fulfilled (run : UploadRun)

/-- `main()`. The outside besides the manifest file is `env`; the manifest file
and the log of the effects are in `w`. -/
def main (env : MainEnv) (w : UploaderWorld) (args : UploaderArgs) : MainEnd :=
  match env.walletFile with
  | .absent => .exit 1
  | .unparsable => .rejected "Unexpected token in JSON"
  | .json _ =>
    match env.jwkToAddress with
    | .error err => .rejected err
    | .ok _ =>
      match env.getBalance with
      | .error err => .rejected err
      | .ok _ =>
        match runUploader env.uploader w args.startFrom args.endId with
        | .error err => .rejected err
        | .ok run =>
          match env.finalBalance with
          | .error err => .rejected err
          | .ok _ => .fulfilled run

/-- The exit code of the process `node scripts/upload-arweave.js`, whose last
statement is `main().catch(err => { ...; process.exit(1); })`: the code given to
`process.exit`, `1` when the promise of `main` is rejected, and `0` when it is
fulfilled and the process ends with nothing left to run. -/
def exitCode (env : MainEnv) (w : UploaderWorld) (args : UploaderArgs) : Nat :=
  match main env w args with
  | .exit code => code
  | .rejected _ => 1
  | .fulfilled _ => 0

/-! ## The metadata logic of `scripts/upload-arweave.js` -/

/-- `loadPunkMetadata()` of `scripts/upload-arweave.js`, read as the one of
`server.js` is. -/
def UploadArweave.loadPunkMetadata (punkMetaCache : Option TraitTable) (csv : Option String) :
    TraitTable × Option TraitTable :=
  match punkMetaCache with
  | some cached => (cached, punkMetaCache)
  | none =>
    match csv with
    | none => (fun _ => none, none)
    | some content =>
      let lines := split content '\n'
      let metadata : TraitTable := fun index =>
        match (lines.drop 1)[index]? with
        | none => none
        | some line =>
          if jsTrim line = "" then none
          else
            let parts := split line ','
            let traits := (parts.drop 1).filter (fun t => t ≠ "" && jsTrim t ≠ "")
            some { type := if parts.headD "" = "" then "Unknown" else parts.headD ""
                   traits := traits }
      (metadata, some metadata)

def UploadArweave.getRarity (type : String) : String :=
  if type = "Alien" then "Legendary"
  else if type = "Ape" then "Epic"
  else if type = "Zombie" then "Rare"
  else "Common"

/-- The document built by `buildMetadataJson`. -/
structure MetadataJson where
  name : String
  symbol : String
  description : String
  image : String
  collectionName : String
  collectionFamily : String
  attributes : List Attribute
  propertiesCategory : String
  propertiesFiles : List FileRef
deriving DecidableEq, Repr

def UploadArweave.buildMetadataJson (allMeta : TraitTable) (punkId : Nat)
    (imageArweaveUrl : String) : MetadataJson :=
  let meta : PunkMeta := (allMeta punkId).getD { type := "Unknown", traits := [] }
  let rarity := UploadArweave.getRarity meta.type
  { name := COLLECTION_NAME ++ " #" ++ toString punkId
    symbol := COLLECTION_SYMBOL
    description := "X1 Punk #" ++ toString punkId ++
      " - Unique pixel punk fully inscribed on the X1 blockchain. Image and metadata stored permanently on Arweave."
    image := imageArweaveUrl
    collectionName := COLLECTION_NAME
    collectionFamily := PROGRAM_NAME
    attributes :=
      { trait_type := "Type", value := meta.type } ::
      { trait_type := "Rarity", value := rarity } ::
      meta.traits.mapIdx (fun i trait =>
        { trait_type := "Accessory " ++ toString (i + 1), value := jsTrim trait })
    propertiesCategory := "image"
    propertiesFiles := [{ type := "image/png", uri := imageArweaveUrl }] }

/-! ## The metadata logic of `api/inscription/[id].js` -/

/-- `loadPunkMetadata()` of `api/inscription/[id].js`, read as the one of
`server.js` is. -/
def ApiInscription.loadPunkMetadata (punkMetaCache : Option TraitTable) (csv : Option String) :
    TraitTable × Option TraitTable :=
  match punkMetaCache with
  | some cached => (cached, punkMetaCache)
  | none =>
    match csv with
    | none => (fun _ => none, none)
    | some content =>
      let lines := split content '\n'
      let metadata : TraitTable := fun index =>
        match (lines.drop 1)[index]? with
        | none => none
        | some line =>
          if jsTrim line = "" then none
          else
            let parts := split line ','
            let traits := (parts.drop 1).filter (fun t => t ≠ "" && jsTrim t ≠ "")
            some { type := if parts.headD "" = "" then "Unknown" else parts.headD ""
                   traits := traits }
      (metadata, some metadata)

def ApiInscription.getRarity (type : String) : String :=
  if type = "Alien" then "Legendary"
  else if type = "Ape" then "Epic"
  else if type = "Zombie" then "Rare"
  else "Common"

def ApiInscription.buildInscriptionJson (allMeta : TraitTable) (punkId : Nat) :
    InscriptionJson :=
  let meta : PunkMeta := (allMeta punkId).getD { type := "Unknown", traits := [] }
  let rarity := ApiInscription.getRarity meta.type
  { name := COLLECTION_NAME ++ " #" ++ toString punkId
    symbol := COLLECTION_SYMBOL
    description := "X1 Punk #" ++ toString punkId ++
      " - Unique pixel punk fully inscribed on the X1 blockchain. Image and metadata stored 100% on-chain."
    collectionName := COLLECTION_NAME
    collectionFamily := PROGRAM_NAME
    attributes :=
      { trait_type := "Type", value := meta.type } ::
      { trait_type := "Rarity", value := rarity } ::
      meta.traits.mapIdx (fun i trait =>
        { trait_type := "Accessory " ++ toString (i + 1), value := jsTrim trait })
    propertiesCategory := "image"
    propertiesFiles := [{ type := "image/png", uri := "inscription" }]
    inscriptionProtocol := "metaplex-inscription"
    inscriptionVersion := "1.0"
    inscriptionChain := "x1"
    inscriptionProgramId := "1NSCRfGeyo7wPUazGbaPBUsTM49e1k2aXewHGARfzSo" }

/-! ## The manifest file, as the server reads it -/

/-- What `JSON.parse` gives the server for the manifest document the uploader
wrote: the same `uploads` properties and `totalUploaded`; the server reads
nothing else of it. -/
def UploadManifest.parsed (doc : UploadManifest) : ArweaveManifest :=
  { uploads := doc.uploads.entries.map (fun e => (e.1, e.2))
    totalUploaded := doc.totalUploaded }

/-- `getArweaveManifest()` of `server.js`: `arweaveManifest` is the module
variable (`none` for `null`), `file` is `arweave-manifest.json`, the file the
uploader writes. The module variable holds the result afterwards. -/
def getArweaveManifest (arweaveManifest : Option ArweaveManifest)
    (file : JsonFile UploadManifest) : Except String ArweaveManifest :=
  match arweaveManifest with
  | some cached => .ok cached
  | none =>
    match file with
    | .json doc => .ok doc.parsed
    | .unparsable => .error "Unexpected token in JSON"
    | .absent => .ok { uploads := [], totalUploaded := 0 }

/-! ## Predicates used to state the properties -/

/-- The mint-state invariant: `mintedCount == len(mints) == len(mintedIds)`,
`mintedIds` lists the ids of `mints`, and the ids are pairwise distinct and
within `[0, 10000)`. -/
def MintInvariant (st : MintState) : Prop :=
  st.mintedCount = st.mints.length ∧ st.mints.length = st.mintedIds.length ∧
  st.mintedIds = st.mints.map (fun m => m.id) ∧ st.mintedIds.Nodup ∧
  ∀ id ∈ st.mintedIds, id < 10000

instance (st : MintState) : Decidable (MintInvariant st) := by
  unfold MintInvariant; infer_instance

/-- The same invariant read off a persisted document. -/
def DocInvariant (doc : MintStateDoc) : Prop :=
  ∃ ids, doc.mintedIds = some ids ∧
    MintInvariant { mintedCount := doc.mintedCount, mints := doc.mints, mintedIds := ids }

/-- The state `st` after the records `newNfts` were appended one by one. -/
def MintState.extend (st : MintState) (newNfts : List Nft) : MintState :=
  { mints := st.mints ++ newNfts
    mintedIds := st.mintedIds ++ newNfts.map (fun m => m.id)
    mintedCount := st.mintedCount + newNfts.length }

/-- Whether an effect is the first ledger call of a pipeline run, `createNft`. -/
def isPipelineStart : Effect → Bool
  | .ledger ⟨_, .createNft _⟩ => true
  | _ => false

/-- The number of pipeline runs recorded in a log. -/
def pipelineCalls (log : List Effect) : Nat := log.countP isPipelineStart

/-- At least `n` identifiers of `[0, 10000)` are not in `S`. -/
def HasUnassigned (S : List Nat) (n : Nat) : Prop :=
  ∃ free : List Nat, free.Nodup ∧ free.length = n ∧ ∀ x ∈ free, x < 10000 ∧ x ∉ S

/-- A request that passes the two checks at the top of the handler. -/
def InscribeRequest.Valid (req : InscribeRequest) : Prop :=
  req.wallet ≠ "" ∧ req.txSignature ≠ "" ∧ 1 ≤ req.quantity ∧ req.quantity ≤ 10

instance (req : InscribeRequest) : Decidable req.Valid := by
  unfold InscribeRequest.Valid; infer_instance

/-- `e` is what an external call of the run answered with `env` for `punkId`
threw: its message is the message of that call's error (or the
`Image not found` message of the payload check) and its step is the section of
the call. -/
def PipelineEnv.Throws (env : PipelineEnv) (punkId : Nat) (e : PipelineError) : Prop :=
  (e.step = .recordCreation ∧ env.createNft = .error e.message) ∨
  (e.step = .metadataPersistence ∧
    (env.jsonRent = .error e.message ∨ env.jsonBlockhash = .error e.message ∨
      env.jsonSend = .error e.message)) ∨
  (e.step = .binaryPersistence ∧
    ((env.imageFile = none ∧
        e.message = "Image not found: punk_" ++ toString punkId ++ ".png") ∨
      env.imageRent = .error e.message ∨ env.imageBlockhash = .error e.message ∨
      env.imageSend = .error e.message)) ∨
  (e.step = .linkage ∧
    (env.memoBlockhash = .error e.message ∨ env.memoSend = .error e.message))

/-- The outside makes step `k` fail: it rejects a call of that step, or, for
step 3, the payload file is not there. -/
def PipelineEnv.FailsIn (env : PipelineEnv) : Step → Prop
  | .recordCreation => ∃ m, env.createNft = .error m
  | .metadataPersistence =>
    (∃ m, env.jsonRent = .error m) ∨ (∃ m, env.jsonBlockhash = .error m) ∨
      (∃ m, env.jsonSend = .error m)
  | .binaryPersistence =>
    env.imageFile = none ∨ (∃ m, env.imageRent = .error m) ∨
      (∃ m, env.imageBlockhash = .error m) ∨ (∃ m, env.imageSend = .error m)
  | .linkage => (∃ m, env.memoBlockhash = .error m) ∨ (∃ m, env.memoSend = .error m)

/-- The kinds of ledger call the pipeline issues. A submitted transaction is an
`allocation` when it consists of one `createAccount` instruction and a
`selfTransfer` when it consists of one `transfer` instruction. -/
inductive CallKind where
  | createNft
  | rentQuery
  | blockhashQuery
  | allocation
  | selfTransfer
  | otherTransaction
deriving DecidableEq, Repr

def LedgerCall.kind : LedgerCall → CallKind
  | .createNft _ => .createNft
  | .getMinimumBalanceForRentExemption _ => .rentQuery
  | .getLatestBlockhash => .blockhashQuery
  | .sendAndConfirmTransaction tx _ =>
    match tx.instructions with
    | [.createAccount _ _ _ _ _] => .allocation
    | [.transfer _ _ _] => .selfTransfer
    | _ => .otherTransaction

/-- The calls of a complete run, by section and kind: record creation, JSON
allocation, binary allocation, linkage transaction. -/
def pipelineOrder : List (Step × CallKind) :=
  [(.recordCreation, .createNft),
   (.metadataPersistence, .rentQuery), (.metadataPersistence, .blockhashQuery),
   (.metadataPersistence, .allocation),
   (.binaryPersistence, .rentQuery), (.binaryPersistence, .blockhashQuery),
   (.binaryPersistence, .allocation),
   (.linkage, .blockhashQuery), (.linkage, .selfTransfer)]

/-- The section and kind of each call of a log. -/
def callTrace (log : List LedgerEffect) : List (Step × CallKind) :=
  log.map (fun c => (c.step, c.call.kind))

/-- The transactions submitted in step 4 of a run, each with its signers. -/
def linkageTransactions (log : List LedgerEffect) : List (Transaction × List String) :=
  log.filterMap (fun c => match c.step, c.call with
    | .linkage, .sendAndConfirmTransaction tx signers => some (tx, signers)
    | _, _ => none)

/-! ## Readings of the uploader's log and of its loop -/

/-- The identifiers passed to `uploadPunk`, in the order of the calls. -/
def attemptedIds (log : List UploaderEffect) : List Nat :=
  log.filterMap (fun e => match e with
    | .uploadPunk id => some id
    | _ => none)

/-- The manifests written to the file, in the order of the writes. -/
def flushedManifests (log : List UploaderEffect) : List UploadManifest :=
  log.filterMap (fun e => match e with
    | .writeManifest doc => some doc
    | _ => none)

/-- The pauses, in order, each with its length in milliseconds. -/
def pauses (log : List UploaderEffect) : List Nat :=
  log.filterMap (fun e => match e with
    | .sleep ms => some ms
    | _ => none)

/-- The list `punkIds` of a run: the identifiers of the range without an entry. -/
def pendingIds (manifest : UploadManifest) (startFrom endId : Nat) : List Nat :=
  (partitionIds manifest startFrom endId).2

/-- The locals of `main` when the batch loop is entered. -/
def uploadStart (w : UploaderWorld) (manifest : UploadManifest) : UploaderState :=
  { manifest := manifest, uploaded := 0, failed := 0, world := w }

/-- Group `g` of the list: `punkIds.slice(g * BATCH_SIZE, g * BATCH_SIZE + BATCH_SIZE)`. -/
def groupOf (punkIds : List Nat) (g : Nat) : List Nat :=
  (punkIds.drop (g * BATCH_SIZE)).take BATCH_SIZE

/-- The number of groups of a list of `n` identifiers: `Math.ceil(n / BATCH_SIZE)`. -/
def groupCount (n : Nat) : Nat := (n + BATCH_SIZE - 1) / BATCH_SIZE

/-- The loop's locals and the outside after the first `g` passes. -/
def stateAtGroup (env : UploaderEnv) (punkIds : List Nat) (st0 : UploaderState) :
    Nat → UploaderState
  | 0 => st0
  | g + 1 => uploadPass env punkIds (g * BATCH_SIZE) (stateAtGroup env punkIds st0 g)

/-- The outside when the process is killed while group `g` is in flight: the
calls of the group have been issued, `Promise.allSettled` has not resolved, so
no result of the group has been merged, and the manifest file is as the last
write left it. -/
def crashInGroup (env : UploaderEnv) (punkIds : List Nat) (st0 : UploaderState) (g : Nat) :
    UploaderWorld :=
  { manifestFile := (stateAtGroup env punkIds st0 g).world.manifestFile
    log := (stateAtGroup env punkIds st0 g).world.log ++ batchCalls env (groupOf punkIds g) }

/-- Whether the promise of `uploadPunk(key, i)` is rejected. -/
def uploadFails (env : UploaderEnv) (i : Nat) : Bool :=
  match (uploadPunk (env.punk i) i).1 with
  | .ok _ => false
  | .error _ => true

/-! ## Sample inputs -/

def sampleConfig : Config :=
  { payer := "PAYER"
    allMeta := fun i => if i = 0 then some { type := "Alien", traits := ["Cap "] } else none
    manifest := { uploads := [("1", ⟨"tx1", "https://arweave.net/tx1", 3, "t"⟩)], totalUploaded := 1 }
    stringify := fun j => j.name.toList.map Char.toNat
    sha256hex := fun b => toString b.length }

/-- Every call of the pipeline succeeds. -/
def okPipelineEnv : PipelineEnv :=
  { mintKey := "MINT", createNft := .ok ()
    jsonKey := "JSON", jsonRent := .ok 100, jsonBlockhash := .ok "h1", jsonSend := .ok "s1"
    imageFile := some [137, 80, 78, 71]
    imageKey := "IMAGE", imageRent := .ok 200, imageBlockhash := .ok "h2", imageSend := .ok "s2"
    memoBlockhash := .ok "h3", memoSend := .ok "s3" }

def okIterEnv : IterEnv :=
  { rnd := RandomDraw.zero, pipeline := okPipelineEnv
    nftTime := "t1", indexTime := "t2", indexUpdated := "t3" }

def sampleResult : OnChainResult :=
  { mintAddress := "MINT", jsonAccount := "JSON", imageAccount := "IMAGE"
    memoSignature := "s3", name := "X1 Punk #7", symbol := "X1PUNK"
    jsonSize := 10, imageSize := 4, imageHash := "4" }

def sampleRequest (quantity : Int) : InscribeRequest :=
  { wallet := "WALLET", quantity := quantity, txSignature := "PAYMENT" }

def sampleNft (id : Nat) : Nft :=
  mkNft sampleConfig (sampleRequest 1) id sampleResult "t0"

def sampleInscription (id : Nat) : Inscription :=
  { punkId := id, name := "X1 Punk #" ++ toString id, symbol := "X1PUNK", owner := "WALLET"
    inscribedAt := "t0"
    onChain := ⟨"MINT", "JSON", "IMAGE", "s3", 10, 4, "4"⟩
    metadata := buildInscriptionJson sampleConfig.allMeta id }

/-- The `createNft` call of step 1 throws `msg`. -/
def failsAtRecordCreation (msg : String) : PipelineEnv :=
  { okPipelineEnv with createNft := .error msg }

/-- The `sendAndConfirmTransaction` call of step 2 throws `msg`. -/
def failsAtMetadataPersistence (msg : String) : PipelineEnv :=
  { okPipelineEnv with jsonSend := .error msg }

/-- The `sendAndConfirmTransaction` call of step 3 throws `msg`. -/
def failsAtBinaryPersistence (msg : String) : PipelineEnv :=
  { okPipelineEnv with imageSend := .error msg }

/-- The payload file is not there. -/
def missingImageEnv : PipelineEnv :=
  { okPipelineEnv with imageFile := none }

/-- The first `k` passes succeed, every later pipeline run fails at step 2. -/
def failFrom (k : Nat) : Nat → IterEnv :=
  fun j => if j < k then okIterEnv
    else { okIterEnv with pipeline := failsAtMetadataPersistence "Transaction was not confirmed" }

/-- Every identifier of the collection was minted. -/
def soldOutWorld : World :=
  { stateFile := .json
      { mintedCount := 10000, mints := (List.range 10000).map sampleNft
        mintedIds := some (List.range 10000) }
    indexFile := .absent
    log := [] }

/-- Every identifier but 9999 was minted. -/
def lastOneWorld : World :=
  { stateFile := .json
      { mintedCount := 9999, mints := (List.range 9999).map sampleNft
        mintedIds := some (List.range 9999) }
    indexFile := .absent
    log := [] }

/-- The configuration `sampleConfig` with another serialisation of the metadata:
as many bytes, all zero. -/
def zeroedConfig : Config :=
  { sampleConfig with stringify := fun j => List.replicate j.name.length 0 }

/-- The answers `okPipelineEnv` with another payload file: as many bytes, all zero. -/
def zeroedPayloadEnv : PipelineEnv :=
  { okPipelineEnv with imageFile := some [0, 0, 0, 0] }

/-- No file on disk, nothing done yet. -/
def emptyWorld : World := { stateFile := .absent, indexFile := .absent, log := [] }

/-- Punk 7 was minted and indexed before. -/
def sampleWorld : World :=
  { stateFile := .json { mintedCount := 1, mints := [sampleNft 7], mintedIds := some [7] }
    indexFile := .json
      { program := PROGRAM_NAME, inscriptions := [sampleInscription 7]
        totalInscribed := 1, lastUpdated := some "t0" }
    log := [] }

/-- The answers `okPipelineEnv` with other keys for the three generated keypairs. -/
def otherKeysEnv : PipelineEnv :=
  { okPipelineEnv with mintKey := "MINT2", jsonKey := "JSON2", imageKey := "IMAGE2" }


/-! ## Sample inputs of the uploader -/

/-- Every payload file is there and every upload succeeds. -/
def okUploaderEnv : UploaderEnv :=
  { punk := fun i =>
      { imageFile := some [137, 80, 78, 71], uploadData := .ok ("tx" ++ toString i)
        uploadedAt := "u" ++ toString i }
    saveTime := fun b => "s" ++ toString b
    startedAt := "t0" }

/-- Every payload file is there and every upload is rejected by the network. -/
def timeoutUploaderEnv : UploaderEnv :=
  { okUploaderEnv with
    punk := fun _ =>
      { imageFile := some [137, 80, 78, 71], uploadData := .error "timeout", uploadedAt := "u" } }

/-- No manifest file, nothing done yet. -/
def emptyUploaderWorld : UploaderWorld := { manifestFile := .absent, log := [] }

/-- The manifest `loadManifest` returns when there is no file. -/
def emptyManifest : UploadManifest :=
  { uploads := ∅, totalUploaded := 0, startedAt := some "t0", lastUpdated := none }

/-- A manifest that holds punk 1. -/
def sampleManifest : UploadManifest :=
  { uploads := AList.insert "1" ⟨"tx1", "https://arweave.net/tx1", 4, "u1"⟩ ∅
    totalUploaded := 1, startedAt := some "t0", lastUpdated := some "s0" }

/-- The manifest file holds `sampleManifest`. -/
def sampleUploaderWorld : UploaderWorld := { manifestFile := .json sampleManifest, log := [] }

/-! ## Sample inputs of `main` and of the metadata logic -/

/-- The credential file is there, the network answers, every upload succeeds. -/
def okMainEnv : MainEnv :=
  { walletFile := .json "JWK", jwkToAddress := .ok "ADDR", getBalance := .ok "1000000000000"
    finalBalance := .ok "999000000000", uploader := okUploaderEnv }

/-- The credential file is there and the storage network cannot be reached: the
first balance call is rejected. -/
def offlineMainEnv : MainEnv :=
  { okMainEnv with getBalance := .error "getaddrinfo ENOTFOUND arweave.net" }

/-- The credential file is there, the balance calls succeed, every upload is
rejected. -/
def timeoutMainEnv : MainEnv := { okMainEnv with uploader := timeoutUploaderEnv }

/-- The manifest file is there and does not parse. -/
def brokenManifestWorld : UploaderWorld := { manifestFile := .unparsable, log := [] }

/-- A trait table file: a header, a punk with two accessories, a blank line, a
punk with none. -/
def sampleCsv : String := "type,a,b\nAlien,Hat, Pipe \n\nApe\n"

/-! ## Properties of the allocator -/

theorem mem_availableIds {S : List Nat} {i : Nat} :
    i ∈ availableIds S ↔ i < TOTAL_SUPPLY ∧ i ∉ S := by
  simp [availableIds, List.mem_filter, List.mem_range]

theorem randomIndex_lt (rnd : RandomDraw) {len : Nat} (h : 0 < len) :
    randomIndex rnd len < len := by
  unfold randomIndex
  have hlen : (0 : ℚ) < (len : ℚ) := by exact_mod_cast h
  have h0 : 0 ≤ rnd.val * (len : ℚ) := mul_nonneg rnd.nonneg hlen.le
  have h1 : rnd.val * (len : ℚ) < ((len : ℤ) : ℚ) := by
    have := mul_lt_mul_of_pos_right rnd.lt_one hlen
    simpa using this
  have hf : Int.floor (rnd.val * (len : ℚ)) < (len : ℤ) := Int.floor_lt.mpr h1
  have hf0 : 0 ≤ Int.floor (rnd.val * (len : ℚ)) := Int.floor_nonneg.mpr h0
  omega

theorem getRandomUnmintedId_eq_none {S : List Nat} {rnd : RandomDraw} :
    getRandomUnmintedId S rnd = none ↔ availableIds S = [] := by
  unfold getRandomUnmintedId
  constructor
  · intro h
    by_contra hne
    have hpos : 0 < (availableIds S).length := List.length_pos.mpr hne
    have hlt := randomIndex_lt rnd hpos
    simp only [Nat.ne_of_gt hpos, if_false] at h
    rw [List.getElem?_eq_none_iff] at h
    omega
  · intro h
    simp [h]

theorem getRandomUnmintedId_some {S : List Nat} {rnd : RandomDraw} {id : Nat}
    (h : getRandomUnmintedId S rnd = some id) : id ∈ availableIds S := by
  unfold getRandomUnmintedId at h
  by_cases hz : (availableIds S).length = 0
  · simp [hz] at h
  · simp only [hz, if_false] at h
    exact List.getElem?_mem h

/-- C1. For every list `S` of assigned identifiers and every random draw: if some
integer of `[0, 10000)` is not in `S`, `getRandomUnmintedId(S)` returns an
integer of `[0, 10000)` that is not in `S`; if every integer of `[0, 10000)` is
in `S`, it returns `null`. -/
theorem getRandomUnmintedId_spec (S : List Nat) (rnd : RandomDraw) :
    ((∃ i, i < 10000 ∧ i ∉ S) →
        ∃ id, getRandomUnmintedId S rnd = some id ∧ id < 10000 ∧ id ∉ S) ∧
    ((∀ i, i < 10000 → i ∈ S) → getRandomUnmintedId S rnd = none) := by
  constructor
  · rintro ⟨i, hi, hiS⟩
    cases hres : getRandomUnmintedId S rnd with
    | none =>
      have hnil := getRandomUnmintedId_eq_none.mp hres
      have hmem : i ∈ availableIds S := mem_availableIds.mpr ⟨hi, hiS⟩
      rw [hnil] at hmem
      exact absurd hmem (List.not_mem_nil i)
    | some id =>
      have hmem := mem_availableIds.mp (getRandomUnmintedId_some hres)
      exact ⟨id, rfl, hmem.1, hmem.2⟩
  · intro hall
    apply getRandomUnmintedId_eq_none.mpr
    apply List.eq_nil_iff_forall_not_mem.mpr
    intro a ha
    have hmem := mem_availableIds.mp ha
    exact hmem.2 (hall a hmem.1)

theorem getRandomUnmintedId_spec_witness :
    (∃ id, getRandomUnmintedId [0, 2] RandomDraw.zero = some id ∧ id < 10000 ∧ id ∉ [0, 2]) ∧
    getRandomUnmintedId (List.range 10000) RandomDraw.zero = none :=
  ⟨(getRandomUnmintedId_spec [0, 2] RandomDraw.zero).1 ⟨1, by decide, by decide⟩,
   (getRandomUnmintedId_spec (List.range 10000) RandomDraw.zero).2
     (fun _ h => List.mem_range.mpr h)⟩

/-! ## The batch loop keeps the mint-state invariant -/

theorem MintInvariant.push {st : MintState} (h : MintInvariant st) (nft : Nft)
    (hid : nft.id ∈ availableIds st.mintedIds) :
    MintInvariant
      { mints := st.mints ++ [nft], mintedIds := st.mintedIds ++ [nft.id],
        mintedCount := st.mintedCount + 1 } := by
  obtain ⟨h1, h2, h3, h4, h5⟩ := h
  have hmem := mem_availableIds.mp hid
  refine ⟨?_, ?_, ?_, ?_, ?_⟩
  · simp [h1]
  · simp [h2]
  · simp [h3]
  · exact List.Nodup.append h4 (List.nodup_singleton _) (by simpa using hmem.2)
  · intro id hidm
    rcases List.mem_append.mp hidm with hm | hm
    · exact h5 id hm
    · have : id = nft.id := by simpa using hm
      rw [this]; exact hmem.1

/-- The three ways through the loop body. -/
theorem inscribeBody_soldOut {cfg : Config} {req : InscribeRequest} {env : IterEnv}
    {state : MintState} {nfts : List Nft} {w : World}
    (hg : getRandomUnmintedId state.mintedIds env.rnd = none) :
    inscribeBody cfg req env state nfts w = .respond
      { response := ⟨400, .soldOut "Sold out!" nfts⟩
        state := some state, inscribedNfts := nfts
        world := if nfts.length > 0 then saveMintState w state else w } := by
  unfold inscribeBody
  simp only [hg]

theorem inscribeBody_ok {cfg : Config} {req : InscribeRequest} {env : IterEnv}
    {state : MintState} {nfts : List Nft} {w : World} {punkId : Nat}
    {r : OnChainResult} {effs : List LedgerEffect}
    (hg : getRandomUnmintedId state.mintedIds env.rnd = some punkId)
    (hp : inscribePunkOnChain cfg env.pipeline punkId req.wallet = (.ok r, effs)) :
    inscribeBody cfg req env state nfts w = .next
      { mints := state.mints ++ [mkNft cfg req punkId r env.nftTime]
        mintedIds := state.mintedIds ++ [punkId]
        mintedCount := state.mintedCount + 1 }
      (nfts ++ [mkNft cfg req punkId r env.nftTime])
      (saveMintState
        (indexInscription cfg (appendLedger w effs) punkId req.wallet r
          env.indexTime env.indexUpdated).2
        { mints := state.mints ++ [mkNft cfg req punkId r env.nftTime]
          mintedIds := state.mintedIds ++ [punkId]
          mintedCount := state.mintedCount + 1 }) := by
  unfold inscribeBody
  simp only [hg, hp]

theorem inscribeBody_error {cfg : Config} {req : InscribeRequest} {env : IterEnv}
    {state : MintState} {nfts : List Nft} {w : World} {punkId : Nat}
    {e : PipelineError} {effs : List LedgerEffect}
    (hg : getRandomUnmintedId state.mintedIds env.rnd = some punkId)
    (hp : inscribePunkOnChain cfg env.pipeline punkId req.wallet = (.error e, effs)) :
    inscribeBody cfg req env state nfts w = .respond
      (if nfts.length > 0 then
        { response := ⟨200, .partialSuccess true true req.quantity nfts.length nfts
            state.mintedCount
            ("Completed " ++ toString nfts.length ++ "/" ++ toString req.quantity ++
              ". Failed on punk #" ++ toString punkId ++ ": " ++ e.message)⟩
          state := some state, inscribedNfts := nfts
          world := saveMintState (appendLedger w effs) state }
      else
        { response := ⟨500, .failure ("Inscription failed: " ++ e.message) punkId⟩
          state := some state, inscribedNfts := nfts, world := appendLedger w effs }) := by
  unfold inscribeBody
  simp only [hg, hp]
  split <;> rfl

theorem inscribeBody_respond_state {cfg : Config} {req : InscribeRequest} {env : IterEnv}
    {state : MintState} {nfts : List Nft} {w : World} {o : Outcome}
    (h : inscribeBody cfg req env state nfts w = .respond o) : o.state = some state := by
  cases hg : getRandomUnmintedId state.mintedIds env.rnd with
  | none =>
    rw [inscribeBody_soldOut hg] at h
    cases h; rfl
  | some punkId =>
    rcases hp : inscribePunkOnChain cfg env.pipeline punkId req.wallet with ⟨res, effs⟩
    cases res with
    | error e =>
      rw [inscribeBody_error hg hp] at h
      cases h
      split <;> rfl
    | ok r =>
      rw [inscribeBody_ok hg hp] at h
      cases h

theorem inscribeBody_next_invariant {cfg : Config} {req : InscribeRequest} {env : IterEnv}
    {state : MintState} {nfts : List Nft} {w : World}
    {state1 : MintState} {nfts1 : List Nft} {w1 : World}
    (h : inscribeBody cfg req env state nfts w = .next state1 nfts1 w1)
    (hinv : MintInvariant state) : MintInvariant state1 := by
  cases hg : getRandomUnmintedId state.mintedIds env.rnd with
  | none =>
    rw [inscribeBody_soldOut hg] at h
    cases h
  | some punkId =>
    rcases hp : inscribePunkOnChain cfg env.pipeline punkId req.wallet with ⟨res, effs⟩
    cases res with
    | error e =>
      rw [inscribeBody_error hg hp] at h
      cases h
    | ok r =>
      rw [inscribeBody_ok hg hp] at h
      cases h
      exact MintInvariant.push hinv (mkNft cfg req punkId r env.nftTime)
        (getRandomUnmintedId_some hg)

theorem inscribeLoop_state_invariant (cfg : Config) (req : InscribeRequest)
    (envs : Nat → IterEnv) :
    ∀ (remaining i : Nat) (state : MintState) (nfts : List Nft) (w : World),
      MintInvariant state →
      ∀ st, (inscribeLoop cfg req envs remaining i state nfts w).state = some st →
        MintInvariant st := by
  intro remaining
  induction remaining with
  | zero =>
    intro i state nfts w hinv st hst
    simp only [inscribeLoop, Option.some.injEq] at hst
    exact hst ▸ hinv
  | succ n ih =>
    intro i state nfts w hinv st hst
    rw [inscribeLoop] at hst
    cases hb : inscribeBody cfg req (envs i) state nfts w with
    | respond o =>
      simp only [hb] at hst
      rw [inscribeBody_respond_state hb, Option.some.injEq] at hst
      exact hst ▸ hinv
    | next state1 nfts1 w1 =>
      simp only [hb] at hst
      exact ih _ _ _ _ (inscribeBody_next_invariant hb hinv) st hst

/-- Once `mint-state.json` holds the handler's state, it holds it at the response. -/
theorem inscribeLoop_stateFile_synced (cfg : Config) (req : InscribeRequest)
    (envs : Nat → IterEnv) :
    ∀ (remaining i : Nat) (state : MintState) (nfts : List Nft) (w : World),
      w.stateFile = .json state.toDoc →
      ∃ st, (inscribeLoop cfg req envs remaining i state nfts w).state = some st ∧
        (inscribeLoop cfg req envs remaining i state nfts w).world.stateFile
          = .json st.toDoc := by
  intro remaining
  induction remaining with
  | zero =>
    intro i state nfts w hw
    exact ⟨state, by simp [inscribeLoop], by simpa [inscribeLoop] using hw⟩
  | succ n ih =>
    intro i state nfts w hw
    rw [inscribeLoop]
    cases hg : getRandomUnmintedId state.mintedIds (envs i).rnd with
    | none =>
      rw [inscribeBody_soldOut hg]
      refine ⟨state, rfl, ?_⟩
      show (if nfts.length > 0 then saveMintState w state else w).stateFile = _
      split
      · rfl
      · exact hw
    | some punkId =>
      rcases hp : inscribePunkOnChain cfg (envs i).pipeline punkId req.wallet with ⟨res, effs⟩
      cases res with
      | error e =>
        rw [inscribeBody_error hg hp]
        refine ⟨state, ?_, ?_⟩
        · show (ite _ _ _ : Outcome).state = _
          split <;> rfl
        · show (ite _ _ _ : Outcome).world.stateFile = _
          split
          · rfl
          · exact hw
      | ok r =>
        rw [inscribeBody_ok hg hp]
        exact ih _ _ _ _ rfl

/-- At the response `mint-state.json` is as it was before the request or holds
the handler's state. -/
theorem inscribeLoop_stateFile (cfg : Config) (req : InscribeRequest)
    (envs : Nat → IterEnv) (remaining i : Nat) (state : MintState) (w : World) :
    (inscribeLoop cfg req envs remaining i state [] w).world.stateFile = w.stateFile ∨
    ∃ st, (inscribeLoop cfg req envs remaining i state [] w).state = some st ∧
      (inscribeLoop cfg req envs remaining i state [] w).world.stateFile = .json st.toDoc := by
  cases remaining with
  | zero => left; simp [inscribeLoop]
  | succ n =>
    rw [inscribeLoop]
    cases hg : getRandomUnmintedId state.mintedIds (envs i).rnd with
    | none =>
      rw [inscribeBody_soldOut hg]
      left; rfl
    | some punkId =>
      rcases hp : inscribePunkOnChain cfg (envs i).pipeline punkId req.wallet with ⟨res, effs⟩
      cases res with
      | error e =>
        rw [inscribeBody_error hg hp]
        left; rfl
      | ok r =>
        rw [inscribeBody_ok hg hp]
        right
        exact inscribeLoop_stateFile_synced cfg req envs _ _ _ _ _ rfl

/-- C2. The `POST /api/inscribe` batch loop preserves the mint-state invariant:
if the loaded state has `mintedCount == len(mints) == len(mintedIds)`,
`mintedIds` the ids of `mints`, pairwise distinct and within `[0, 10000)`, then
for every request, every quantity and every sequence of random draws and
pipeline outcomes, the handler's state at the moment of the response satisfies
the same invariant; and `mint-state.json` is then either as it was before the
request or a document that satisfies the invariant. -/
theorem handleInscribe_preserves_invariant (cfg : Config) (w : World)
    (req : InscribeRequest) (envs : Nat → IterEnv)
    (hinv : MintInvariant (getMintState w)) :
    (∀ st, (handleInscribe cfg w req envs).state = some st → MintInvariant st) ∧
    ((handleInscribe cfg w req envs).world.stateFile = w.stateFile ∨
      ∃ doc, (handleInscribe cfg w req envs).world.stateFile = .json doc ∧
        DocInvariant doc) := by
  have hstate : ∀ st, (handleInscribe cfg w req envs).state = some st → MintInvariant st := by
    intro st hst
    unfold handleInscribe at hst
    split at hst
    · simp at hst
    · split at hst
      · simp at hst
      · exact inscribeLoop_state_invariant cfg req envs _ _ _ _ _ hinv st hst
  refine ⟨hstate, ?_⟩
  have hfile : (handleInscribe cfg w req envs).world.stateFile = w.stateFile ∨
      ∃ st, (handleInscribe cfg w req envs).state = some st ∧
        (handleInscribe cfg w req envs).world.stateFile = .json st.toDoc := by
    unfold handleInscribe
    split
    · left; rfl
    · split
      · left; rfl
      · exact inscribeLoop_stateFile cfg req envs _ _ _ _
  rcases hfile with h | ⟨st, hst, hdoc⟩
  · exact Or.inl h
  · exact Or.inr ⟨st.toDoc, hdoc, st.mintedIds, rfl, hstate st hst⟩

theorem handleInscribe_preserves_invariant_witness :
    MintInvariant (getMintState sampleWorld) ∧
    ∀ st, (handleInscribe sampleConfig sampleWorld (sampleRequest 3)
      (fun _ => okIterEnv)).state = some st → MintInvariant st :=
  ⟨by decide,
   (handleInscribe_preserves_invariant sampleConfig sampleWorld (sampleRequest 3)
     (fun _ => okIterEnv) (by decide)).1⟩

/-! ## The inscription index: first write wins -/

theorem indexInscription_of_find_some {cfg : Config} {w : World} {punkId : Nat}
    {wallet : String} {r : OnChainResult} {t1 t2 : String} {existing : Inscription}
    (h : (getInscriptionsIndex w).inscriptions.find? (fun i => i.punkId == punkId)
      = some existing) :
    indexInscription cfg w punkId wallet r t1 t2 = (existing, w) := by
  unfold indexInscription
  simp only [h]

theorem indexInscription_of_find_none {cfg : Config} {w : World} {punkId : Nat}
    {wallet : String} {r : OnChainResult} {t1 t2 : String}
    (h : (getInscriptionsIndex w).inscriptions.find? (fun i => i.punkId == punkId) = none) :
    indexInscription cfg w punkId wallet r t1 t2 =
      (mkInscription cfg punkId wallet r t1,
       saveInscriptionsIndex w
        { getInscriptionsIndex w with
          inscriptions := (getInscriptionsIndex w).inscriptions ++
            [mkInscription cfg punkId wallet r t1]
          lastUpdated := some t2
          totalInscribed := ((getInscriptionsIndex w).inscriptions ++
            [mkInscription cfg punkId wallet r t1]).length }) := by
  unfold indexInscription
  simp only [h]

theorem getInscriptionsIndex_save (w : World) (index : InscriptionsIndex) :
    getInscriptionsIndex (saveInscriptionsIndex w index) = index := rfl

/-- C3. `indexInscription` keeps at most one record per asset id and the first
write is authoritative: for every index with pairwise distinct punkIds, a call
with a punkId already present returns the existing record and leaves the whole
outside (index records, totalInscribed, lastUpdated, the persisted file, no
write issued) unchanged; a call with a new punkId appends exactly one record,
for that punkId, and persists the index; in both cases the resulting index again
has pairwise distinct punkIds. -/
theorem indexInscription_first_write_wins (cfg : Config) (w : World) (punkId : Nat)
    (wallet : String) (r : OnChainResult) (t1 t2 : String)
    (hnd : ((getInscriptionsIndex w).inscriptions.map (fun i => i.punkId)).Nodup) :
    (∀ existing ∈ (getInscriptionsIndex w).inscriptions, existing.punkId = punkId →
      indexInscription cfg w punkId wallet r t1 t2 = (existing, w)) ∧
    ((∀ x ∈ (getInscriptionsIndex w).inscriptions, x.punkId ≠ punkId) →
      ∃ record w1, indexInscription cfg w punkId wallet r t1 t2 = (record, w1) ∧
        record.punkId = punkId ∧
        (getInscriptionsIndex w1).inscriptions =
          (getInscriptionsIndex w).inscriptions ++ [record] ∧
        w1.indexFile = .json (getInscriptionsIndex w1) ∧
        w1.log = w.log ++ [.writeIndexFile (getInscriptionsIndex w1)] ∧
        w1.stateFile = w.stateFile) ∧
    ((getInscriptionsIndex (indexInscription cfg w punkId wallet r t1 t2).2).inscriptions.map
      (fun i => i.punkId)).Nodup := by
  have hpresent : ∀ existing ∈ (getInscriptionsIndex w).inscriptions,
      existing.punkId = punkId →
      indexInscription cfg w punkId wallet r t1 t2 = (existing, w) := by
    intro existing hmem hid
    cases hf : (getInscriptionsIndex w).inscriptions.find? (fun i => i.punkId == punkId) with
    | none =>
      have := List.find?_eq_none.mp hf existing hmem
      simp [hid] at this
    | some x =>
      have hx : x.punkId = punkId := by simpa using List.find?_some hf
      have hxm : x ∈ (getInscriptionsIndex w).inscriptions := List.mem_of_find?_eq_some hf
      have hxe : x = existing :=
        List.inj_on_of_nodup_map hnd hxm hmem (hx.trans hid.symm)
      rw [indexInscription_of_find_some hf, hxe]
  refine ⟨hpresent, ?_, ?_⟩
  · intro hnew
    have hf : (getInscriptionsIndex w).inscriptions.find? (fun i => i.punkId == punkId)
        = none := by
      apply List.find?_eq_none.mpr
      intro x hx
      simpa using hnew x hx
    rw [indexInscription_of_find_none hf]
    exact ⟨_, _, rfl, rfl, rfl, rfl, rfl, rfl⟩
  · cases hf : (getInscriptionsIndex w).inscriptions.find? (fun i => i.punkId == punkId) with
    | some x =>
      rw [indexInscription_of_find_some hf]
      exact hnd
    | none =>
      rw [indexInscription_of_find_none hf, getInscriptionsIndex_save]
      simp only [List.map_append, List.map_cons, List.map_nil]
      refine List.Nodup.append hnd (List.nodup_singleton _) ?_
      have hnone := List.find?_eq_none.mp hf
      intro a ha hb
      obtain ⟨x, hx, rfl⟩ := List.mem_map.mp ha
      have hne := hnone x hx
      have hb1 : x.punkId = punkId := by simpa [mkInscription] using hb
      simp [hb1] at hne

theorem indexInscription_first_write_wins_witness :
    ((getInscriptionsIndex sampleWorld).inscriptions.map (fun i => i.punkId)).Nodup ∧
    indexInscription sampleConfig sampleWorld 7 "OTHER" sampleResult "t8" "t9"
      = (sampleInscription 7, sampleWorld) :=
  ⟨by decide,
   (indexInscription_first_write_wins sampleConfig sampleWorld 7 "OTHER" sampleResult "t8" "t9"
     (by decide)).1 (sampleInscription 7) (by decide) rfl⟩

/-! ## Runs of the batch loop -/

theorem nodup_availableIds (S : List Nat) : (availableIds S).Nodup := by
  unfold availableIds
  exact (List.nodup_range _).filter _

theorem availableIds_push {S : List Nat} {p : Nat} (hp : p ∈ availableIds S) :
    (availableIds (S ++ [p])).length + 1 = (availableIds S).length := by
  have hfilter : availableIds (S ++ [p]) = (availableIds S).filter (fun i => i != p) := by
    unfold availableIds
    rw [List.filter_filter]
    apply List.filter_congr
    intro x _
    by_cases hx : x = p <;> simp [hx, Bool.and_comm]
  rw [hfilter, ← (nodup_availableIds S).erase_eq_filter p, List.length_erase_of_mem hp]
  have : 0 < (availableIds S).length := List.length_pos_of_mem hp
  omega

theorem MintState.extend_nil (st : MintState) : st.extend [] = st := by
  simp [MintState.extend]

theorem MintState.extend_cons (st : MintState) (nft : Nft) (rest : List Nft) :
    st.extend (nft :: rest) =
      MintState.extend
        { mints := st.mints ++ [nft], mintedIds := st.mintedIds ++ [nft.id],
          mintedCount := st.mintedCount + 1 } rest := by
  simp [MintState.extend, Nat.add_comm, Nat.add_left_comm]

theorem mkNft_id (cfg : Config) (req : InscribeRequest) (punkId : Nat) (r : OnChainResult)
    (t : String) : (mkNft cfg req punkId r t).id = punkId := rfl

theorem mkNft_owner (cfg : Config) (req : InscribeRequest) (punkId : Nat) (r : OnChainResult)
    (t : String) : (mkNft cfg req punkId r t).owner = req.wallet := rfl

theorem inscribePunkOnChain_pipelineCalls (cfg : Config) (env : PipelineEnv) (punkId : Nat)
    (wallet : String) :
    pipelineCalls ((inscribePunkOnChain cfg env punkId wallet).2.map Effect.ledger) = 1 := by
  unfold inscribePunkOnChain
  repeat' split
  all_goals rfl

theorem pipelineCalls_append (l1 l2 : List Effect) :
    pipelineCalls (l1 ++ l2) = pipelineCalls l1 + pipelineCalls l2 := by
  simp [pipelineCalls, List.countP_append]

theorem pipelineCalls_saveMintState (w : World) (st : MintState) :
    pipelineCalls (saveMintState w st).log = pipelineCalls w.log := by
  simp [saveMintState, pipelineCalls_append, pipelineCalls, isPipelineStart]

theorem pipelineCalls_indexInscription (cfg : Config) (w : World) (punkId : Nat)
    (wallet : String) (r : OnChainResult) (t1 t2 : String) :
    pipelineCalls (indexInscription cfg w punkId wallet r t1 t2).2.log = pipelineCalls w.log := by
  cases hf : (getInscriptionsIndex w).inscriptions.find? (fun i => i.punkId == punkId) with
  | some x => rw [indexInscription_of_find_some hf]
  | none =>
    rw [indexInscription_of_find_none hf]
    simp [saveInscriptionsIndex, pipelineCalls_append, pipelineCalls, isPipelineStart]

theorem stateFile_indexInscription (cfg : Config) (w : World) (punkId : Nat)
    (wallet : String) (r : OnChainResult) (t1 t2 : String) :
    (indexInscription cfg w punkId wallet r t1 t2).2.stateFile = w.stateFile := by
  cases hf : (getInscriptionsIndex w).inscriptions.find? (fun i => i.punkId == punkId) with
  | some x => rw [indexInscription_of_find_some hf]
  | none => rw [indexInscription_of_find_none hf]; rfl

theorem pipelineCalls_appendLedger_run (cfg : Config) (env : PipelineEnv) (punkId : Nat)
    (wallet : String) (w : World) :
    pipelineCalls (appendLedger w (inscribePunkOnChain cfg env punkId wallet).2).log
      = pipelineCalls w.log + 1 := by
  simp [appendLedger, pipelineCalls_append, inscribePunkOnChain_pipelineCalls]

/-- As long as identifiers are left and the pipeline succeeds, `k` passes through
the loop body append `k` records, one per pass, and persist the state. -/
theorem inscribeLoop_successes (cfg : Config) (req : InscribeRequest)
    (envs : Nat → IterEnv) :
    ∀ (k remaining i : Nat) (state : MintState) (nfts : List Nft) (w : World),
      (∀ j, j < k → ∀ id, ∃ r effs,
        inscribePunkOnChain cfg (envs (i + j)).pipeline id req.wallet = (.ok r, effs)) →
      k ≤ (availableIds state.mintedIds).length →
      ∃ (newNfts : List Nft) (w1 : World),
        newNfts.length = k ∧
        inscribeLoop cfg req envs (remaining + k) i state nfts w =
          inscribeLoop cfg req envs remaining (i + k) (state.extend newNfts)
            (nfts ++ newNfts) w1 ∧
        (availableIds (state.extend newNfts).mintedIds).length + k =
          (availableIds state.mintedIds).length ∧
        (0 < k → w1.stateFile = .json (state.extend newNfts).toDoc) ∧
        (k = 0 → w1 = w) ∧
        (∀ n ∈ newNfts, n.owner = req.wallet ∧ n.id < 10000 ∧ n.id ∉ state.mintedIds) ∧
        (newNfts.map (fun n => n.id)).Nodup ∧
        pipelineCalls w1.log = pipelineCalls w.log + k ∧
        (∀ j n, newNfts[j]? = some n → ∃ r effs,
          inscribePunkOnChain cfg (envs (i + j)).pipeline n.id req.wallet = (.ok r, effs) ∧
          n = mkNft cfg req n.id r (envs (i + j)).nftTime) := by
  intro k
  induction k with
  | zero =>
    intro remaining i state nfts w _ _
    refine ⟨[], w, rfl, ?_, ?_, ?_, ?_, ?_, ?_, rfl, ?_⟩
    rotate_right
    · intro j n hn
      simp at hn
    · simp [MintState.extend_nil]
    · simp [MintState.extend_nil]
    · intro h; exact absurd h (Nat.lt_irrefl 0)
    · intro _; rfl
    · intro n hn; exact absurd hn (List.not_mem_nil n)
    · exact List.nodup_nil
  | succ k ih =>
    intro remaining i state nfts w hok havail
    obtain ⟨punkId, hg⟩ : ∃ punkId, getRandomUnmintedId state.mintedIds (envs i).rnd
        = some punkId := by
      cases hg : getRandomUnmintedId state.mintedIds (envs i).rnd with
      | some punkId => exact ⟨punkId, rfl⟩
      | none =>
        have := getRandomUnmintedId_eq_none.mp hg
        rw [this] at havail
        simp at havail
    have hmem := getRandomUnmintedId_some hg
    obtain ⟨r, effs, hp⟩ := hok 0 (Nat.succ_pos k) punkId
    rw [Nat.add_zero] at hp
    have hpush := availableIds_push hmem
    obtain ⟨rest, w1, hlen, hrun, hav, hfile, hsame, hprops, hnd, hcalls, hrec⟩ :=
      ih remaining (i + 1)
        { mints := state.mints ++ [mkNft cfg req punkId r (envs i).nftTime]
          mintedIds := state.mintedIds ++ [punkId]
          mintedCount := state.mintedCount + 1 }
        (nfts ++ [mkNft cfg req punkId r (envs i).nftTime])
        (saveMintState
          (indexInscription cfg (appendLedger w effs) punkId req.wallet r
            (envs i).indexTime (envs i).indexUpdated).2
          { mints := state.mints ++ [mkNft cfg req punkId r (envs i).nftTime]
            mintedIds := state.mintedIds ++ [punkId]
            mintedCount := state.mintedCount + 1 })
        (by
          intro j hj id
          have := hok (j + 1) (Nat.succ_lt_succ hj) id
          rwa [show i + (j + 1) = i + 1 + j by omega] at this)
        (by
          show k ≤ (availableIds (state.mintedIds ++ [punkId])).length
          omega)
    have hext : state.extend (mkNft cfg req punkId r (envs i).nftTime :: rest) =
        MintState.extend
          { mints := state.mints ++ [mkNft cfg req punkId r (envs i).nftTime]
            mintedIds := state.mintedIds ++ [punkId]
            mintedCount := state.mintedCount + 1 } rest :=
      MintState.extend_cons state _ rest
    refine ⟨mkNft cfg req punkId r (envs i).nftTime :: rest, w1, ?_, ?_, ?_, ?_, ?_, ?_, ?_, ?_, ?_⟩
    · simp [hlen]
    · rw [show remaining + (k + 1) = (remaining + k) + 1 by omega, inscribeLoop,
        inscribeBody_ok hg hp]
      simp only []
      rw [hrun, hext, show i + 1 + k = i + (k + 1) by omega]
      simp
    · rw [hext]
      have hav1 : (availableIds (MintState.extend
          { mints := state.mints ++ [mkNft cfg req punkId r (envs i).nftTime]
            mintedIds := state.mintedIds ++ [punkId]
            mintedCount := state.mintedCount + 1 } rest).mintedIds).length + k =
          (availableIds (state.mintedIds ++ [punkId])).length := hav
      omega
    · intro _
      rw [hext]
      rcases Nat.eq_zero_or_pos k with hk | hk
      · have hw := hsame hk
        have hrest : rest = [] := List.length_eq_zero.mp (hlen.trans hk)
        rw [hw, hrest, MintState.extend_nil]
        rfl
      · exact hfile hk
    · intro h; exact absurd h (Nat.succ_ne_zero k)
    · intro n hn
      rcases List.mem_cons.mp hn with hn | hn
      · rw [hn]
        have := mem_availableIds.mp hmem
        exact ⟨rfl, this.1, this.2⟩
      · obtain ⟨h1, h2, h3⟩ := hprops n hn
        refine ⟨h1, h2, ?_⟩
        intro hin
        exact h3 (List.mem_append_left _ hin)
    · rw [List.map_cons, List.nodup_cons]
      refine ⟨?_, hnd⟩
      intro hin
      obtain ⟨n, hn, hnid⟩ := List.mem_map.mp hin
      have := (hprops n hn).2.2
      apply this
      rw [hnid]
      exact List.mem_append_right _ (List.mem_singleton.mpr rfl)
    · rw [hcalls, pipelineCalls_saveMintState, pipelineCalls_indexInscription]
      have h1 := pipelineCalls_appendLedger_run cfg (envs i).pipeline punkId req.wallet w
      rw [hp] at h1
      simp only [] at h1
      omega
    · intro j n hn
      cases j with
      | zero =>
        have hn0 : mkNft cfg req punkId r (envs i).nftTime = n := by simpa using hn
        subst hn0
        exact ⟨r, effs, hp, rfl⟩
      | succ j =>
        have hn1 : rest[j]? = some n := by simpa using hn
        obtain ⟨r1, effs1, hp1, hn2⟩ := hrec j n hn1
        rw [show i + 1 + j = i + (j + 1) by omega] at hp1 hn2
        exact ⟨r1, effs1, hp1, hn2⟩

theorem hasUnassigned_iff {S : List Nat} {n : Nat} :
    HasUnassigned S n ↔ n ≤ (availableIds S).length := by
  constructor
  · rintro ⟨free, hnd, hlen, hfree⟩
    have hsub : free ⊆ availableIds S := fun x hx => mem_availableIds.mpr (hfree x hx)
    have := (hnd.subperm hsub).length_le
    omega
  · intro h
    refine ⟨(availableIds S).take n, ?_, ?_, ?_⟩
    · exact (nodup_availableIds S).sublist (List.take_sublist _ _)
    · simp [List.length_take, h]
    · intro x hx
      exact mem_availableIds.mp (List.mem_of_mem_take hx)

theorem handleInscribe_valid {cfg : Config} {w : World} {req : InscribeRequest}
    {envs : Nat → IterEnv} (hv : req.Valid) :
    handleInscribe cfg w req envs =
      inscribeLoop cfg req envs req.quantity.toNat 0 (getMintState w) [] w := by
  obtain ⟨h1, h2, h3, h4⟩ := hv
  unfold handleInscribe
  have hq0 : req.quantity ≠ 0 := by omega
  rw [if_neg (by simp [h1, h2, hq0]), if_neg (by omega)]

theorem partialError_contains (done : Nat) (quantity : Int) (punkId : Nat) (msg : String) :
    ∃ pre post, "Completed " ++ toString done ++ "/" ++ toString quantity ++
        ". Failed on punk #" ++ toString punkId ++ ": " ++ msg
      = pre ++ ("punk #" ++ toString punkId) ++ post := by
  refine ⟨"Completed " ++ toString done ++ "/" ++ toString quantity ++ ". Failed on ",
    ": " ++ msg, ?_⟩
  have h : ". Failed on punk #" = ". Failed on " ++ "punk #" := by decide
  rw [h]
  simp only [String.append_assoc]

/-- What the handler does when `k` pipeline calls succeed and call `k + 1` fails. -/
theorem handleInscribe_failure_after (cfg : Config) (w : World) (req : InscribeRequest)
    (envs : Nat → IterEnv) (k : Nat) (hv : req.Valid) (hk : (k : Int) < req.quantity)
    (hok : ∀ j, j < k → ∀ id, ∃ r effs,
      inscribePunkOnChain cfg (envs j).pipeline id req.wallet = (.ok r, effs))
    (hfail : ∀ id, ∃ e effs,
      inscribePunkOnChain cfg (envs k).pipeline id req.wallet = (.error e, effs))
    (havail : HasUnassigned (getMintState w).mintedIds (k + 1)) :
    ∃ (minted : List Nft) (failedId : Nat) (e : PipelineError) (effs : List LedgerEffect)
      (w1 : World),
      minted.length = k ∧
      (∀ n ∈ minted, n.owner = req.wallet ∧ n.id < 10000 ∧
        n.id ∉ (getMintState w).mintedIds) ∧
      (minted.map (fun n => n.id)).Nodup ∧
      getRandomUnmintedId ((getMintState w).extend minted).mintedIds (envs k).rnd
        = some failedId ∧
      inscribePunkOnChain cfg (envs k).pipeline failedId req.wallet = (.error e, effs) ∧
      (0 < k → w1.stateFile = .json ((getMintState w).extend minted).toDoc) ∧
      (k = 0 → w1 = w) ∧
      pipelineCalls w1.log = pipelineCalls w.log + k ∧
      (∀ j n, minted[j]? = some n → ∃ r effs,
        inscribePunkOnChain cfg (envs j).pipeline n.id req.wallet = (.ok r, effs) ∧
        n = mkNft cfg req n.id r (envs j).nftTime) ∧
      handleInscribe cfg w req envs =
        (if k > 0 then
          { response := ⟨200, .partialSuccess true true req.quantity k minted
              ((getMintState w).mintedCount + k)
              ("Completed " ++ toString k ++ "/" ++ toString req.quantity ++
                ". Failed on punk #" ++ toString failedId ++ ": " ++ e.message)⟩
            state := some ((getMintState w).extend minted), inscribedNfts := minted
            world := saveMintState (appendLedger w1 effs) ((getMintState w).extend minted) }
        else
          { response := ⟨500, .failure ("Inscription failed: " ++ e.message) failedId⟩
            state := some ((getMintState w).extend minted), inscribedNfts := minted
            world := appendLedger w1 effs }) := by
  have hav := hasUnassigned_iff.mp havail
  obtain ⟨hv1, hv2, hv3, hv4⟩ := hv
  have hrem : req.quantity.toNat = (req.quantity.toNat - (k + 1)) + 1 + k := by omega
  obtain ⟨minted, w1, hlen, hrun, havk, hfile, hsame, hprops, hnd, hcalls, hrec⟩ :=
    inscribeLoop_successes cfg req envs k (req.quantity.toNat - (k + 1) + 1) 0
      (getMintState w) [] w
      (by intro j hj id; simpa using hok j hj id) (by omega)
  simp only [Nat.zero_add, List.nil_append] at hrun hrec
  obtain ⟨failedId, hg⟩ : ∃ failedId,
      getRandomUnmintedId ((getMintState w).extend minted).mintedIds (envs k).rnd
        = some failedId := by
    cases hg : getRandomUnmintedId ((getMintState w).extend minted).mintedIds (envs k).rnd with
    | some x => exact ⟨x, rfl⟩
    | none =>
      have := getRandomUnmintedId_eq_none.mp hg
      rw [this] at havk
      simp at havk
      omega
  obtain ⟨e, effs, hp⟩ := hfail failedId
  refine ⟨minted, failedId, e, effs, w1, hlen, hprops, hnd, hg, hp, hfile, hsame, hcalls, hrec, ?_⟩
  rw [handleInscribe_valid ⟨hv1, hv2, hv3, hv4⟩, hrem, hrun, inscribeLoop,
    inscribeBody_error hg hp]
  simp only [hlen, MintState.extend, Nat.add_comm]

/-- C4. Partial failure: for every quantity `q` in `2..10` and every `k` with
`1 <= k < q`, if the first `k` pipeline calls succeed and call `k + 1` fails
(identifiers being left for all `k + 1` allocations), the handler makes exactly
`k + 1` pipeline calls and stops, responds 200 with `success: true`,
`partial: true`, `completed: k`, `minted` the `k` provisioned records,
`totalMinted` the initial `mintedCount + k` and an error string containing
`punk #<id>` for the failed identifier, and the mint state, in memory and on
disk, is the initial state with exactly those `k` records appended, record `j`
being the `nft` built from the result of pipeline call `j`. -/
theorem handleInscribe_partial_failure (cfg : Config) (w : World) (req : InscribeRequest)
    (envs : Nat → IterEnv) (k : Nat)
    (hwallet : req.wallet ≠ "") (hsig : req.txSignature ≠ "")
    (hq : 2 ≤ req.quantity ∧ req.quantity ≤ 10)
    (hk : 1 ≤ k ∧ (k : Int) < req.quantity)
    (hok : ∀ j, j < k → ∀ id, ∃ r effs,
      inscribePunkOnChain cfg (envs j).pipeline id req.wallet = (.ok r, effs))
    (hfail : ∀ id, ∃ e effs,
      inscribePunkOnChain cfg (envs k).pipeline id req.wallet = (.error e, effs))
    (havail : HasUnassigned (getMintState w).mintedIds (k + 1)) :
    ∃ (minted : List Nft) (failedId : Nat) (e : PipelineError) (effs : List LedgerEffect),
      minted.length = k ∧
      (∀ n ∈ minted, n.owner = req.wallet ∧ n.id < 10000 ∧
        n.id ∉ (getMintState w).mintedIds) ∧
      (minted.map (fun n => n.id)).Nodup ∧
      (∀ j n, minted[j]? = some n → ∃ r effs,
        inscribePunkOnChain cfg (envs j).pipeline n.id req.wallet = (.ok r, effs) ∧
        n = mkNft cfg req n.id r (envs j).nftTime) ∧
      getRandomUnmintedId ((getMintState w).extend minted).mintedIds (envs k).rnd
        = some failedId ∧
      inscribePunkOnChain cfg (envs k).pipeline failedId req.wallet = (.error e, effs) ∧
      (handleInscribe cfg w req envs).response =
        ⟨200, .partialSuccess true true req.quantity k minted
          ((getMintState w).mintedCount + k)
          ("Completed " ++ toString k ++ "/" ++ toString req.quantity ++
            ". Failed on punk #" ++ toString failedId ++ ": " ++ e.message)⟩ ∧
      (∃ pre post, "Completed " ++ toString k ++ "/" ++ toString req.quantity ++
          ". Failed on punk #" ++ toString failedId ++ ": " ++ e.message
        = pre ++ ("punk #" ++ toString failedId) ++ post) ∧
      (handleInscribe cfg w req envs).state = some ((getMintState w).extend minted) ∧
      (handleInscribe cfg w req envs).world.stateFile =
        .json ((getMintState w).extend minted).toDoc ∧
      ((getMintState w).extend minted).mints = (getMintState w).mints ++ minted ∧
      pipelineCalls (handleInscribe cfg w req envs).world.log = pipelineCalls w.log + (k + 1) := by
  obtain ⟨minted, failedId, e, effs, w1, hlen, hprops, hnd, hg, hp, _, _, hcalls, hrec, hout⟩ :=
    handleInscribe_failure_after cfg w req envs k ⟨hwallet, hsig, by omega, hq.2⟩ hk.2
      hok hfail havail
  rw [if_pos (by omega)] at hout
  refine ⟨minted, failedId, e, effs, hlen, hprops, hnd, hrec, hg, hp, ?_,
    partialError_contains _ _ _ _, ?_, ?_, rfl, ?_⟩
  · rw [hout]
  · rw [hout]
  · rw [hout]; rfl
  · rw [hout]
    simp only [pipelineCalls_saveMintState]
    have h1 := pipelineCalls_appendLedger_run cfg (envs k).pipeline failedId req.wallet w1
    rw [hp] at h1
    simp only [] at h1
    omega

theorem handleInscribe_partial_failure_witness :
    HasUnassigned (getMintState sampleWorld).mintedIds 2 ∧
    ∃ minted : List Nft, minted.length = 1 ∧
      (handleInscribe sampleConfig sampleWorld (sampleRequest 3) (failFrom 1)).state
        = some ((getMintState sampleWorld).extend minted) ∧
      (handleInscribe sampleConfig sampleWorld (sampleRequest 3) (failFrom 1)).world.stateFile
        = .json ((getMintState sampleWorld).extend minted).toDoc :=
  have havail : HasUnassigned (getMintState sampleWorld).mintedIds 2 :=
    ⟨[0, 1], by decide, rfl, by decide⟩
  ⟨havail,
   match handleInscribe_partial_failure sampleConfig sampleWorld (sampleRequest 3) (failFrom 1) 1
      (by decide) (by decide) (by decide) (by decide)
      (fun j hj _ => by
        have hj0 : j = 0 := by omega
        subst hj0
        exact ⟨_, _, rfl⟩)
      (fun _ => ⟨_, _, rfl⟩) havail with
   | ⟨minted, _, _, _, hlen, _, _, _, _, _, _, _, hstate, hfile, _, _⟩ =>
     ⟨minted, hlen, hstate, hfile⟩⟩

/-! ## Sold out, and exhaustion in the middle of a batch -/

/-- What the handler does when `k` pipeline calls succeed and no identifier is
left for call `k + 1`. -/
theorem handleInscribe_exhausted_after (cfg : Config) (w : World) (req : InscribeRequest)
    (envs : Nat → IterEnv) (k : Nat) (hv : req.Valid) (hk : (k : Int) < req.quantity)
    (hok : ∀ j, j < k → ∀ id, ∃ r effs,
      inscribePunkOnChain cfg (envs j).pipeline id req.wallet = (.ok r, effs))
    (hav : (availableIds (getMintState w).mintedIds).length = k) :
    ∃ (minted : List Nft) (w1 : World),
      minted.length = k ∧
      (∀ n ∈ minted, n.owner = req.wallet ∧ n.id < 10000 ∧
        n.id ∉ (getMintState w).mintedIds) ∧
      (minted.map (fun n => n.id)).Nodup ∧
      (0 < k → w1.stateFile = .json ((getMintState w).extend minted).toDoc) ∧
      (k = 0 → w1 = w) ∧
      pipelineCalls w1.log = pipelineCalls w.log + k ∧
      (∀ j n, minted[j]? = some n → ∃ r effs,
        inscribePunkOnChain cfg (envs j).pipeline n.id req.wallet = (.ok r, effs) ∧
        n = mkNft cfg req n.id r (envs j).nftTime) ∧
      handleInscribe cfg w req envs =
        { response := ⟨400, .soldOut "Sold out!" minted⟩
          state := some ((getMintState w).extend minted), inscribedNfts := minted
          world := if minted.length > 0 then
            saveMintState w1 ((getMintState w).extend minted) else w1 } := by
  obtain ⟨hv1, hv2, hv3, hv4⟩ := hv
  have hrem : req.quantity.toNat = (req.quantity.toNat - (k + 1)) + 1 + k := by omega
  obtain ⟨minted, w1, hlen, hrun, havk, hfile, hsame, hprops, hnd, hcalls, hrec⟩ :=
    inscribeLoop_successes cfg req envs k (req.quantity.toNat - (k + 1) + 1) 0
      (getMintState w) [] w
      (by intro j hj id; simpa using hok j hj id) (by omega)
  simp only [Nat.zero_add, List.nil_append] at hrun hrec
  have hg : getRandomUnmintedId ((getMintState w).extend minted).mintedIds (envs k).rnd
      = none := by
    apply getRandomUnmintedId_eq_none.mpr
    apply List.length_eq_zero.mp
    omega
  refine ⟨minted, w1, hlen, hprops, hnd, hfile, hsame, hcalls, hrec, ?_⟩
  rw [handleInscribe_valid ⟨hv1, hv2, hv3, hv4⟩, hrem, hrun, inscribeLoop,
    inscribeBody_soldOut hg]

/-- C5. Sold out: when `mintedIds` covers every identifier of `[0, 10000)`, a
valid request with `quantity = 1` is answered 400 with the body
`{error: "Sold out!", partialMinted: []}`; the outside is left as it was (no
pipeline call in the log, neither file written or changed) and the handler's
state is the loaded one. -/
theorem handleInscribe_sold_out (cfg : Config) (w : World) (req : InscribeRequest)
    (envs : Nat → IterEnv)
    (hwallet : req.wallet ≠ "") (hsig : req.txSignature ≠ "") (hq : req.quantity = 1)
    (hfull : ∀ i, i < 10000 → i ∈ (getMintState w).mintedIds) :
    (handleInscribe cfg w req envs).response = ⟨400, .soldOut "Sold out!" []⟩ ∧
    (handleInscribe cfg w req envs).world = w ∧
    (handleInscribe cfg w req envs).state = some (getMintState w) := by
  have hav : (availableIds (getMintState w).mintedIds).length = 0 := by
    apply List.length_eq_zero.mpr
    apply List.eq_nil_iff_forall_not_mem.mpr
    intro a ha
    have hmem := mem_availableIds.mp ha
    exact hmem.2 (hfull a hmem.1)
  obtain ⟨minted, w1, hlen, _, _, _, hsame, _, _, hout⟩ :=
    handleInscribe_exhausted_after cfg w req envs 0 ⟨hwallet, hsig, by omega, by omega⟩
      (by omega) (fun j hj => absurd hj (Nat.not_lt_zero j)) hav
  have hnil : minted = [] := List.length_eq_zero.mp hlen
  subst hnil
  rw [hout, hsame rfl]
  simp [MintState.extend_nil]

theorem mintedIds_soldOutWorld :
    (getMintState soldOutWorld).mintedIds = List.range 10000 := by
  simp only [getMintState, soldOutWorld]

theorem mintedIds_lastOneWorld :
    (getMintState lastOneWorld).mintedIds = List.range 9999 := by
  simp only [getMintState, lastOneWorld]

theorem handleInscribe_sold_out_witness :
    (∀ i, i < 10000 → i ∈ (getMintState soldOutWorld).mintedIds) ∧
    (handleInscribe sampleConfig soldOutWorld (sampleRequest 1) (fun _ => okIterEnv)).response
      = ⟨400, .soldOut "Sold out!" []⟩ ∧
    (handleInscribe sampleConfig soldOutWorld (sampleRequest 1) (fun _ => okIterEnv)).world
      = soldOutWorld :=
  have hfull : ∀ i, i < 10000 → i ∈ (getMintState soldOutWorld).mintedIds :=
    fun _ h => mintedIds_soldOutWorld ▸ List.mem_range.mpr h
  have h := handleInscribe_sold_out sampleConfig soldOutWorld (sampleRequest 1)
    (fun _ => okIterEnv) (by decide) (by decide) rfl hfull
  ⟨hfull, h.1, h.2.1⟩

theorem availableIds_lastOne : availableIds (List.range 9999) = [9999] := by
  unfold availableIds
  rw [show List.range TOTAL_SUPPLY = List.range 9999 ++ [9999] from List.range_succ 9999,
    List.filter_append]
  have h1 : List.filter (fun i => !(List.range 9999).contains i) (List.range 9999) = [] := by
    apply List.filter_eq_nil_iff.mpr
    intro a ha
    simp [ha]
  rw [h1]
  simp [List.filter, List.mem_range]

/-- The handler's answer when `k >= 1` records were provisioned and the allocator
then reports exhaustion. -/
theorem handleInscribe_exhausted_response (cfg : Config) (w : World) (req : InscribeRequest)
    (envs : Nat → IterEnv) (k : Nat) (hv : req.Valid)
    (hk : 1 ≤ k ∧ (k : Int) < req.quantity)
    (hok : ∀ j, j < k → ∀ id, ∃ r effs,
      inscribePunkOnChain cfg (envs j).pipeline id req.wallet = (.ok r, effs))
    (hav : (availableIds (getMintState w).mintedIds).length = k) :
    ∃ minted : List Nft,
      minted.length = k ∧
      (∀ n ∈ minted, n.owner = req.wallet ∧ n.id < 10000 ∧
        n.id ∉ (getMintState w).mintedIds) ∧
      (minted.map (fun n => n.id)).Nodup ∧
      (∀ j n, minted[j]? = some n → ∃ r effs,
        inscribePunkOnChain cfg (envs j).pipeline n.id req.wallet = (.ok r, effs) ∧
        n = mkNft cfg req n.id r (envs j).nftTime) ∧
      (handleInscribe cfg w req envs).response = ⟨400, .soldOut "Sold out!" minted⟩ ∧
      (handleInscribe cfg w req envs).state = some ((getMintState w).extend minted) ∧
      (handleInscribe cfg w req envs).world.stateFile =
        .json ((getMintState w).extend minted).toDoc ∧
      pipelineCalls (handleInscribe cfg w req envs).world.log = pipelineCalls w.log + k := by
  obtain ⟨minted, w1, hlen, hprops, hnd, _, _, hcalls, hrec, hout⟩ :=
    handleInscribe_exhausted_after cfg w req envs k hv hk.2 hok hav
  refine ⟨minted, hlen, hprops, hnd, hrec, ?_, ?_, ?_, ?_⟩
  · rw [hout]
  · rw [hout]
  · rw [hout, if_pos (by omega)]; rfl
  · rw [hout, if_pos (by omega), pipelineCalls_saveMintState, hcalls]

/-- C6, as the code behaves. Exhaustion mid-batch: for every valid request in
which `k >= 1` assets were provisioned and then no identifier is left, the
handler stops after `k` pipeline calls, the persisted mint state is the initial
state with those `k` records appended, and the response is the 400 error body
`{error: "Sold out!", partialMinted: <the k provisioned records>}`. -/
theorem handleInscribe_exhausted_mid_batch (cfg : Config) (w : World)
    (req : InscribeRequest) (envs : Nat → IterEnv) (k : Nat)
    (hwallet : req.wallet ≠ "") (hsig : req.txSignature ≠ "")
    (hq : 1 ≤ req.quantity ∧ req.quantity ≤ 10)
    (hk : 1 ≤ k ∧ (k : Int) < req.quantity)
    (hok : ∀ j, j < k → ∀ id, ∃ r effs,
      inscribePunkOnChain cfg (envs j).pipeline id req.wallet = (.ok r, effs))
    (hleft : HasUnassigned (getMintState w).mintedIds k)
    (hnomore : ¬ HasUnassigned (getMintState w).mintedIds (k + 1)) :
    ∃ minted : List Nft,
      minted.length = k ∧
      (∀ n ∈ minted, n.owner = req.wallet ∧ n.id < 10000 ∧
        n.id ∉ (getMintState w).mintedIds) ∧
      (minted.map (fun n => n.id)).Nodup ∧
      (∀ j n, minted[j]? = some n → ∃ r effs,
        inscribePunkOnChain cfg (envs j).pipeline n.id req.wallet = (.ok r, effs) ∧
        n = mkNft cfg req n.id r (envs j).nftTime) ∧
      (handleInscribe cfg w req envs).response = ⟨400, .soldOut "Sold out!" minted⟩ ∧
      (handleInscribe cfg w req envs).state = some ((getMintState w).extend minted) ∧
      (handleInscribe cfg w req envs).world.stateFile =
        .json ((getMintState w).extend minted).toDoc ∧
      pipelineCalls (handleInscribe cfg w req envs).world.log = pipelineCalls w.log + k := by
  have h1 := hasUnassigned_iff.mp hleft
  have h2 : ¬ (k + 1 ≤ (availableIds (getMintState w).mintedIds).length) :=
    fun h => hnomore (hasUnassigned_iff.mpr h)
  exact handleInscribe_exhausted_response cfg w req envs k ⟨hwallet, hsig, hq.1, hq.2⟩ hk hok
    (by omega)

theorem hasUnassigned_lastOne :
    HasUnassigned (getMintState lastOneWorld).mintedIds 1 ∧
    ¬ HasUnassigned (getMintState lastOneWorld).mintedIds 2 := by
  have hav : (availableIds (getMintState lastOneWorld).mintedIds).length = 1 := by
    rw [mintedIds_lastOneWorld, availableIds_lastOne]; rfl
  constructor
  · exact hasUnassigned_iff.mpr (by omega)
  · intro h
    have := hasUnassigned_iff.mp h
    omega

theorem handleInscribe_exhausted_mid_batch_witness :
    ∃ minted : List Nft, minted.length = 1 ∧
      (handleInscribe sampleConfig lastOneWorld (sampleRequest 2) (fun _ => okIterEnv)).response
        = ⟨400, .soldOut "Sold out!" minted⟩ ∧
      (handleInscribe sampleConfig lastOneWorld (sampleRequest 2)
        (fun _ => okIterEnv)).world.stateFile
        = .json ((getMintState lastOneWorld).extend minted).toDoc :=
  match handleInscribe_exhausted_mid_batch sampleConfig lastOneWorld (sampleRequest 2)
      (fun _ => okIterEnv) 1 (by decide) (by decide) (by decide) (by decide)
      (fun _ _ _ => ⟨_, _, rfl⟩) hasUnassigned_lastOne.1 hasUnassigned_lastOne.2 with
  | ⟨minted, hlen, _, _, _, hresp, _, hfile, _⟩ => ⟨minted, hlen, hresp, hfile⟩

/-- C6, as stated, fails. Punks `0 .. 9998` are minted and two are requested:
punk 9999 is provisioned, the second allocation finds the pool empty, and the
answer is status 400 with the body `{error: "Sold out!", partialMinted: [..]}`
holding the one provisioned record; it is not a `success` / `partial: true`
body. -/
theorem exhausted_mid_batch_is_not_partial_success :
    ∃ minted : List Nft, minted.length = 1 ∧
      (handleInscribe sampleConfig lastOneWorld (sampleRequest 2) (fun _ => okIterEnv)).response
        = ⟨400, .soldOut "Sold out!" minted⟩ ∧
      ∀ requested completed total err,
        (handleInscribe sampleConfig lastOneWorld (sampleRequest 2)
          (fun _ => okIterEnv)).response.body
          ≠ .partialSuccess true true requested completed minted total err := by
  have hav : (availableIds (getMintState lastOneWorld).mintedIds).length = 1 := by
    rw [mintedIds_lastOneWorld, availableIds_lastOne]; rfl
  obtain ⟨minted, hlen, _, _, _, hresp, _, _, _⟩ :=
    handleInscribe_exhausted_response sampleConfig lastOneWorld (sampleRequest 2)
      (fun _ => okIterEnv) 1 (by decide) (by decide) (fun _ _ _ => ⟨_, _, rfl⟩) hav
  refine ⟨minted, hlen, hresp, ?_⟩
  intro requested completed total err
  rw [hresp]
  exact fun h => ResponseBody.noConfusion h

/-! ## Order of the pipeline's effects -/

theorem inscribePunkOnChain_error_cause {cfg : Config} {env : PipelineEnv} {punkId : Nat}
    {wallet : String} {e : PipelineError} {effs : List LedgerEffect}
    (h : inscribePunkOnChain cfg env punkId wallet = (.error e, effs)) :
    env.Throws punkId e := by
  unfold inscribePunkOnChain at h
  repeat' split at h
  all_goals
    simp only [Prod.mk.injEq, Except.error.injEq, reduceCtorEq, false_and] at h
  all_goals
    obtain ⟨rfl, -⟩ := h
    simp [PipelineEnv.Throws, *]

theorem inscribePunkOnChain_trace (cfg : Config) (env : PipelineEnv) (punkId : Nat)
    (wallet : String) :
    callTrace (inscribePunkOnChain cfg env punkId wallet).2 <+: pipelineOrder ∧
    (∀ e, (inscribePunkOnChain cfg env punkId wallet).1 = .error e →
      ∀ c ∈ (inscribePunkOnChain cfg env punkId wallet).2, c.step.num ≤ e.step.num) ∧
    (∀ r, (inscribePunkOnChain cfg env punkId wallet).1 = .ok r →
      callTrace (inscribePunkOnChain cfg env punkId wallet).2 = pipelineOrder) := by
  unfold inscribePunkOnChain
  repeat' split
  all_goals
    refine ⟨?_, ?_, ?_⟩
    · simp [callTrace, pipelineOrder, LedgerCall.kind]
    · intro e he
      first
        | cases he
          simp [Step.num]
        | exact absurd he (by simp)
    · intro r hr
      first
        | cases hr
          simp [callTrace, pipelineOrder, LedgerCall.kind]
        | exact absurd hr (by simp)

/-- Whether a run succeeds does not depend on the identifier: it is decided by
the answers of the outside. -/
theorem inscribePunkOnChain_ok_of_ok {cfg : Config} {env : PipelineEnv} {punkId : Nat}
    {wallet : String} {r : OnChainResult} {effs : List LedgerEffect}
    (h : inscribePunkOnChain cfg env punkId wallet = (.ok r, effs)) (punkId1 : Nat) :
    ∃ r1 effs1, inscribePunkOnChain cfg env punkId1 wallet = (.ok r1, effs1) := by
  unfold inscribePunkOnChain at h ⊢
  repeat' split at h
  all_goals first
    | (clear h
       simp only [*]
       exact ⟨_, _, rfl⟩)
    | simp at h

/-- A step that the outside makes fail ends the run there or earlier: the run
throws in that step or an earlier one, and no call of a later step is issued. -/
theorem inscribePunkOnChain_failsIn (cfg : Config) (env : PipelineEnv) (punkId : Nat)
    (wallet : String) (k : Step) (hk : env.FailsIn k) :
    (∃ e, (inscribePunkOnChain cfg env punkId wallet).1 = .error e ∧ e.step.num ≤ k.num) ∧
    ∀ c ∈ (inscribePunkOnChain cfg env punkId wallet).2, c.step.num ≤ k.num := by
  cases k <;> simp only [PipelineEnv.FailsIn] at hk <;> unfold inscribePunkOnChain <;>
    repeat' split
  all_goals simp_all [Step.num]

/-- C8. Within one `inscribePunkOnChain` call the ledger calls are issued in the
fixed order record creation, JSON allocation, binary allocation, linkage
transaction (the calls issued are always an initial segment of that order, and
the whole of it on success); when the call fails in step `k` no call of a later
step was issued; and when the payload file `punk_<id>.png` is missing the call
fails without any call of step 3 or 4, and, steps 1 and 2 having succeeded, it
fails with `Image not found: punk_<id>.png` after exactly the record creation and
the JSON allocation were issued. Whenever the outside rejects a call of step `k`
(or the payload file of step 3 is missing) the call throws in step `k` or
earlier and issues no call of a step after `k`. For each of the nine ledger
calls: when it is the first to be rejected, the call throws the error of that
ledger call, tagged with its step, and the calls issued are exactly those of the
fixed order up to and including the rejected one; when none is rejected and the
payload file is there, the call returns after all nine. -/
theorem inscribePunkOnChain_effect_order (cfg : Config) (env : PipelineEnv) (punkId : Nat)
    (wallet : String) :
    callTrace (inscribePunkOnChain cfg env punkId wallet).2 <+: pipelineOrder ∧
    (∀ e, (inscribePunkOnChain cfg env punkId wallet).1 = .error e →
      ∀ c ∈ (inscribePunkOnChain cfg env punkId wallet).2, c.step.num ≤ e.step.num) ∧
    (∀ r, (inscribePunkOnChain cfg env punkId wallet).1 = .ok r →
      callTrace (inscribePunkOnChain cfg env punkId wallet).2 = pipelineOrder) ∧
    (env.imageFile = none →
      (∃ e, (inscribePunkOnChain cfg env punkId wallet).1 = .error e) ∧
      ∀ c ∈ (inscribePunkOnChain cfg env punkId wallet).2,
        c.step ≠ .binaryPersistence ∧ c.step ≠ .linkage) ∧
    (env.imageFile = none → ∀ rent hash sig,
      env.createNft = .ok () → env.jsonRent = .ok rent → env.jsonBlockhash = .ok hash →
      env.jsonSend = .ok sig →
      (inscribePunkOnChain cfg env punkId wallet).1 =
        .error ⟨.binaryPersistence, "Image not found: punk_" ++ toString punkId ++ ".png"⟩ ∧
      callTrace (inscribePunkOnChain cfg env punkId wallet).2 =
        [(.recordCreation, .createNft), (.metadataPersistence, .rentQuery),
         (.metadataPersistence, .blockhashQuery), (.metadataPersistence, .allocation)]) ∧
    (∀ k, env.FailsIn k →
      (∃ e, (inscribePunkOnChain cfg env punkId wallet).1 = .error e ∧ e.step.num ≤ k.num) ∧
      ∀ c ∈ (inscribePunkOnChain cfg env punkId wallet).2, c.step.num ≤ k.num) ∧
    (∀ m, env.createNft = .error m →
      (inscribePunkOnChain cfg env punkId wallet).1 = .error ⟨.recordCreation, m⟩ ∧
      callTrace (inscribePunkOnChain cfg env punkId wallet).2 = pipelineOrder.take 1) ∧
    (∀ m, env.createNft = .ok () → env.jsonRent = .error m →
      (inscribePunkOnChain cfg env punkId wallet).1 = .error ⟨.metadataPersistence, m⟩ ∧
      callTrace (inscribePunkOnChain cfg env punkId wallet).2 = pipelineOrder.take 2) ∧
    (∀ m rent, env.createNft = .ok () → env.jsonRent = .ok rent →
      env.jsonBlockhash = .error m →
      (inscribePunkOnChain cfg env punkId wallet).1 = .error ⟨.metadataPersistence, m⟩ ∧
      callTrace (inscribePunkOnChain cfg env punkId wallet).2 = pipelineOrder.take 3) ∧
    (∀ m rent hash, env.createNft = .ok () → env.jsonRent = .ok rent →
      env.jsonBlockhash = .ok hash → env.jsonSend = .error m →
      (inscribePunkOnChain cfg env punkId wallet).1 = .error ⟨.metadataPersistence, m⟩ ∧
      callTrace (inscribePunkOnChain cfg env punkId wallet).2 = pipelineOrder.take 4) ∧
    (∀ m rent hash sig bytes, env.createNft = .ok () → env.jsonRent = .ok rent →
      env.jsonBlockhash = .ok hash → env.jsonSend = .ok sig → env.imageFile = some bytes →
      env.imageRent = .error m →
      (inscribePunkOnChain cfg env punkId wallet).1 = .error ⟨.binaryPersistence, m⟩ ∧
      callTrace (inscribePunkOnChain cfg env punkId wallet).2 = pipelineOrder.take 5) ∧
    (∀ m rent hash sig bytes rent2, env.createNft = .ok () → env.jsonRent = .ok rent →
      env.jsonBlockhash = .ok hash → env.jsonSend = .ok sig → env.imageFile = some bytes →
      env.imageRent = .ok rent2 → env.imageBlockhash = .error m →
      (inscribePunkOnChain cfg env punkId wallet).1 = .error ⟨.binaryPersistence, m⟩ ∧
      callTrace (inscribePunkOnChain cfg env punkId wallet).2 = pipelineOrder.take 6) ∧
    (∀ m rent hash sig bytes rent2 hash2, env.createNft = .ok () → env.jsonRent = .ok rent →
      env.jsonBlockhash = .ok hash → env.jsonSend = .ok sig → env.imageFile = some bytes →
      env.imageRent = .ok rent2 → env.imageBlockhash = .ok hash2 → env.imageSend = .error m →
      (inscribePunkOnChain cfg env punkId wallet).1 = .error ⟨.binaryPersistence, m⟩ ∧
      callTrace (inscribePunkOnChain cfg env punkId wallet).2 = pipelineOrder.take 7) ∧
    (∀ m rent hash sig bytes rent2 hash2 sig2, env.createNft = .ok () →
      env.jsonRent = .ok rent → env.jsonBlockhash = .ok hash → env.jsonSend = .ok sig →
      env.imageFile = some bytes → env.imageRent = .ok rent2 →
      env.imageBlockhash = .ok hash2 → env.imageSend = .ok sig2 →
      env.memoBlockhash = .error m →
      (inscribePunkOnChain cfg env punkId wallet).1 = .error ⟨.linkage, m⟩ ∧
      callTrace (inscribePunkOnChain cfg env punkId wallet).2 = pipelineOrder.take 8) ∧
    (∀ m rent hash sig bytes rent2 hash2 sig2 hash3, env.createNft = .ok () →
      env.jsonRent = .ok rent → env.jsonBlockhash = .ok hash → env.jsonSend = .ok sig →
      env.imageFile = some bytes → env.imageRent = .ok rent2 →
      env.imageBlockhash = .ok hash2 → env.imageSend = .ok sig2 →
      env.memoBlockhash = .ok hash3 → env.memoSend = .error m →
      (inscribePunkOnChain cfg env punkId wallet).1 = .error ⟨.linkage, m⟩ ∧
      callTrace (inscribePunkOnChain cfg env punkId wallet).2 = pipelineOrder) ∧
    (∀ rent hash sig bytes rent2 hash2 sig2 hash3 sig3, env.createNft = .ok () →
      env.jsonRent = .ok rent → env.jsonBlockhash = .ok hash → env.jsonSend = .ok sig →
      env.imageFile = some bytes → env.imageRent = .ok rent2 →
      env.imageBlockhash = .ok hash2 → env.imageSend = .ok sig2 →
      env.memoBlockhash = .ok hash3 → env.memoSend = .ok sig3 →
      (∃ r, (inscribePunkOnChain cfg env punkId wallet).1 = .ok r) ∧
      callTrace (inscribePunkOnChain cfg env punkId wallet).2 = pipelineOrder) := by
  obtain ⟨h1, h2, h3⟩ := inscribePunkOnChain_trace cfg env punkId wallet
  refine ⟨h1, h2, h3, ?_, ?_, fun k hk => inscribePunkOnChain_failsIn cfg env punkId wallet k hk,
    ?_, ?_, ?_, ?_, ?_, ?_, ?_, ?_, ?_, ?_⟩
  · intro himg
    unfold inscribePunkOnChain
    repeat' split
    all_goals simp_all
  · intro himg rent hash sig hc hr hb hs
    unfold inscribePunkOnChain
    simp [himg, hc, hr, hb, hs, callTrace, LedgerCall.kind]
  all_goals
    intros
    unfold inscribePunkOnChain
    simp [*, callTrace, pipelineOrder, LedgerCall.kind]

theorem inscribePunkOnChain_effect_order_witness :
    missingImageEnv.imageFile = none ∧
    (inscribePunkOnChain sampleConfig missingImageEnv 5 "WALLET").1 =
      .error ⟨.binaryPersistence, "Image not found: punk_" ++ toString 5 ++ ".png"⟩ ∧
    callTrace (inscribePunkOnChain sampleConfig missingImageEnv 5 "WALLET").2 =
      [(.recordCreation, .createNft), (.metadataPersistence, .rentQuery),
       (.metadataPersistence, .blockhashQuery), (.metadataPersistence, .allocation)] ∧
    (failsAtBinaryPersistence "Transaction was not confirmed").imageSend =
      .error "Transaction was not confirmed" ∧
    (inscribePunkOnChain sampleConfig (failsAtBinaryPersistence "Transaction was not confirmed")
        5 "WALLET").1 = .error ⟨.binaryPersistence, "Transaction was not confirmed"⟩ ∧
    callTrace (inscribePunkOnChain sampleConfig
        (failsAtBinaryPersistence "Transaction was not confirmed") 5 "WALLET").2 =
      pipelineOrder.take 7 :=
  have hmissing :=
    (inscribePunkOnChain_effect_order sampleConfig missingImageEnv 5 "WALLET").2.2.2.2.1
      rfl 100 "h1" "s1" rfl rfl rfl rfl
  have hsend :=
    (inscribePunkOnChain_effect_order sampleConfig
      (failsAtBinaryPersistence "Transaction was not confirmed") 5
      "WALLET").2.2.2.2.2.2.2.2.2.2.2.2.1
      "Transaction was not confirmed" 100 "h1" "s1" [137, 80, 78, 71] 200 "h2"
      rfl rfl rfl rfl rfl rfl rfl rfl
  ⟨rfl, hmissing.1, hmissing.2, rfl, hsend.1, hsend.2⟩

/-! ## Failure reports -/

/-- C9. Pipeline failure on the first identifier is a total failure that leaves
the state untouched: for every valid request in which the first pipeline call
fails, the response is status 500 with the body
`{error: "Inscription failed: <cause>", punkId}` (not the sold-out body), the
handler's state is the loaded one, `mint-state.json` and the index file are as
before, and nothing was issued but the ledger calls of the failed run. -/
theorem handleInscribe_total_failure (cfg : Config) (w : World) (req : InscribeRequest)
    (envs : Nat → IterEnv)
    (hwallet : req.wallet ≠ "") (hsig : req.txSignature ≠ "")
    (hq : 1 ≤ req.quantity ∧ req.quantity ≤ 10)
    (hfail : ∀ id, ∃ e effs,
      inscribePunkOnChain cfg (envs 0).pipeline id req.wallet = (.error e, effs))
    (havail : ∃ i, i < 10000 ∧ i ∉ (getMintState w).mintedIds) :
    ∃ (punkId : Nat) (e : PipelineError) (effs : List LedgerEffect),
      getRandomUnmintedId (getMintState w).mintedIds (envs 0).rnd = some punkId ∧
      inscribePunkOnChain cfg (envs 0).pipeline punkId req.wallet = (.error e, effs) ∧
      (envs 0).pipeline.Throws punkId e ∧
      (handleInscribe cfg w req envs).response =
        ⟨500, .failure ("Inscription failed: " ++ e.message) punkId⟩ ∧
      (∀ status err partialMinted,
        (handleInscribe cfg w req envs).response ≠ ⟨status, .soldOut err partialMinted⟩) ∧
      (handleInscribe cfg w req envs).state = some (getMintState w) ∧
      (handleInscribe cfg w req envs).world.stateFile = w.stateFile ∧
      (handleInscribe cfg w req envs).world.indexFile = w.indexFile ∧
      (handleInscribe cfg w req envs).world.log = w.log ++ effs.map Effect.ledger := by
  obtain ⟨i, hi, hiS⟩ := havail
  have hun : HasUnassigned (getMintState w).mintedIds (0 + 1) :=
    ⟨[i], List.nodup_singleton i, rfl, by simpa using ⟨hi, hiS⟩⟩
  obtain ⟨minted, failedId, e, effs, w1, hlen, _, _, hg, hp, _, hsame, _, _, hout⟩ :=
    handleInscribe_failure_after cfg w req envs 0 ⟨hwallet, hsig, hq.1, hq.2⟩ (by omega)
      (fun j hj => absurd hj (Nat.not_lt_zero j)) hfail hun
  have hnil : minted = [] := List.length_eq_zero.mp hlen
  subst hnil
  rw [MintState.extend_nil] at hg hout
  rw [if_neg (Nat.lt_irrefl 0), hsame rfl] at hout
  refine ⟨failedId, e, effs, hg, hp, inscribePunkOnChain_error_cause hp, ?_, ?_, ?_, ?_, ?_, ?_⟩
  · rw [hout]
  · intro status err partialMinted
    rw [hout]
    intro h
    cases h
  · rw [hout]
  · rw [hout]; rfl
  · rw [hout]; rfl
  · rw [hout]; rfl

theorem handleInscribe_total_failure_witness :
    (∃ i, i < 10000 ∧ i ∉ (getMintState sampleWorld).mintedIds) ∧
    (handleInscribe sampleConfig sampleWorld (sampleRequest 3) (failFrom 0)).state
      = some (getMintState sampleWorld) ∧
    (handleInscribe sampleConfig sampleWorld (sampleRequest 3) (failFrom 0)).world.stateFile
      = sampleWorld.stateFile :=
  have havail : ∃ i, i < 10000 ∧ i ∉ (getMintState sampleWorld).mintedIds :=
    ⟨0, by decide, by decide⟩
  ⟨havail,
   match handleInscribe_total_failure sampleConfig sampleWorld (sampleRequest 3) (failFrom 0)
      (by decide) (by decide) (by decide) (fun _ => ⟨_, _, rfl⟩) havail with
   | ⟨_, _, _, _, _, _, _, _, hstate, hfile, _, _⟩ => ⟨hstate, hfile⟩⟩

theorem randomIndex_zero (len : Nat) : randomIndex RandomDraw.zero len = 0 := by
  simp [randomIndex, RandomDraw.zero]

theorem getRandomUnmintedId_zero_draw {S : List Nat} (h : 0 ∉ S) :
    getRandomUnmintedId S RandomDraw.zero = some 0 := by
  obtain ⟨tl, htl⟩ : ∃ tl, availableIds S = 0 :: tl := by
    unfold availableIds
    rw [show List.range TOTAL_SUPPLY = 0 :: List.map Nat.succ (List.range 9999) from
      List.range_succ_eq_map 9999]
    exact ⟨_, List.filter_cons_of_pos (by simpa using h)⟩
  unfold getRandomUnmintedId
  simp [htl, randomIndex_zero]

theorem handleInscribe_first_failure (cfg : Config) (w : World) (req : InscribeRequest)
    (envs : Nat → IterEnv) (punkId : Nat) (e : PipelineError) (effs : List LedgerEffect)
    (hv : req.Valid)
    (hg : getRandomUnmintedId (getMintState w).mintedIds (envs 0).rnd = some punkId)
    (hp : inscribePunkOnChain cfg (envs 0).pipeline punkId req.wallet = (.error e, effs)) :
    (handleInscribe cfg w req envs).response =
      ⟨500, .failure ("Inscription failed: " ++ e.message) punkId⟩ := by
  have hq := hv.2.2.1
  obtain ⟨n, hn⟩ : ∃ n, req.quantity.toNat = n + 1 := ⟨req.quantity.toNat - 1, by omega⟩
  rw [handleInscribe_valid hv, hn, inscribeLoop, inscribeBody_error hg hp]
  simp

/-- The error report after `k` successes and a failure: it carries the failed
identifier and the message of what the failing call threw. -/
theorem handleInscribe_failure_message (cfg : Config) (w : World) (req : InscribeRequest)
    (envs : Nat → IterEnv) (k : Nat) (hv : req.Valid) (hk : (k : Int) < req.quantity)
    (hok : ∀ j, j < k → ∀ id, ∃ r effs,
      inscribePunkOnChain cfg (envs j).pipeline id req.wallet = (.ok r, effs))
    (hfail : ∀ id, ∃ e effs,
      inscribePunkOnChain cfg (envs k).pipeline id req.wallet = (.error e, effs))
    (havail : HasUnassigned (getMintState w).mintedIds (k + 1)) :
    ∃ (failedId : Nat) (e : PipelineError) (effs : List LedgerEffect),
      inscribePunkOnChain cfg (envs k).pipeline failedId req.wallet = (.error e, effs) ∧
      (envs k).pipeline.Throws failedId e ∧
      ((k = 0 ∧ (handleInscribe cfg w req envs).response =
          ⟨500, .failure ("Inscription failed: " ++ e.message) failedId⟩) ∨
       (0 < k ∧ ∃ minted total,
          (handleInscribe cfg w req envs).response =
            ⟨200, .partialSuccess true true req.quantity k minted total
              ("Completed " ++ toString k ++ "/" ++ toString req.quantity ++
                ". Failed on punk #" ++ toString failedId ++ ": " ++ e.message)⟩)) := by
  obtain ⟨minted, failedId, e, effs, w1, _, _, _, _, hp, _, _, _, _, hout⟩ :=
    handleInscribe_failure_after cfg w req envs k hv hk hok hfail havail
  refine ⟨failedId, e, effs, hp, inscribePunkOnChain_error_cause hp, ?_⟩
  rcases Nat.eq_zero_or_pos k with h0 | hpos
  · left
    refine ⟨h0, ?_⟩
    rw [hout, if_neg (by omega)]
  · right
    refine ⟨hpos, minted, (getMintState w).mintedCount + k, ?_⟩
    rw [hout, if_pos hpos]

/-- C7, as the code behaves. For every pipeline failure during a batch request
(after `k >= 0` successes), the error reported to the caller carries the failed
identifier (the `punkId` field of the 500 body, `punk #<id>` in the error string
of the partial body) and ends with the message of the underlying cause, the
error thrown by the failing external call; the pipeline step is not part of the
report. -/
theorem handleInscribe_failure_report (cfg : Config) (w : World) (req : InscribeRequest)
    (envs : Nat → IterEnv) (k : Nat)
    (hwallet : req.wallet ≠ "") (hsig : req.txSignature ≠ "")
    (hq : 1 ≤ req.quantity ∧ req.quantity ≤ 10) (hk : (k : Int) < req.quantity)
    (hok : ∀ j, j < k → ∀ id, ∃ r effs,
      inscribePunkOnChain cfg (envs j).pipeline id req.wallet = (.ok r, effs))
    (hfail : ∀ id, ∃ e effs,
      inscribePunkOnChain cfg (envs k).pipeline id req.wallet = (.error e, effs))
    (havail : HasUnassigned (getMintState w).mintedIds (k + 1)) :
    ∃ (failedId : Nat) (e : PipelineError) (effs : List LedgerEffect),
      inscribePunkOnChain cfg (envs k).pipeline failedId req.wallet = (.error e, effs) ∧
      (envs k).pipeline.Throws failedId e ∧
      ((k = 0 ∧ (handleInscribe cfg w req envs).response =
          ⟨500, .failure ("Inscription failed: " ++ e.message) failedId⟩) ∨
       (0 < k ∧ ∃ minted total pre post,
          (handleInscribe cfg w req envs).response =
            ⟨200, .partialSuccess true true req.quantity k minted total
              ("Completed " ++ toString k ++ "/" ++ toString req.quantity ++
                ". Failed on punk #" ++ toString failedId ++ ": " ++ e.message)⟩ ∧
          "Completed " ++ toString k ++ "/" ++ toString req.quantity ++
              ". Failed on punk #" ++ toString failedId ++ ": " ++ e.message
            = pre ++ ("punk #" ++ toString failedId) ++ post)) := by
  obtain ⟨failedId, e, effs, hp, hthrows, hresp⟩ :=
    handleInscribe_failure_message cfg w req envs k ⟨hwallet, hsig, hq.1, hq.2⟩ hk hok hfail
      havail
  refine ⟨failedId, e, effs, hp, hthrows, ?_⟩
  rcases hresp with ⟨h0, h⟩ | ⟨hpos, minted, total, h⟩
  · exact Or.inl ⟨h0, h⟩
  · obtain ⟨pre, post, hc⟩ := partialError_contains k req.quantity failedId e.message
    exact Or.inr ⟨hpos, minted, total, pre, post, h, hc⟩

theorem handleInscribe_failure_report_witness :
    HasUnassigned (getMintState sampleWorld).mintedIds 2 ∧
    ∃ (failedId : Nat) (e : PipelineError),
      (failFrom 1 1).pipeline.Throws failedId e ∧
      ∃ minted total,
        (handleInscribe sampleConfig sampleWorld (sampleRequest 3) (failFrom 1)).response =
          ⟨200, .partialSuccess true true 3 1 minted total
            ("Completed " ++ toString 1 ++ "/" ++ toString (3 : Int) ++
              ". Failed on punk #" ++ toString failedId ++ ": " ++ e.message)⟩ :=
  have havail : HasUnassigned (getMintState sampleWorld).mintedIds 2 :=
    ⟨[0, 1], by decide, rfl, by decide⟩
  ⟨havail,
   match handleInscribe_failure_report sampleConfig sampleWorld (sampleRequest 3) (failFrom 1) 1
      (by decide) (by decide) (by decide) (by decide)
      (fun j hj _ => by
        have hj0 : j = 0 := by omega
        subst hj0
        exact ⟨_, _, rfl⟩)
      (fun _ => ⟨_, _, rfl⟩) havail with
   | ⟨failedId, e, _, _, hthrows, Or.inr ⟨_, minted, total, _, _, hresp, _⟩⟩ =>
     ⟨failedId, e, hthrows, minted, total, hresp⟩
   | ⟨_, _, _, _, _, Or.inl ⟨h0, _⟩⟩ => absurd h0 (by decide)⟩

/-- C7, as stated, fails. One punk is requested from an empty collection. In one
run `createNft` (step 1) throws `timeout`; in another, step 1 succeeds and the
`sendAndConfirmTransaction` of step 2 throws `timeout`. The two runs fail in
different steps and the caller receives the same report,
`{error: "Inscription failed: timeout", punkId: 0}`: it does not name the step. -/
theorem failure_report_does_not_name_step :
    (inscribePunkOnChain sampleConfig (failsAtRecordCreation "timeout") 0 "WALLET").1
      = .error ⟨.recordCreation, "timeout"⟩ ∧
    (inscribePunkOnChain sampleConfig (failsAtMetadataPersistence "timeout") 0 "WALLET").1
      = .error ⟨.metadataPersistence, "timeout"⟩ ∧
    (handleInscribe sampleConfig emptyWorld (sampleRequest 1)
      (fun _ => { okIterEnv with pipeline := failsAtRecordCreation "timeout" })).response
      = ⟨500, .failure "Inscription failed: timeout" 0⟩ ∧
    (handleInscribe sampleConfig emptyWorld (sampleRequest 1)
      (fun _ => { okIterEnv with pipeline := failsAtMetadataPersistence "timeout" })).response
      = ⟨500, .failure "Inscription failed: timeout" 0⟩ := by
  have hg : getRandomUnmintedId (getMintState emptyWorld).mintedIds RandomDraw.zero = some 0 :=
    getRandomUnmintedId_zero_draw (by decide)
  have hmsg : "Inscription failed: " ++ "timeout" = "Inscription failed: timeout" := by decide
  have hp1 : inscribePunkOnChain sampleConfig (failsAtRecordCreation "timeout") 0 "WALLET" =
      (.error ⟨.recordCreation, "timeout"⟩,
        (inscribePunkOnChain sampleConfig (failsAtRecordCreation "timeout") 0 "WALLET").2) := rfl
  have hp2 : inscribePunkOnChain sampleConfig (failsAtMetadataPersistence "timeout") 0 "WALLET" =
      (.error ⟨.metadataPersistence, "timeout"⟩,
        (inscribePunkOnChain sampleConfig (failsAtMetadataPersistence "timeout") 0
          "WALLET").2) := rfl
  refine ⟨rfl, rfl, ?_, ?_⟩
  · rw [handleInscribe_first_failure sampleConfig emptyWorld (sampleRequest 1)
      (fun _ => { okIterEnv with pipeline := failsAtRecordCreation "timeout" }) 0 _ _
      (by decide) hg hp1, hmsg]
  · rw [handleInscribe_first_failure sampleConfig emptyWorld (sampleRequest 1)
      (fun _ => { okIterEnv with pipeline := failsAtMetadataPersistence "timeout" }) 0 _ _
      (by decide) hg hp2, hmsg]

/-! ## What steps 2 and 3 submit -/

/-- C10 fails on the code. `inscribePunkOnChain(0, "WALLET")` with every call
succeeding, metadata serialised to 10 bytes and a 4-byte payload file: the run
succeeds and these are all the ledger calls it issues. The transactions of steps
2 and 3 each hold one `createAccount` instruction with `space` the length of the
bytes, and no call carries the bytes themselves; the same calls are issued when
the metadata bytes and the payload bytes are replaced by zero bytes of the same
lengths. -/
theorem inscribePunkOnChain_submits_sizes_only :
    (inscribePunkOnChain sampleConfig okPipelineEnv 0 "WALLET").2 =
      [⟨.recordCreation, .createNft
          { mint := "MINT", name := "X1 Punk #0", symbol := "X1PUNK"
            uri := "https://raw.githubusercontent.com/Execute007/x1punks-images/master/generated/punk_0.png"
            sellerFeeBasisPoints := 0, tokenOwner := "WALLET"
            creators := [⟨"PAYER", true, 100⟩] }⟩,
       ⟨.metadataPersistence, .getMinimumBalanceForRentExemption 10⟩,
       ⟨.metadataPersistence, .getLatestBlockhash⟩,
       ⟨.metadataPersistence, .sendAndConfirmTransaction
          ⟨[.createAccount "PAYER" "JSON" 100 10 "PAYER"], "h1", "PAYER"⟩ ["PAYER", "JSON"]⟩,
       ⟨.binaryPersistence, .getMinimumBalanceForRentExemption 4⟩,
       ⟨.binaryPersistence, .getLatestBlockhash⟩,
       ⟨.binaryPersistence, .sendAndConfirmTransaction
          ⟨[.createAccount "PAYER" "IMAGE" 200 4 "PAYER"], "h2", "PAYER"⟩ ["PAYER", "IMAGE"]⟩,
       ⟨.linkage, .getLatestBlockhash⟩,
       ⟨.linkage, .sendAndConfirmTransaction
          ⟨[.transfer "PAYER" "PAYER" 0], "h3", "PAYER"⟩ ["PAYER"]⟩] ∧
    (∃ r, (inscribePunkOnChain sampleConfig okPipelineEnv 0 "WALLET").1 = .ok r ∧
      r.jsonAccount = "JSON" ∧ r.imageAccount = "IMAGE" ∧ r.jsonSize = 10 ∧ r.imageSize = 4) ∧
    sampleConfig.stringify (buildInscriptionJson sampleConfig.allMeta 0) ≠
      zeroedConfig.stringify (buildInscriptionJson zeroedConfig.allMeta 0) ∧
    okPipelineEnv.imageFile ≠ zeroedPayloadEnv.imageFile ∧
    (inscribePunkOnChain zeroedConfig zeroedPayloadEnv 0 "WALLET").2 =
      (inscribePunkOnChain sampleConfig okPipelineEnv 0 "WALLET").2 := by
  refine ⟨by decide, ⟨_, rfl, rfl, rfl, by decide, by decide⟩, by decide, by decide, by decide⟩

/-! ## The linkage transaction -/

/-- Whatever the run, its step 4 submits at most one transaction, and that
transaction is one transfer of 0 lamports from the payer to the payer. -/
theorem linkageTransactions_eq (cfg : Config) (env : PipelineEnv) (punkId : Nat)
    (wallet : String) :
    linkageTransactions (inscribePunkOnChain cfg env punkId wallet).2 = [] ∨
    ∃ blockhash, env.memoBlockhash = .ok blockhash ∧
      linkageTransactions (inscribePunkOnChain cfg env punkId wallet).2 =
        [(⟨[.transfer cfg.payer cfg.payer 0], blockhash, cfg.payer⟩, [cfg.payer])] := by
  unfold inscribePunkOnChain
  repeat' split
  all_goals first
    | (left; rfl)
    | (right; exact ⟨_, by assumption, rfl⟩)

/-- C11 fails on the code. `inscribePunkOnChain(0, "WALLET")` with every call
succeeding returns the record address `MINT`, the JSON-store address `JSON` and
the binary-store address `IMAGE`; the one transaction of step 4 is a transfer of
0 lamports from the payer to the payer, and nothing else: it holds none of the
three addresses. The same transaction is submitted when the three addresses are
`MINT2`, `JSON2` and `IMAGE2`. -/
theorem linkage_transaction_holds_no_reference :
    linkageTransactions (inscribePunkOnChain sampleConfig okPipelineEnv 0 "WALLET").2 =
      [(⟨[.transfer "PAYER" "PAYER" 0], "h3", "PAYER"⟩, ["PAYER"])] ∧
    (∃ r, (inscribePunkOnChain sampleConfig okPipelineEnv 0 "WALLET").1 = .ok r ∧
      r.mintAddress = "MINT" ∧ r.jsonAccount = "JSON" ∧ r.imageAccount = "IMAGE") ∧
    (∃ r, (inscribePunkOnChain sampleConfig otherKeysEnv 0 "WALLET").1 = .ok r ∧
      r.mintAddress = "MINT2" ∧ r.jsonAccount = "JSON2" ∧ r.imageAccount = "IMAGE2") ∧
    linkageTransactions (inscribePunkOnChain sampleConfig otherKeysEnv 0 "WALLET").2 =
      linkageTransactions (inscribePunkOnChain sampleConfig okPipelineEnv 0 "WALLET").2 := by
  refine ⟨by decide, ⟨_, rfl, rfl, rfl, rfl⟩, ⟨_, rfl, rfl, rfl, rfl⟩, by decide⟩

/-! ## The mint record -/

/-- The record built for a provisioned identifier, field by field. -/
theorem mkNft_fields (cfg : Config) (req : InscribeRequest) (punkId : Nat)
    (r : OnChainResult) (t : String) :
    (mkNft cfg req punkId r t).id = punkId ∧
    (mkNft cfg req punkId r t).owner = req.wallet ∧
    (mkNft cfg req punkId r t).mintAddress = r.mintAddress ∧
    (mkNft cfg req punkId r t).inscription.account = none ∧
    (mkNft cfg req punkId r t).inscription.metadata = none ∧
    (mkNft cfg req punkId r t).inscription.image = none :=
  ⟨rfl, rfl, rfl, rfl, rfl, rfl⟩

/-- C12 fails on the code. One punk is requested from an empty collection and the
pipeline succeeds, returning `mintAddress: "MINT"`, `jsonAccount: "JSON"`,
`imageAccount: "IMAGE"`. The record appended to `mints` (and returned in
`minted`) has the allocated id, the recipient as owner and `MINT` as
mintAddress, but its `inscription.account`, `inscription.metadata` and
`inscription.image` are undefined: the handler reads `inscriptionAccount`,
`inscriptionMetadata` and `associatedInscription`, which the returned object
does not have. -/
theorem mint_record_inscription_addresses_undefined :
    (∃ r, (inscribePunkOnChain sampleConfig okPipelineEnv 0 "WALLET").1 = .ok r ∧
      r.mintAddress = "MINT" ∧ r.jsonAccount = "JSON" ∧ r.imageAccount = "IMAGE") ∧
    (handleInscribe sampleConfig emptyWorld (sampleRequest 1) (fun _ => okIterEnv)).response =
      ⟨200, .success true
        [{ id := 0, name := "X1 Punk #0", symbol := "X1PUNK", owner := "WALLET"
           imageUrl :=
            "https://raw.githubusercontent.com/Execute007/x1punks-images/master/generated/punk_0.png"
           txSignature := "PAYMENT", mintAddress := "MINT", inscribedAt := "t1"
           onChain := true
           inscription :=
            { account := none, metadata := none, image := none
              jsonSize := 10, imageSize := 4, imageHash := "4" } }] 1⟩ ∧
    (handleInscribe sampleConfig emptyWorld (sampleRequest 1) (fun _ => okIterEnv)).state =
      some
        { mintedCount := 1
          mints :=
            [{ id := 0, name := "X1 Punk #0", symbol := "X1PUNK", owner := "WALLET"
               imageUrl :=
                "https://raw.githubusercontent.com/Execute007/x1punks-images/master/generated/punk_0.png"
               txSignature := "PAYMENT", mintAddress := "MINT", inscribedAt := "t1"
               onChain := true
               inscription :=
                { account := none, metadata := none, image := none
                  jsonSize := 10, imageSize := 4, imageHash := "4" } }]
          mintedIds := [0] } := by
  have hg : getRandomUnmintedId (getMintState emptyWorld).mintedIds RandomDraw.zero = some 0 :=
    getRandomUnmintedId_zero_draw (by decide)
  have hp : inscribePunkOnChain sampleConfig okPipelineEnv 0 "WALLET" =
      (.ok (match (inscribePunkOnChain sampleConfig okPipelineEnv 0 "WALLET").1 with
          | .ok r => r
          | .error _ => sampleResult),
        (inscribePunkOnChain sampleConfig okPipelineEnv 0 "WALLET").2) := rfl
  have hrun : handleInscribe sampleConfig emptyWorld (sampleRequest 1) (fun _ => okIterEnv) =
      inscribeLoop sampleConfig (sampleRequest 1) (fun _ => okIterEnv) (0 + 1) 0
        (getMintState emptyWorld) [] emptyWorld :=
    handleInscribe_valid (by decide)
  rw [hrun, inscribeLoop, inscribeBody_ok hg hp]
  refine ⟨⟨_, rfl, rfl, rfl, rfl⟩, ?_, ?_⟩
  · simp only [inscribeLoop]
    decide
  · simp only [inscribeLoop]
    decide

/-! ## The inscription record -/

/-- C13. For every punkId absent from the index, `indexInscription` appends one
record, for that punkId, whose owner is the given wallet, whose onChain fields
mintAddress, jsonAccount, imageAccount, memoSignature, jsonSize, imageSize and
imageHash are those of the pipeline result and whose metadata is
`buildInscriptionJson(punkId)`, returns it, and writes the index with
`totalInscribed` equal to the number of inscriptions. -/
theorem indexInscription_appends_record (cfg : Config) (w : World) (punkId : Nat)
    (wallet : String) (r : OnChainResult) (t1 t2 : String)
    (habsent : ∀ x ∈ (getInscriptionsIndex w).inscriptions, x.punkId ≠ punkId) :
    ∃ record w1, indexInscription cfg w punkId wallet r t1 t2 = (record, w1) ∧
      (getInscriptionsIndex w1).inscriptions =
        (getInscriptionsIndex w).inscriptions ++ [record] ∧
      record.punkId = punkId ∧
      record.owner = wallet ∧
      record.onChain.mintAddress = r.mintAddress ∧
      record.onChain.jsonAccount = r.jsonAccount ∧
      record.onChain.imageAccount = r.imageAccount ∧
      record.onChain.memoSignature = r.memoSignature ∧
      record.onChain.jsonSize = r.jsonSize ∧
      record.onChain.imageSize = r.imageSize ∧
      record.onChain.imageHash = r.imageHash ∧
      record.metadata = buildInscriptionJson cfg.allMeta punkId ∧
      (getInscriptionsIndex w1).totalInscribed = (getInscriptionsIndex w1).inscriptions.length ∧
      w1.indexFile = .json (getInscriptionsIndex w1) := by
  have hf : (getInscriptionsIndex w).inscriptions.find? (fun i => i.punkId == punkId)
      = none := by
    apply List.find?_eq_none.mpr
    intro x hx
    simpa using habsent x hx
  rw [indexInscription_of_find_none hf]
  exact ⟨_, _, rfl, rfl, rfl, rfl, rfl, rfl, rfl, rfl, rfl, rfl, rfl, rfl, rfl, rfl⟩

theorem indexInscription_appends_record_witness :
    (∀ x ∈ (getInscriptionsIndex sampleWorld).inscriptions, x.punkId ≠ 8) ∧
    ∃ record w1,
      indexInscription sampleConfig sampleWorld 8 "WALLET" sampleResult "t8" "t9"
        = (record, w1) ∧
      record.owner = "WALLET" ∧
      (getInscriptionsIndex w1).totalInscribed = (getInscriptionsIndex w1).inscriptions.length :=
  have habsent : ∀ x ∈ (getInscriptionsIndex sampleWorld).inscriptions, x.punkId ≠ 8 := by
    decide
  ⟨habsent,
   match indexInscription_appends_record sampleConfig sampleWorld 8 "WALLET" sampleResult
      "t8" "t9" habsent with
   | ⟨record, w1, hrun, _, _, howner, _, _, _, _, _, _, _, _, htotal, _⟩ =>
     ⟨record, w1, hrun, howner, htotal⟩⟩

/-! ## Full success -/

/-- C14. Full success: for every quantity `q` in `1..10` and every initial state
with at least `q` unassigned identifiers, if every pipeline call succeeds the
response is `{success: true, minted, totalMinted}` (status 200) with exactly `q`
minted records, record `j` the `nft` built from the result of pipeline call `j`,
whose ids are pairwise distinct and were not in the initial `mintedIds`;
`totalMinted` is the initial `mintedCount + q`; the state is the initial state
with those records appended; and the persisted mint state is the in-memory
state. -/
theorem handleInscribe_full_success (cfg : Config) (w : World) (req : InscribeRequest)
    (envs : Nat → IterEnv)
    (hwallet : req.wallet ≠ "") (hsig : req.txSignature ≠ "")
    (hq : 1 ≤ req.quantity ∧ req.quantity ≤ 10)
    (hok : ∀ j : Nat, (j : Int) < req.quantity → ∀ id, ∃ r effs,
      inscribePunkOnChain cfg (envs j).pipeline id req.wallet = (.ok r, effs))
    (havail : HasUnassigned (getMintState w).mintedIds req.quantity.toNat) :
    ∃ (minted : List Nft) (st : MintState),
      (minted.length : Int) = req.quantity ∧
      (minted.map (fun n => n.id)).Nodup ∧
      (∀ n ∈ minted, n.owner = req.wallet ∧ n.id < 10000 ∧
        n.id ∉ (getMintState w).mintedIds) ∧
      (∀ j n, minted[j]? = some n → ∃ r effs,
        inscribePunkOnChain cfg (envs j).pipeline n.id req.wallet = (.ok r, effs) ∧
        n = mkNft cfg req n.id r (envs j).nftTime) ∧
      (handleInscribe cfg w req envs).response =
        ⟨200, .success true minted ((getMintState w).mintedCount + minted.length)⟩ ∧
      (handleInscribe cfg w req envs).state = some st ∧
      st = (getMintState w).extend minted ∧
      (handleInscribe cfg w req envs).world.stateFile = .json st.toDoc ∧
      pipelineCalls (handleInscribe cfg w req envs).world.log =
        pipelineCalls w.log + minted.length := by
  have hav := hasUnassigned_iff.mp havail
  obtain ⟨minted, w1, hlen, hrun, _, hfile, _, hprops, hnd, hcalls, hrec⟩ :=
    inscribeLoop_successes cfg req envs req.quantity.toNat 0 0 (getMintState w) [] w
      (by
        intro j hj id
        have := hok j (by omega) id
        simpa using this)
      hav
  simp only [Nat.zero_add, List.nil_append] at hrun hrec
  have hout : handleInscribe cfg w req envs =
      { response := ⟨200, .success true minted ((getMintState w).extend minted).mintedCount⟩
        state := some ((getMintState w).extend minted), inscribedNfts := minted
        world := w1 } := by
    rw [handleInscribe_valid ⟨hwallet, hsig, hq.1, hq.2⟩, hrun]
    simp [inscribeLoop]
  refine ⟨minted, (getMintState w).extend minted, by omega, hnd, hprops, hrec, ?_, ?_, rfl, ?_, ?_⟩
  · rw [hout]; rfl
  · rw [hout]
  · rw [hout]
    exact hfile (by omega)
  · rw [hout, hlen]
    exact hcalls

theorem handleInscribe_full_success_witness :
    HasUnassigned (getMintState sampleWorld).mintedIds (3 : Int).toNat ∧
    ∃ minted : List Nft,
      (minted.length : Int) = 3 ∧
      (handleInscribe sampleConfig sampleWorld (sampleRequest 3) (fun _ => okIterEnv)).response =
        ⟨200, .success true minted ((getMintState sampleWorld).mintedCount + minted.length)⟩ :=
  have havail : HasUnassigned (getMintState sampleWorld).mintedIds (3 : Int).toNat :=
    ⟨[0, 1, 2], by decide, rfl, by decide⟩
  ⟨havail,
   match handleInscribe_full_success sampleConfig sampleWorld (sampleRequest 3)
      (fun _ => okIterEnv) (by decide) (by decide) (by decide)
      (fun _ _ _ => ⟨_, _, rfl⟩) havail with
   | ⟨minted, _, hlen, _, _, _, hresp, _, _, _, _⟩ => ⟨minted, hlen, hresp⟩⟩


/-! ## `String(i)` names one property per number -/

/-- The value of a decimal digit character. -/
theorem digitChar_toNat (d : Nat) (h : d < 10) : (Nat.digitChar d).toNat - 48 = d := by
  interval_cases d <;> rfl

theorem foldl_digits (l : List Char) (a : Nat) :
    l.foldl (fun acc c => acc * 10 + (c.toNat - 48)) a =
      a * 10 ^ l.length + l.foldl (fun acc c => acc * 10 + (c.toNat - 48)) 0 := by
  induction l generalizing a with
  | nil => simp
  | cons c t ih =>
    simp only [List.foldl_cons, List.length_cons]
    rw [ih, ih (0 * 10 + (c.toNat - 48))]
    ring

theorem foldl_toDigitsCore (fuel : Nat) : ∀ (n : Nat) (ds : List Char), n < fuel →
    (Nat.toDigitsCore 10 fuel n ds).foldl (fun acc c => acc * 10 + (c.toNat - 48)) 0 =
      n * 10 ^ ds.length + ds.foldl (fun acc c => acc * 10 + (c.toNat - 48)) 0 := by
  induction fuel with
  | zero => intro n ds h; omega
  | succ f ih =>
    intro n ds h
    rw [Nat.toDigitsCore]
    split
    · rename_i h0
      have hn : n = n % 10 := by omega
      rw [List.foldl_cons, foldl_digits, digitChar_toNat _ (Nat.mod_lt _ (by decide)), ← hn]
      simp
    · rename_i h0
      have hlt : n / 10 < f := by omega
      rw [ih (n / 10) (Nat.digitChar (n % 10) :: ds) hlt, List.foldl_cons, foldl_digits,
        digitChar_toNat _ (Nat.mod_lt _ (by decide))]
      simp only [List.length_cons, pow_succ]
      have hdm : n = 10 * (n / 10) + n % 10 := (Nat.div_add_mod n 10).symm
      generalize 10 ^ ds.length = p
      generalize ds.foldl (fun acc c => acc * 10 + (c.toNat - 48)) 0 = t
      generalize n / 10 = q at hdm ⊢
      generalize n % 10 = r at hdm ⊢
      rw [hdm]
      ring

/-- `String(i)` names one property per number. -/
theorem toString_nat_injective {a b : Nat} (h : toString a = toString b) : a = b := by
  have key : ∀ n : Nat,
      (Nat.repr n).data.foldl (fun acc c => acc * 10 + (c.toNat - 48)) 0 = n := by
    intro n
    have := foldl_toDigitsCore (n + 1) n [] (Nat.lt_succ_self n)
    simpa [Nat.repr, Nat.toDigits, List.asString] using this
  have h1 : Nat.repr a = Nat.repr b := h
  rw [← key a, ← key b, h1]

/-! ## The partition of the range -/

theorem partitionIds_eq (manifest : UploadManifest) (startFrom endId : Nat) :
    partitionIds manifest startFrom endId =
      (((List.range' startFrom (endId - startFrom)).filter
          (fun i => (manifest.entry i).isSome)).length,
       (List.range' startFrom (endId - startFrom)).filter
          (fun i => (manifest.entry i).isNone)) := by
  unfold partitionIds
  have gen : ∀ (l : List Nat) (acc : Nat × List Nat),
      l.foldl (fun acc i =>
        if (manifest.entry i).isSome then (acc.1 + 1, acc.2) else (acc.1, acc.2 ++ [i])) acc =
      (acc.1 + (l.filter (fun i => (manifest.entry i).isSome)).length,
       acc.2 ++ l.filter (fun i => (manifest.entry i).isNone)) := by
    intro l
    induction l with
    | nil => intro acc; simp
    | cons a t ih =>
      intro acc
      rw [List.foldl_cons, ih]
      cases h : manifest.entry a
      · simp [List.filter, h]
      · simp [List.filter, h]
        omega
  rw [gen]
  simp

theorem pendingIds_eq (manifest : UploadManifest) (startFrom endId : Nat) :
    pendingIds manifest startFrom endId =
      (List.range' startFrom (endId - startFrom)).filter
        (fun i => (manifest.entry i).isNone) := by
  simp [pendingIds, partitionIds_eq]

theorem mem_pendingIds {manifest : UploadManifest} {startFrom endId i : Nat} :
    i ∈ pendingIds manifest startFrom endId ↔
      startFrom ≤ i ∧ i < endId ∧ manifest.entry i = none := by
  rw [pendingIds_eq, List.mem_filter, List.mem_range']
  simp only [Option.isNone_iff_eq_none]
  constructor
  · rintro ⟨⟨k, hk, rfl⟩, h⟩
    exact ⟨by omega, by omega, h⟩
  · rintro ⟨h1, h2, h3⟩
    exact ⟨⟨i - startFrom, by omega, by omega⟩, h3⟩

theorem pendingIds_ascending (manifest : UploadManifest) (startFrom endId : Nat) :
    (pendingIds manifest startFrom endId).Pairwise (· < ·) := by
  rw [pendingIds_eq]
  exact List.Pairwise.filter _ (List.pairwise_lt_range' startFrom (endId - startFrom))

theorem pendingIds_nodup (manifest : UploadManifest) (startFrom endId : Nat) :
    (pendingIds manifest startFrom endId).Nodup :=
  (pendingIds_ascending manifest startFrom endId).imp (fun h => Nat.ne_of_lt h)


/-! ## One group -/

theorem uploadBatches_of_lt {env : UploaderEnv} {punkIds : List Nat} {batchStart : Nat}
    (st : UploaderState) (h : batchStart < punkIds.length) :
    uploadBatches env punkIds batchStart st =
      uploadBatches env punkIds (batchStart + BATCH_SIZE) (uploadPass env punkIds batchStart st) := by
  rw [uploadBatches, if_pos h]

theorem uploadBatches_of_ge {env : UploaderEnv} {punkIds : List Nat} {batchStart : Nat}
    (st : UploaderState) (h : punkIds.length ≤ batchStart) :
    uploadBatches env punkIds batchStart st = st := by
  rw [uploadBatches, if_neg (by omega)]

theorem attemptedIds_append (l1 l2 : List UploaderEffect) :
    attemptedIds (l1 ++ l2) = attemptedIds l1 ++ attemptedIds l2 := by
  simp [attemptedIds, List.filterMap_append]

theorem flushedManifests_append (l1 l2 : List UploaderEffect) :
    flushedManifests (l1 ++ l2) = flushedManifests l1 ++ flushedManifests l2 := by
  simp [flushedManifests, List.filterMap_append]

theorem pauses_append (l1 l2 : List UploaderEffect) :
    pauses (l1 ++ l2) = pauses l1 ++ pauses l2 := by
  simp [pauses, List.filterMap_append]

theorem attemptedIds_uploadPunk (env : UploadEnv) (punkId : Nat) :
    attemptedIds (uploadPunk env punkId).2 = [] ∧
    flushedManifests (uploadPunk env punkId).2 = [] ∧
    pauses (uploadPunk env punkId).2 = [] := by
  unfold uploadPunk
  repeat' split
  all_goals exact ⟨rfl, rfl, rfl⟩

theorem batchCalls_nil (env : UploaderEnv) : batchCalls env [] = [] := rfl

theorem batchCalls_cons (env : UploaderEnv) (id : Nat) (t : List Nat) :
    batchCalls env (id :: t) =
      UploaderEffect.uploadPunk id :: (uploadPunk (env.punk id) id).2 ++ batchCalls env t := by
  simp [batchCalls]

theorem attemptedIds_batchCalls (env : UploaderEnv) (batch : List Nat) :
    attemptedIds (batchCalls env batch) = batch ∧
    flushedManifests (batchCalls env batch) = [] ∧
    pauses (batchCalls env batch) = [] := by
  induction batch with
  | nil => exact ⟨rfl, rfl, rfl⟩
  | cons id t ih =>
    obtain ⟨h1, h2, h3⟩ := attemptedIds_uploadPunk (env.punk id) id
    rw [batchCalls_cons]
    refine ⟨?_, ?_, ?_⟩
    · rw [attemptedIds_append, ih.1]
      show id :: attemptedIds (uploadPunk (env.punk id) id).2 ++ t = id :: t
      rw [h1]; rfl
    · rw [flushedManifests_append, ih.2.1]
      show flushedManifests (uploadPunk (env.punk id) id).2 ++ [] = []
      rw [h2]; rfl
    · rw [pauses_append, ih.2.2]
      show pauses (uploadPunk (env.punk id) id).2 ++ [] = []
      rw [h3]; rfl

/-- The entry written for a fulfilled result. -/
theorem mergeResult_ok (st : UploaderState) (r : UploadResult) (now : String) :
    (mergeResult st (.ok r) now).manifest.uploads =
      st.manifest.uploads.insert (toString r.punkId) ⟨r.imageTxId, r.imageUrl, r.imageSize, now⟩ ∧
    (mergeResult st (.ok r) now).manifest.totalUploaded =
      (mergeResult st (.ok r) now).manifest.uploads.keys.length ∧
    (mergeResult st (.ok r) now).world = st.world ∧
    (mergeResult st (.ok r) now).manifest.startedAt = st.manifest.startedAt ∧
    (mergeResult st (.ok r) now).manifest.lastUpdated = st.manifest.lastUpdated :=
  ⟨rfl, rfl, rfl, rfl, rfl⟩

theorem mergeResult_error (st : UploaderState) (msg : String) (now : String) :
    (mergeResult st (.error msg) now).manifest = st.manifest ∧
    (mergeResult st (.error msg) now).world = st.world :=
  ⟨rfl, rfl⟩

theorem uploadPunk_punkId {env : UploadEnv} {punkId : Nat} {r : UploadResult}
    (h : (uploadPunk env punkId).1 = .ok r) : r.punkId = punkId := by
  unfold uploadPunk at h
  repeat' split at h
  all_goals first
    | (simp only [Except.ok.injEq] at h
       rw [← h])
    | simp at h

theorem mergeBatch_nil (env : UploaderEnv) (st : UploaderState) : mergeBatch env [] st = st := rfl

theorem mergeBatch_cons (env : UploaderEnv) (id : Nat) (t : List Nat) (st : UploaderState) :
    mergeBatch env (id :: t) st =
      mergeBatch env t (mergeResult st (uploadPunk (env.punk id) id).1 (env.punk id).uploadedAt) :=
  rfl

theorem mergeBatch_world (env : UploaderEnv) (batch : List Nat) :
    ∀ st, (mergeBatch env batch st).world = st.world := by
  induction batch with
  | nil => intro st; rfl
  | cons id t ih =>
    intro st
    rw [mergeBatch_cons, ih]
    cases h : (uploadPunk (env.punk id) id).1 <;> rfl

/-- A property name that belongs to no member of the group is left as it was. -/
theorem mergeBatch_lookup_other (env : UploaderEnv) (batch : List Nat) (k : String)
    (hk : ∀ i ∈ batch, toString i ≠ k) :
    ∀ st, (mergeBatch env batch st).manifest.uploads.lookup k = st.manifest.uploads.lookup k := by
  induction batch with
  | nil => intro st; rfl
  | cons id t ih =>
    intro st
    rw [mergeBatch_cons, ih (fun i hi => hk i (List.mem_cons_of_mem _ hi))]
    cases h : (uploadPunk (env.punk id) id).1 with
    | error msg => rfl
    | ok r =>
      rw [(mergeResult_ok st r _).1, uploadPunk_punkId h]
      exact AList.lookup_insert_ne (fun hh => hk id (List.mem_cons_self _ _) hh.symm)

/-- A member whose upload succeeded has its entry after the merge loop. -/
theorem mergeBatch_lookup_ok (env : UploaderEnv) (batch : List Nat) (hnd : batch.Nodup)
    (i : Nat) (hi : i ∈ batch) (r : UploadResult)
    (hr : (uploadPunk (env.punk i) i).1 = .ok r) :
    ∀ st, (mergeBatch env batch st).manifest.uploads.lookup (toString i) =
      some ⟨r.imageTxId, r.imageUrl, r.imageSize, (env.punk i).uploadedAt⟩ := by
  induction batch with
  | nil => exact absurd hi (List.not_mem_nil i)
  | cons id t ih =>
    intro st
    rw [mergeBatch_cons]
    have hnd' := List.nodup_cons.mp hnd
    rcases List.mem_cons.mp hi with rfl | hit
    · rw [mergeBatch_lookup_other env t (toString i)
        (fun j hj hh => hnd'.1 (toString_nat_injective hh ▸ hj)), hr, (mergeResult_ok st r _).1,
        uploadPunk_punkId hr]
      exact AList.lookup_insert _
    · exact ih hnd'.2 hit _

/-- A member whose upload failed leaves its property as it was. -/
theorem mergeBatch_lookup_error (env : UploaderEnv) (batch : List Nat) (hnd : batch.Nodup)
    (i : Nat) (hi : i ∈ batch) (msg : String)
    (hr : (uploadPunk (env.punk i) i).1 = .error msg) :
    ∀ st, (mergeBatch env batch st).manifest.uploads.lookup (toString i) =
      st.manifest.uploads.lookup (toString i) := by
  induction batch with
  | nil => exact absurd hi (List.not_mem_nil i)
  | cons id t ih =>
    intro st
    rw [mergeBatch_cons]
    have hnd' := List.nodup_cons.mp hnd
    rcases List.mem_cons.mp hi with rfl | hit
    · rw [mergeBatch_lookup_other env t (toString i)
        (fun j hj hh => hnd'.1 (toString_nat_injective hh ▸ hj)), hr]
      rfl
    · rw [ih hnd'.2 hit]
      cases h : (uploadPunk (env.punk id) id).1 with
      | error m => rfl
      | ok r =>
        rw [(mergeResult_ok st r _).1, uploadPunk_punkId h]
        refine AList.lookup_insert_ne (fun hh => hnd'.1 ?_)
        rw [← toString_nat_injective hh]
        exact hit

/-- The merge loop never removes an entry's property. -/
theorem mergeBatch_keeps (env : UploaderEnv) (batch : List Nat) (k : String) :
    ∀ st, (st.manifest.uploads.lookup k).isSome →
      ((mergeBatch env batch st).manifest.uploads.lookup k).isSome := by
  induction batch with
  | nil => intro st h; exact h
  | cons id t ih =>
    intro st h
    rw [mergeBatch_cons]
    apply ih
    cases hres : (uploadPunk (env.punk id) id).1 with
    | error m => exact h
    | ok r =>
      rw [(mergeResult_ok st r _).1]
      by_cases hk : k = toString r.punkId
      · rw [hk, AList.lookup_insert]; rfl
      · rw [AList.lookup_insert_ne hk]; exact h

/-- The merge loop keeps `totalUploaded == Object.keys(uploads).length`. -/
theorem mergeBatch_totalUploaded (env : UploaderEnv) (batch : List Nat) :
    ∀ st, st.manifest.totalUploaded = st.manifest.uploads.keys.length →
      (mergeBatch env batch st).manifest.totalUploaded =
        (mergeBatch env batch st).manifest.uploads.keys.length := by
  induction batch with
  | nil => intro st h; exact h
  | cons id t ih =>
    intro st h
    rw [mergeBatch_cons]
    apply ih
    cases hres : (uploadPunk (env.punk id) id).1 with
    | error m => exact h
    | ok r => exact (mergeResult_ok st r _).2.1


/-! ## The passes of the batch loop -/

theorem uploadPass_spec (env : UploaderEnv) (punkIds : List Nat) (batchStart : Nat)
    (st : UploaderState) :
    (uploadPass env punkIds batchStart st).manifest =
      { (mergeBatch env ((punkIds.drop batchStart).take BATCH_SIZE) st).manifest with
        lastUpdated := some (env.saveTime batchStart) } ∧
    (uploadPass env punkIds batchStart st).world.manifestFile =
      .json (uploadPass env punkIds batchStart st).manifest ∧
    (uploadPass env punkIds batchStart st).world.log =
      st.world.log ++ batchCalls env ((punkIds.drop batchStart).take BATCH_SIZE) ++
        [.writeManifest (uploadPass env punkIds batchStart st).manifest] ++
        (if batchStart + BATCH_SIZE < punkIds.length then [.sleep DELAY_BETWEEN_BATCHES_MS]
          else []) := by
  have hman : ∀ (l : List UploaderEffect),
      (mergeBatch env ((punkIds.drop batchStart).take BATCH_SIZE)
        { st with world := { st.world with log := l } }).manifest =
      (mergeBatch env ((punkIds.drop batchStart).take BATCH_SIZE) st).manifest := by
    intro l
    generalize (punkIds.drop batchStart).take BATCH_SIZE = batch
    have gen : ∀ (s1 s2 : UploaderState), s1.manifest = s2.manifest →
        (mergeBatch env batch s1).manifest = (mergeBatch env batch s2).manifest := by
      induction batch with
      | nil => intro s1 s2 h; exact h
      | cons id t ih =>
        intro s1 s2 h
        rw [mergeBatch_cons, mergeBatch_cons]
        apply ih
        cases hres : (uploadPunk (env.punk id) id).1 with
        | error m => exact h
        | ok r => simp only [mergeResult, h]
    exact gen _ _ rfl
  unfold uploadPass
  simp only [saveManifest, mergeBatch_world, hman]
  split <;> simp

theorem uploadPass_uploads (env : UploaderEnv) (punkIds : List Nat) (batchStart : Nat)
    (st : UploaderState) :
    (uploadPass env punkIds batchStart st).manifest.uploads =
      (mergeBatch env ((punkIds.drop batchStart).take BATCH_SIZE) st).manifest.uploads := by
  rw [(uploadPass_spec env punkIds batchStart st).1]

theorem uploadPass_totalUploaded (env : UploaderEnv) (punkIds : List Nat) (batchStart : Nat)
    (st : UploaderState) (h : st.manifest.totalUploaded = st.manifest.uploads.keys.length) :
    (uploadPass env punkIds batchStart st).manifest.totalUploaded =
      (uploadPass env punkIds batchStart st).manifest.uploads.keys.length := by
  rw [(uploadPass_spec env punkIds batchStart st).1]
  exact mergeBatch_totalUploaded env _ st h

theorem stateAtGroup_succ (env : UploaderEnv) (punkIds : List Nat) (st0 : UploaderState)
    (g : Nat) :
    stateAtGroup env punkIds st0 (g + 1) =
      uploadPass env punkIds (g * BATCH_SIZE) (stateAtGroup env punkIds st0 g) := rfl

/-- The run goes through the groups one after the other, whatever the outcomes. -/
theorem uploadBatches_eq_from_group (env : UploaderEnv) (punkIds : List Nat)
    (st0 : UploaderState) :
    ∀ g, g ≤ groupCount punkIds.length →
      uploadBatches env punkIds 0 st0 =
        uploadBatches env punkIds (g * BATCH_SIZE) (stateAtGroup env punkIds st0 g) := by
  intro g
  induction g with
  | zero => intro _; simp [stateAtGroup]
  | succ g ih =>
    intro hg
    have hlt : g * BATCH_SIZE < punkIds.length := by
      simp only [groupCount, BATCH_SIZE] at hg ⊢
      omega
    rw [ih (by omega), uploadBatches_of_lt _ hlt, stateAtGroup_succ]
    congr 1
    simp only [BATCH_SIZE]
    omega

theorem uploadBatches_eq_stateAtGroup (env : UploaderEnv) (punkIds : List Nat)
    (st0 : UploaderState) :
    uploadBatches env punkIds 0 st0 =
      stateAtGroup env punkIds st0 (groupCount punkIds.length) := by
  rw [uploadBatches_eq_from_group env punkIds st0 _ (le_refl _)]
  apply uploadBatches_of_ge
  simp only [groupCount, BATCH_SIZE]
  omega

theorem take_next_group (punkIds : List Nat) (g : Nat) :
    punkIds.take ((g + 1) * BATCH_SIZE) = punkIds.take (g * BATCH_SIZE) ++ groupOf punkIds g := by
  rw [show (g + 1) * BATCH_SIZE = g * BATCH_SIZE + BATCH_SIZE by ring, List.take_add]
  rfl

theorem groupOf_nodup {punkIds : List Nat} (hnd : punkIds.Nodup) (g : Nat) :
    (groupOf punkIds g).Nodup :=
  hnd.sublist ((List.take_sublist _ _).trans (List.drop_sublist _ _))

theorem not_mem_take_of_mem_groupOf {punkIds : List Nat} (hnd : punkIds.Nodup) {g i : Nat}
    (hi : i ∈ groupOf punkIds g) : i ∉ punkIds.take (g * BATCH_SIZE) := by
  intro h
  exact List.disjoint_take_drop hnd (le_refl _) h (List.mem_of_mem_take hi)

/-- After `g` passes the log holds the calls for the first `g` groups, the
manifests written are those the passes ended with, and a property that names no
identifier of those groups is as it was at the start. -/
theorem stateAtGroup_log (env : UploaderEnv) (punkIds : List Nat) (st0 : UploaderState) :
    ∀ g, ∃ new, (stateAtGroup env punkIds st0 g).world.log = st0.world.log ++ new ∧
      attemptedIds new = punkIds.take (g * BATCH_SIZE) ∧
      flushedManifests new =
        (List.range g).map (fun j => (stateAtGroup env punkIds st0 (j + 1)).manifest) ∧
      pauses new = ((List.range g).filter
        (fun j => (j + 1) * BATCH_SIZE < punkIds.length)).map
          (fun _ => DELAY_BETWEEN_BATCHES_MS) := by
  intro g
  induction g with
  | zero => exact ⟨[], by simp [stateAtGroup], by simp [attemptedIds], by simp [flushedManifests],
      by simp [pauses]⟩
  | succ g ih =>
    obtain ⟨new, hlog, hatt, hfl, hp⟩ := ih
    obtain ⟨_, _, hpass⟩ :=
      uploadPass_spec env punkIds (g * BATCH_SIZE) (stateAtGroup env punkIds st0 g)
    obtain ⟨hb1, hb2, hb3⟩ :=
      attemptedIds_batchCalls env ((punkIds.drop (g * BATCH_SIZE)).take BATCH_SIZE)
    refine ⟨new ++ batchCalls env ((punkIds.drop (g * BATCH_SIZE)).take BATCH_SIZE) ++
        [.writeManifest (stateAtGroup env punkIds st0 (g + 1)).manifest] ++
        (if g * BATCH_SIZE + BATCH_SIZE < punkIds.length then
          [.sleep DELAY_BETWEEN_BATCHES_MS] else []), ?_, ?_, ?_, ?_⟩
    · rw [stateAtGroup_succ, hpass, hlog]
      simp only [List.append_assoc]
    · rw [attemptedIds_append, attemptedIds_append, attemptedIds_append, hatt, hb1,
        take_next_group]
      split <;> simp [attemptedIds, groupOf]
    · rw [flushedManifests_append, flushedManifests_append, flushedManifests_append, hfl, hb2,
        List.range_succ, List.map_append]
      split <;> simp [flushedManifests]
    · rw [pauses_append, pauses_append, pauses_append, hp, hb3, List.range_succ,
        List.filter_append, List.map_append]
      have he : (g + 1) * BATCH_SIZE = g * BATCH_SIZE + BATCH_SIZE := by ring
      by_cases hlt : g * BATCH_SIZE + BATCH_SIZE < punkIds.length
      · simp [pauses, hlt, he]
      · simp [pauses, hlt, he]

theorem stateAtGroup_lookup_other (env : UploaderEnv) (punkIds : List Nat)
    (st0 : UploaderState) (k : String) :
    ∀ g, (∀ i ∈ punkIds.take (g * BATCH_SIZE), toString i ≠ k) →
      (stateAtGroup env punkIds st0 g).manifest.uploads.lookup k =
        st0.manifest.uploads.lookup k := by
  intro g
  induction g with
  | zero => intro _; rfl
  | succ g ih =>
    intro hk
    rw [take_next_group] at hk
    rw [stateAtGroup_succ, uploadPass_uploads]
    show AList.lookup k (mergeBatch env (groupOf punkIds g) _).manifest.uploads = _
    rw [mergeBatch_lookup_other env _ k (fun i hi => hk i (List.mem_append_right _ hi)),
      ih (fun i hi => hk i (List.mem_append_left _ hi))]

theorem stateAtGroup_keeps (env : UploaderEnv) (punkIds : List Nat) (st0 : UploaderState)
    (k : String) (h : (st0.manifest.uploads.lookup k).isSome) :
    ∀ g, ((stateAtGroup env punkIds st0 g).manifest.uploads.lookup k).isSome := by
  intro g
  induction g with
  | zero => exact h
  | succ g ih =>
    rw [stateAtGroup_succ, uploadPass_uploads]
    exact mergeBatch_keeps env _ k _ ih

theorem stateAtGroup_totalUploaded (env : UploaderEnv) (punkIds : List Nat)
    (st0 : UploaderState) (h : st0.manifest.totalUploaded = st0.manifest.uploads.keys.length) :
    ∀ g, (stateAtGroup env punkIds st0 g).manifest.totalUploaded =
      (stateAtGroup env punkIds st0 g).manifest.uploads.keys.length := by
  intro g
  induction g with
  | zero => exact h
  | succ g ih =>
    rw [stateAtGroup_succ]
    exact uploadPass_totalUploaded env punkIds _ _ ih

/-- The entry of an identifier of the first `g` groups after `g` passes: the
entry of its upload when that succeeded, what was there at the start when it
failed. -/
theorem stateAtGroup_lookup_member (env : UploaderEnv) (punkIds : List Nat)
    (hnd : punkIds.Nodup) (st0 : UploaderState) (i : Nat) :
    ∀ g, i ∈ punkIds.take (g * BATCH_SIZE) →
      (∀ r, (uploadPunk (env.punk i) i).1 = .ok r →
        (stateAtGroup env punkIds st0 g).manifest.uploads.lookup (toString i) =
          some ⟨r.imageTxId, r.imageUrl, r.imageSize, (env.punk i).uploadedAt⟩) ∧
      (∀ msg, (uploadPunk (env.punk i) i).1 = .error msg →
        (stateAtGroup env punkIds st0 g).manifest.uploads.lookup (toString i) =
          st0.manifest.uploads.lookup (toString i)) := by
  intro g
  induction g with
  | zero => intro hi; simp at hi
  | succ g ih =>
    intro hi
    rw [take_next_group] at hi
    rw [stateAtGroup_succ, uploadPass_uploads]
    rcases List.mem_append.mp hi with hi | hi
    · have hother : ∀ j ∈ (punkIds.drop (g * BATCH_SIZE)).take BATCH_SIZE,
          toString j ≠ toString i := by
        intro j hj hh
        have hji : j = i := toString_nat_injective hh
        exact not_mem_take_of_mem_groupOf hnd (hji ▸ hj) hi
      rw [mergeBatch_lookup_other env _ _ hother]
      exact ih hi
    · constructor
      · intro r hr
        exact mergeBatch_lookup_ok env _ (groupOf_nodup hnd g) i hi r hr _
      · intro msg hr
        show AList.lookup (toString i) (mergeBatch env (groupOf punkIds g) _).manifest.uploads = _
        rw [mergeBatch_lookup_error env _ (groupOf_nodup hnd g) i hi msg hr]
        apply stateAtGroup_lookup_other
        intro j hj hh
        have hji : j = i := toString_nat_injective hh
        exact not_mem_take_of_mem_groupOf hnd hi (hji ▸ hj)


/-! ## A whole run -/

theorem uploadAll_final (env : UploaderEnv) (w : UploaderWorld) (manifest : UploadManifest)
    (startFrom endId : Nat) :
    (uploadAll env w manifest startFrom endId).punkIds = pendingIds manifest startFrom endId ∧
    (uploadAll env w manifest startFrom endId).final =
      stateAtGroup env (pendingIds manifest startFrom endId) (uploadStart w manifest)
        (groupCount (pendingIds manifest startFrom endId).length) :=
  ⟨rfl, uploadBatches_eq_stateAtGroup env _ _⟩

theorem take_all_groups (punkIds : List Nat) :
    punkIds.take (groupCount punkIds.length * BATCH_SIZE) = punkIds := by
  apply List.take_of_length_le
  simp only [groupCount, BATCH_SIZE]
  omega

theorem uploadFails_iff {env : UploaderEnv} {i : Nat} :
    (uploadFails env i = true ↔ ∃ msg, (uploadPunk (env.punk i) i).1 = .error msg) ∧
    (uploadFails env i = false ↔ ∃ r, (uploadPunk (env.punk i) i).1 = .ok r) := by
  unfold uploadFails
  cases (uploadPunk (env.punk i) i).1 <;> simp

/-- The entry of an identifier after `g` passes of a run, read off the loaded
manifest and the outcomes of the uploads. -/
theorem stateAtGroup_entry_isNone (env : UploaderEnv) (w : UploaderWorld)
    (manifest : UploadManifest) (startFrom endId g i : Nat) :
    (((stateAtGroup env (pendingIds manifest startFrom endId) (uploadStart w manifest)
        g).manifest.entry i).isNone = true) ↔
      (manifest.entry i).isNone = true ∧
        (i ∈ (pendingIds manifest startFrom endId).take (g * BATCH_SIZE) →
          uploadFails env i = true) := by
  have hnd := pendingIds_nodup manifest startFrom endId
  by_cases hi : i ∈ (pendingIds manifest startFrom endId).take (g * BATCH_SIZE)
  · have hnone : manifest.entry i = none := (mem_pendingIds.mp (List.mem_of_mem_take hi)).2.2
    obtain ⟨hok, herr⟩ := stateAtGroup_lookup_member env _ hnd (uploadStart w manifest) i g hi
    cases hres : (uploadPunk (env.punk i) i).1 with
    | ok r =>
      have hf : uploadFails env i = false := uploadFails_iff.2.mpr ⟨r, hres⟩
      simp [UploadManifest.entry, hok r hres, hf, hi]
    | error msg =>
      have hf : uploadFails env i = true := uploadFails_iff.1.mpr ⟨msg, hres⟩
      have := herr msg hres
      simp only [UploadManifest.entry] at hnone ⊢
      rw [this]
      simp [uploadStart, hnone, hf]
  · have hother : ∀ j ∈ (pendingIds manifest startFrom endId).take (g * BATCH_SIZE),
        toString j ≠ toString i := by
      intro j hj hh
      exact hi (toString_nat_injective hh ▸ hj)
    have := stateAtGroup_lookup_other env _ (uploadStart w manifest) (toString i) g hother
    simp only [UploadManifest.entry]
    rw [this]
    simp [uploadStart, hi]

/-- The pending list of a run started on a manifest that holds what `g` passes
of an earlier run over the same range left: the identifiers of the first `g`
groups whose upload failed, and every identifier of the later groups. -/
theorem pendingIds_after_groups (env : UploaderEnv) (w : UploaderWorld)
    (manifest manifest2 : UploadManifest) (startFrom endId g : Nat)
    (h2 : manifest2.uploads = (stateAtGroup env (pendingIds manifest startFrom endId)
      (uploadStart w manifest) g).manifest.uploads) :
    pendingIds manifest2 startFrom endId =
      ((pendingIds manifest startFrom endId).take (g * BATCH_SIZE)).filter (uploadFails env) ++
        (pendingIds manifest startFrom endId).drop (g * BATCH_SIZE) := by
  have hnd := pendingIds_nodup manifest startFrom endId
  have hsplit : pendingIds manifest2 startFrom endId =
      (pendingIds manifest startFrom endId).filter (fun i =>
        decide (i ∈ (pendingIds manifest startFrom endId).take (g * BATCH_SIZE) →
          uploadFails env i = true)) := by
    rw [pendingIds_eq manifest2, pendingIds_eq manifest, List.filter_filter]
    apply List.filter_congr
    intro i _
    have hentry : manifest2.entry i = (stateAtGroup env (pendingIds manifest startFrom endId)
        (uploadStart w manifest) g).manifest.entry i := by
      simp only [UploadManifest.entry, h2]
    have := stateAtGroup_entry_isNone env w manifest startFrom endId g i
    rw [← pendingIds_eq manifest, hentry, Bool.eq_iff_iff, this]
    simp only [Option.isNone_iff_eq_none, Bool.and_eq_true, decide_eq_true_eq]
    tauto
  rw [hsplit]
  conv_lhs => rw [← List.take_append_drop (g * BATCH_SIZE) (pendingIds manifest startFrom endId)]
  rw [List.filter_append]
  congr 1
  · apply List.filter_congr
    intro i hi
    simp [hi]
  · apply List.filter_eq_self.mpr
    intro i hi
    have : i ∉ (pendingIds manifest startFrom endId).take (g * BATCH_SIZE) :=
      fun h => List.disjoint_take_drop hnd (le_refl _) h hi
    simp [this]

/-- The manifest file during a run: untouched before the first pass has ended,
the manifest of the loop afterwards. -/
theorem stateAtGroup_file (env : UploaderEnv) (punkIds : List Nat) (st0 : UploaderState) :
    ∀ g, (stateAtGroup env punkIds st0 g).world.manifestFile =
      if g = 0 then st0.world.manifestFile
      else .json (stateAtGroup env punkIds st0 g).manifest := by
  intro g
  cases g with
  | zero => rfl
  | succ g =>
    rw [if_neg (Nat.succ_ne_zero g), stateAtGroup_succ]
    exact (uploadPass_spec env punkIds _ _).2.1

/-- Loading the manifest file as `g` passes of a run left it gives the `uploads`
the loop held then. -/
theorem loadManifest_after_groups (env : UploaderEnv) (w w2 : UploaderWorld)
    (manifest : UploadManifest) (punkIds : List Nat) (g : Nat) (now : String)
    (hload : loadManifest w env.startedAt = .ok manifest)
    (hw2 : w2.manifestFile =
      (stateAtGroup env punkIds (uploadStart w manifest) g).world.manifestFile) :
    ∃ manifest2, loadManifest w2 now = .ok manifest2 ∧
      manifest2.uploads =
        (stateAtGroup env punkIds (uploadStart w manifest) g).manifest.uploads := by
  rw [stateAtGroup_file] at hw2
  unfold loadManifest at hload ⊢
  by_cases hg : g = 0
  · subst hg
    simp only [if_true, stateAtGroup, uploadStart] at hw2 ⊢
    rw [hw2]
    cases hf : w.manifestFile with
    | absent =>
      simp only [hf, Except.ok.injEq] at hload
      exact ⟨_, rfl, by rw [← hload]⟩
    | unparsable => simp [hf] at hload
    | json doc =>
      simp only [hf, Except.ok.injEq] at hload
      exact ⟨_, rfl, by rw [← hload]⟩
  · rw [if_neg hg] at hw2
    rw [hw2]
    exact ⟨_, rfl, rfl⟩

theorem partitionIds_total (manifest : UploadManifest) (startFrom endId : Nat) :
    (partitionIds manifest startFrom endId).1 + (partitionIds manifest startFrom endId).2.length
      = endId - startFrom := by
  rw [partitionIds_eq]
  simp only []
  have h := List.length_eq_countP_add_countP (fun i => (manifest.entry i).isSome)
    (List.range' startFrom (endId - startFrom))
  rw [List.length_range'] at h
  have hc : List.countP (fun a => decide ¬(manifest.entry a).isSome = true)
        (List.range' startFrom (endId - startFrom)) =
      List.countP (fun i => (manifest.entry i).isNone)
        (List.range' startFrom (endId - startFrom)) := by
    congr 1
    funext i
    cases manifest.entry i <;> rfl
  rw [hc] at h
  rw [← List.countP_eq_length_filter, ← List.countP_eq_length_filter]
  exact h.symm

/-! ## The counters -/

theorem mergeBatch_counters (env : UploaderEnv) (batch : List Nat) :
    ∀ st, (mergeBatch env batch st).uploaded =
        st.uploaded + (batch.filter (fun i => !uploadFails env i)).length ∧
      (mergeBatch env batch st).failed =
        st.failed + (batch.filter (uploadFails env)).length := by
  induction batch with
  | nil => intro st; exact ⟨rfl, rfl⟩
  | cons id t ih =>
    intro st
    rw [mergeBatch_cons]
    obtain ⟨h1, h2⟩ := ih (mergeResult st (uploadPunk (env.punk id) id).1 (env.punk id).uploadedAt)
    rw [h1, h2]
    cases hres : (uploadPunk (env.punk id) id).1 with
    | error msg =>
      have hf : uploadFails env id = true := uploadFails_iff.1.mpr ⟨msg, hres⟩
      simp [mergeResult, List.filter, hf]
      omega
    | ok r =>
      have hf : uploadFails env id = false := uploadFails_iff.2.mpr ⟨r, hres⟩
      simp [mergeResult, List.filter, hf]
      omega

theorem uploadPass_counters (env : UploaderEnv) (punkIds : List Nat) (batchStart : Nat)
    (st : UploaderState) :
    (uploadPass env punkIds batchStart st).uploaded =
        st.uploaded + (((punkIds.drop batchStart).take BATCH_SIZE).filter
          (fun i => !uploadFails env i)).length ∧
    (uploadPass env punkIds batchStart st).failed =
        st.failed + (((punkIds.drop batchStart).take BATCH_SIZE).filter
          (uploadFails env)).length := by
  unfold uploadPass
  simp only []
  split <;> exact mergeBatch_counters env _ _

theorem stateAtGroup_counters (env : UploaderEnv) (punkIds : List Nat) (st0 : UploaderState) :
    ∀ g, (stateAtGroup env punkIds st0 g).uploaded =
        st0.uploaded + ((punkIds.take (g * BATCH_SIZE)).filter
          (fun i => !uploadFails env i)).length ∧
      (stateAtGroup env punkIds st0 g).failed =
        st0.failed + ((punkIds.take (g * BATCH_SIZE)).filter (uploadFails env)).length := by
  intro g
  induction g with
  | zero => simp [stateAtGroup]
  | succ g ih =>
    obtain ⟨h1, h2⟩ := uploadPass_counters env punkIds (g * BATCH_SIZE)
      (stateAtGroup env punkIds st0 g)
    rw [stateAtGroup_succ, h1, h2, ih.1, ih.2, take_next_group, List.filter_append,
      List.filter_append, List.length_append, List.length_append]
    simp only [groupOf]
    omega


/-! ## The uploader attempts exactly the pending identifiers -/

/-- C15. For every manifest and every range `[start, end)`, the identifiers for
which the uploader attempts an upload during one run (the arguments of its
`uploadPunk` calls, in the order of the calls) are the list `punkIds`: exactly
the identifiers of `[start, end)` that have no entry in the loaded manifest, in
ascending order and so each once; an identifier present in the manifest is never
passed to `uploadPunk`. -/
theorem uploadAll_attempts_pending (env : UploaderEnv) (w : UploaderWorld)
    (manifest : UploadManifest) (startFrom endId : Nat) :
    ∃ new, (uploadAll env w manifest startFrom endId).final.world.log = w.log ++ new ∧
      attemptedIds new = (uploadAll env w manifest startFrom endId).punkIds ∧
      (∀ i, i ∈ attemptedIds new ↔ startFrom ≤ i ∧ i < endId ∧ manifest.entry i = none) ∧
      (attemptedIds new).Pairwise (· < ·) ∧
      (∀ i, manifest.entry i ≠ none → i ∉ attemptedIds new) := by
  obtain ⟨hP, hfinal⟩ := uploadAll_final env w manifest startFrom endId
  obtain ⟨new, hlog, hatt, _, _⟩ :=
    stateAtGroup_log env (pendingIds manifest startFrom endId) (uploadStart w manifest)
      (groupCount (pendingIds manifest startFrom endId).length)
  rw [take_all_groups] at hatt
  refine ⟨new, ?_, ?_, ?_, ?_, ?_⟩
  · rw [hfinal, hlog]; rfl
  · rw [hatt, hP]
  · intro i
    rw [hatt]
    exact mem_pendingIds
  · rw [hatt]
    exact pendingIds_ascending manifest startFrom endId
  · intro i hi hmem
    rw [hatt] at hmem
    exact hi (mem_pendingIds.mp hmem).2.2

theorem uploadAll_attempts_pending_witness :
    sampleManifest.entry 1 ≠ none ∧
    ∃ new, (uploadAll okUploaderEnv sampleUploaderWorld sampleManifest 0 3).final.world.log
        = sampleUploaderWorld.log ++ new ∧
      1 ∉ attemptedIds new :=
  have h1 : sampleManifest.entry 1 ≠ none := by decide
  ⟨h1,
   match uploadAll_attempts_pending okUploaderEnv sampleUploaderWorld sampleManifest 0 3 with
   | ⟨new, hlog, _, _, _, hnever⟩ => ⟨new, hlog, hnever 1 h1⟩⟩

/-! ## A second run -/

theorem uploadBatches_nil (env : UploaderEnv) (st : UploaderState) :
    uploadBatches env [] 0 st = st :=
  uploadBatches_of_ge st (Nat.le_refl 0)

/-- A run started on what an earlier run over the same range left. -/
theorem runUploader_again (env1 env2 : UploaderEnv) (w : UploaderWorld)
    (startFrom endId : Nat) (run1 : UploadRun)
    (h1 : runUploader env1 w startFrom endId = .ok run1) :
    ∃ run2 manifest2,
      loadManifest run1.final.world env2.startedAt = .ok manifest2 ∧
      runUploader env2 run1.final.world startFrom endId = .ok run2 ∧
      run2 = uploadAll env2 run1.final.world manifest2 startFrom endId ∧
      run2.punkIds = run1.punkIds.filter (uploadFails env1) ∧
      run2.skipped + run2.punkIds.length = endId - startFrom := by
  unfold runUploader at h1
  cases hload : loadManifest w env1.startedAt with
  | error msg => simp [hload] at h1
  | ok manifest =>
    simp only [hload, Except.ok.injEq] at h1
    subst h1
    obtain ⟨hP, hfinal⟩ := uploadAll_final env1 w manifest startFrom endId
    obtain ⟨manifest2, hload2, hup2⟩ :=
      loadManifest_after_groups env1 w (uploadAll env1 w manifest startFrom endId).final.world
        manifest (pendingIds manifest startFrom endId)
        (groupCount (pendingIds manifest startFrom endId).length) env2.startedAt hload
        (by rw [hfinal])
    refine ⟨uploadAll env2 (uploadAll env1 w manifest startFrom endId).final.world manifest2
      startFrom endId, manifest2, hload2, ?_, rfl, ?_, ?_⟩
    · unfold runUploader
      rw [hload2]
    · have := pendingIds_after_groups env1 w manifest manifest2 startFrom endId
        (groupCount (pendingIds manifest startFrom endId).length) hup2
      rw [take_all_groups, List.drop_eq_nil_of_le (by
        simp only [groupCount, BATCH_SIZE]
        omega), List.append_nil] at this
      exact this
    · exact partitionIds_total manifest2 startFrom endId

/-- C16, as the code behaves. For every range and initial manifest, a second run
over the same range on the manifest left by the first run skips every identifier
that the first run skipped or uploaded and attempts again exactly the
identifiers whose upload failed in the first run; when no upload of the first
run failed, the second run attempts and uploads nothing, reports every
identifier of the range as skipped and leaves the outside as it found it. -/
theorem runUploader_second_run (env1 env2 : UploaderEnv) (w : UploaderWorld)
    (startFrom endId : Nat) (run1 : UploadRun)
    (h1 : runUploader env1 w startFrom endId = .ok run1) :
    ∃ run2,
      runUploader env2 run1.final.world startFrom endId = .ok run2 ∧
      run2.punkIds = run1.punkIds.filter (uploadFails env1) ∧
      run2.skipped + run2.punkIds.length = endId - startFrom ∧
      ((∀ i ∈ run1.punkIds, ∃ r, (uploadPunk (env1.punk i) i).1 = .ok r) →
        run2.punkIds = [] ∧ run2.skipped = endId - startFrom ∧
        run2.final.uploaded = 0 ∧ run2.final.failed = 0 ∧
        run2.final.world = run1.final.world) := by
  obtain ⟨run2, manifest2, _, hrun2, hdef, hpend, htotal⟩ :=
    runUploader_again env1 env2 w startFrom endId run1 h1
  refine ⟨run2, hrun2, hpend, htotal, ?_⟩
  intro hall
  have hnil : run2.punkIds = [] := by
    rw [hpend]
    apply List.filter_eq_nil_iff.mpr
    intro i hi
    have := uploadFails_iff.2.mpr (hall i hi)
    simp [this]
  have hfinal : run2.final = uploadStart run1.final.world manifest2 := by
    have hp : (partitionIds manifest2 startFrom endId).2 = [] := by
      have := hnil
      rw [hdef] at this
      exact this
    rw [hdef]
    show uploadBatches env2 (partitionIds manifest2 startFrom endId).2 0 _ = _
    rw [hp, uploadBatches_nil]
    rfl
  refine ⟨hnil, ?_, ?_, ?_, ?_⟩
  · rw [hnil] at htotal
    simpa using htotal
  · rw [hfinal]; rfl
  · rw [hfinal]; rfl
  · rw [hfinal]; rfl

theorem runUploader_ok_sample :
    runUploader okUploaderEnv emptyUploaderWorld 0 3 =
      .ok (uploadAll okUploaderEnv emptyUploaderWorld emptyManifest 0 3) := rfl

theorem runUploader_second_run_witness :
    ∃ run2,
      runUploader okUploaderEnv
        (uploadAll okUploaderEnv emptyUploaderWorld emptyManifest 0 3).final.world 0 3
        = .ok run2 ∧
      run2.punkIds = [] ∧ run2.skipped = 3 - 0 :=
  match runUploader_second_run okUploaderEnv okUploaderEnv emptyUploaderWorld 0 3 _
      runUploader_ok_sample with
  | ⟨run2, hrun2, _, _, hall⟩ =>
    ⟨run2, hrun2, (hall (fun _ _ => ⟨_, rfl⟩)).1, (hall (fun _ _ => ⟨_, rfl⟩)).2.1⟩

theorem runUploader_timeout_sample :
    runUploader timeoutUploaderEnv emptyUploaderWorld 0 1 =
      .ok (uploadAll timeoutUploaderEnv emptyUploaderWorld emptyManifest 0 1) := rfl

/-- C16, as stated, fails. The range is `[0, 1)` and there is no manifest file.
In the first run the upload of punk 0 is rejected by the network; the second run,
with the same payload file, does not skip punk 0: it attempts it again, uploads
it, and reports zero identifiers as skipped. -/
theorem second_run_retries_failed_upload :
    ∃ run1 run2,
      runUploader timeoutUploaderEnv emptyUploaderWorld 0 1 = .ok run1 ∧
      runUploader okUploaderEnv run1.final.world 0 1 = .ok run2 ∧
      (timeoutUploaderEnv.punk 0).imageFile = (okUploaderEnv.punk 0).imageFile ∧
      run1.final.uploaded = 0 ∧
      run2.punkIds = [0] ∧ run2.skipped = 0 ∧ run2.final.uploaded = 1 := by
  obtain ⟨run2, manifest2, _, hrun2, hdef, hpend, htotal⟩ :=
    runUploader_again timeoutUploaderEnv okUploaderEnv emptyUploaderWorld 0 1 _
      runUploader_timeout_sample
  have hp1 : (uploadAll timeoutUploaderEnv emptyUploaderWorld emptyManifest 0 1).punkIds = [0] := by
    decide
  have hp2 : run2.punkIds = [0] := by
    rw [hpend, hp1]
    decide
  have hc1 := (stateAtGroup_counters timeoutUploaderEnv [0] (uploadStart emptyUploaderWorld emptyManifest)
    (groupCount 1)).1
  have hc2 := (stateAtGroup_counters okUploaderEnv [0]
    (uploadStart (uploadAll timeoutUploaderEnv emptyUploaderWorld emptyManifest 0 1).final.world
      manifest2) (groupCount 1)).1
  refine ⟨_, run2, runUploader_timeout_sample, hrun2, rfl, ?_, hp2, ?_, ?_⟩
  · have hf := (uploadAll_final timeoutUploaderEnv emptyUploaderWorld emptyManifest 0 1).2
    rw [hf, show pendingIds emptyManifest 0 1 = [0] from hp1]
    rw [show ([0] : List Nat).length = 1 from rfl, hc1]
    decide
  · rw [hp2] at htotal
    simpa using htotal
  · have hf := (uploadAll_final okUploaderEnv
      (uploadAll timeoutUploaderEnv emptyUploaderWorld emptyManifest 0 1).final.world
      manifest2 0 1).2
    have hp3 : pendingIds manifest2 0 1 = [0] := by
      rw [hdef] at hp2
      exact hp2
    rw [hdef, hf, hp3, show ([0] : List Nat).length = 1 from rfl, hc2]
    show 0 + (List.filter (fun i => !uploadFails okUploaderEnv i)
      (List.take (groupCount 1 * BATCH_SIZE) [0])).length = 1
    decide


/-! ## The checkpoint after each group -/

theorem lt_groupCount_iff {n g : Nat} : g < groupCount n ↔ g * BATCH_SIZE < n := by
  simp only [groupCount, BATCH_SIZE]
  omega

/-- Before the pass of group `g`, no member of the group has an entry. -/
theorem stateAtGroup_member_none (env : UploaderEnv) (w : UploaderWorld)
    (manifest : UploadManifest) (startFrom endId g i : Nat)
    (hi : i ∈ groupOf (pendingIds manifest startFrom endId) g) :
    (stateAtGroup env (pendingIds manifest startFrom endId) (uploadStart w manifest)
      g).manifest.entry i = none := by
  have hnd := pendingIds_nodup manifest startFrom endId
  have hmem : i ∈ pendingIds manifest startFrom endId :=
    List.mem_of_mem_drop (List.mem_of_mem_take hi)
  apply Option.isNone_iff_eq_none.mp
  rw [stateAtGroup_entry_isNone]
  refine ⟨?_, fun h => absurd h (not_mem_take_of_mem_groupOf hnd hi)⟩
  rw [(mem_pendingIds.mp hmem).2.2]
  rfl

/-- What the pass of group `g` records for a member of the group. -/
theorem stateAtGroup_member_entry (env : UploaderEnv) (w : UploaderWorld)
    (manifest : UploadManifest) (startFrom endId g i : Nat)
    (hi : i ∈ groupOf (pendingIds manifest startFrom endId) g) :
    (∀ r, (uploadPunk (env.punk i) i).1 = .ok r →
      (stateAtGroup env (pendingIds manifest startFrom endId) (uploadStart w manifest)
        (g + 1)).manifest.entry i =
        some ⟨r.imageTxId, r.imageUrl, r.imageSize, (env.punk i).uploadedAt⟩) ∧
    (∀ msg, (uploadPunk (env.punk i) i).1 = .error msg →
      (stateAtGroup env (pendingIds manifest startFrom endId) (uploadStart w manifest)
        (g + 1)).manifest.entry i = none) := by
  have hgn := groupOf_nodup (pendingIds_nodup manifest startFrom endId) g
  constructor
  · intro r hr
    simp only [UploadManifest.entry]
    rw [stateAtGroup_succ, uploadPass_uploads]
    exact mergeBatch_lookup_ok env _ hgn i hi r hr _
  · intro msg hr
    simp only [UploadManifest.entry]
    rw [stateAtGroup_succ, uploadPass_uploads]
    have := mergeBatch_lookup_error env _ hgn i hi msg hr
      (stateAtGroup env (pendingIds manifest startFrom endId) (uploadStart w manifest) g)
    unfold groupOf at this
    rw [this]
    exact stateAtGroup_member_none env w manifest startFrom endId g i hi

/-- C17. Group checkpoint with independent outcomes. For every run, every group
`g` of it and every outcome of the uploads: the manifest written to the file at
the end of the pass of group `g` holds every entry the manifest held before the
pass, holds for each member whose upload succeeded the entry (imageTxId,
imageUrl, imageSize, uploadedAt) of that upload, holds no entry for a member
whose upload failed, and is unchanged at every other property; what is recorded
for a member depends on that member's outcome alone. The pass issues the calls
of the group, then writes the manifest, then pauses if a group follows, and the
run goes on with the next group whatever the outcomes were, so the write
precedes every call of the next group. -/
theorem uploadAll_group_checkpoint (env : UploaderEnv) (w : UploaderWorld)
    (manifest : UploadManifest) (startFrom endId g : Nat)
    (hg : g * BATCH_SIZE < (uploadAll env w manifest startFrom endId).punkIds.length) :
    (∀ k entry,
      (stateAtGroup env (uploadAll env w manifest startFrom endId).punkIds
        (uploadStart w manifest) g).manifest.uploads.lookup k = some entry →
      (stateAtGroup env (uploadAll env w manifest startFrom endId).punkIds
        (uploadStart w manifest) (g + 1)).manifest.uploads.lookup k = some entry) ∧
    (∀ i ∈ groupOf (uploadAll env w manifest startFrom endId).punkIds g,
      ∀ r, (uploadPunk (env.punk i) i).1 = .ok r →
        (stateAtGroup env (uploadAll env w manifest startFrom endId).punkIds
          (uploadStart w manifest) (g + 1)).manifest.entry i =
          some ⟨r.imageTxId, r.imageUrl, r.imageSize, (env.punk i).uploadedAt⟩) ∧
    (∀ i ∈ groupOf (uploadAll env w manifest startFrom endId).punkIds g,
      ∀ msg, (uploadPunk (env.punk i) i).1 = .error msg →
        (stateAtGroup env (uploadAll env w manifest startFrom endId).punkIds
          (uploadStart w manifest) (g + 1)).manifest.entry i = none) ∧
    (∀ k, (∀ i ∈ groupOf (uploadAll env w manifest startFrom endId).punkIds g,
        toString i ≠ k) →
      (stateAtGroup env (uploadAll env w manifest startFrom endId).punkIds
        (uploadStart w manifest) (g + 1)).manifest.uploads.lookup k =
      (stateAtGroup env (uploadAll env w manifest startFrom endId).punkIds
        (uploadStart w manifest) g).manifest.uploads.lookup k) ∧
    (stateAtGroup env (uploadAll env w manifest startFrom endId).punkIds
        (uploadStart w manifest) (g + 1)).world.manifestFile =
      .json (stateAtGroup env (uploadAll env w manifest startFrom endId).punkIds
        (uploadStart w manifest) (g + 1)).manifest ∧
    (stateAtGroup env (uploadAll env w manifest startFrom endId).punkIds
        (uploadStart w manifest) (g + 1)).world.log =
      (stateAtGroup env (uploadAll env w manifest startFrom endId).punkIds
        (uploadStart w manifest) g).world.log ++
      batchCalls env (groupOf (uploadAll env w manifest startFrom endId).punkIds g) ++
      [.writeManifest (stateAtGroup env (uploadAll env w manifest startFrom endId).punkIds
        (uploadStart w manifest) (g + 1)).manifest] ++
      (if (g + 1) * BATCH_SIZE < (uploadAll env w manifest startFrom endId).punkIds.length
        then [.sleep DELAY_BETWEEN_BATCHES_MS] else []) ∧
    (∀ env1 : UploaderEnv,
      (uploadAll env1 w manifest startFrom endId).punkIds =
        (uploadAll env w manifest startFrom endId).punkIds ∧
      ∀ i ∈ groupOf (uploadAll env w manifest startFrom endId).punkIds g,
        env1.punk i = env.punk i →
        (stateAtGroup env1 (uploadAll env w manifest startFrom endId).punkIds
          (uploadStart w manifest) (g + 1)).manifest.entry i =
        (stateAtGroup env (uploadAll env w manifest startFrom endId).punkIds
          (uploadStart w manifest) (g + 1)).manifest.entry i) ∧
    attemptedIds (batchCalls env (groupOf (uploadAll env w manifest startFrom endId).punkIds g))
      = groupOf (uploadAll env w manifest startFrom endId).punkIds g ∧
    (uploadAll env w manifest startFrom endId).final =
      uploadBatches env (uploadAll env w manifest startFrom endId).punkIds
        ((g + 1) * BATCH_SIZE)
        (stateAtGroup env (uploadAll env w manifest startFrom endId).punkIds
          (uploadStart w manifest) (g + 1)) := by
  obtain ⟨hP, _⟩ := uploadAll_final env w manifest startFrom endId
  rw [hP] at hg ⊢
  have hnd := pendingIds_nodup manifest startFrom endId
  have hgn := groupOf_nodup hnd g
  have hother : ∀ k, (∀ i ∈ groupOf (pendingIds manifest startFrom endId) g, toString i ≠ k) →
      (stateAtGroup env (pendingIds manifest startFrom endId)
        (uploadStart w manifest) (g + 1)).manifest.uploads.lookup k =
      (stateAtGroup env (pendingIds manifest startFrom endId)
        (uploadStart w manifest) g).manifest.uploads.lookup k := by
    intro k hk
    rw [stateAtGroup_succ, uploadPass_uploads]
    exact mergeBatch_lookup_other env _ k hk _
  obtain ⟨_, hfile, hlog⟩ := uploadPass_spec env (pendingIds manifest startFrom endId)
    (g * BATCH_SIZE) (stateAtGroup env (pendingIds manifest startFrom endId)
      (uploadStart w manifest) g)
  refine ⟨?_, fun i hi => (stateAtGroup_member_entry env w manifest startFrom endId g i hi).1,
    fun i hi => (stateAtGroup_member_entry env w manifest startFrom endId g i hi).2,
    hother, hfile, ?_, ?_, (attemptedIds_batchCalls env _).1, ?_⟩
  · intro k entry hbefore
    by_cases hk : ∃ i ∈ groupOf (pendingIds manifest startFrom endId) g, toString i = k
    · obtain ⟨i, hi, rfl⟩ := hk
      have := stateAtGroup_member_none env w manifest startFrom endId g i hi
      simp only [UploadManifest.entry] at this
      rw [this] at hbefore
      exact absurd hbefore (by simp)
    · rw [hother k (fun i hi hh => hk ⟨i, hi, hh⟩)]
      exact hbefore
  · rw [stateAtGroup_succ, hlog]
    have he : (g + 1) * BATCH_SIZE = g * BATCH_SIZE + BATCH_SIZE := by ring
    rw [he]
    rfl
  · intro env1
    refine ⟨rfl, ?_⟩
    intro i hi hsame
    obtain ⟨hok1, herr1⟩ := stateAtGroup_member_entry env1 w manifest startFrom endId g i hi
    obtain ⟨hok, herr⟩ := stateAtGroup_member_entry env w manifest startFrom endId g i hi
    rw [hsame] at hok1 herr1
    cases hres : (uploadPunk (env.punk i) i).1 with
    | ok r => rw [hok1 r hres, hok r hres]
    | error msg => rw [herr1 msg hres, herr msg hres]
  · rw [(uploadAll_final env w manifest startFrom endId).2,
      ← uploadBatches_eq_stateAtGroup]
    exact uploadBatches_eq_from_group env _ _ (g + 1) (lt_groupCount_iff.mpr hg)

theorem uploadAll_group_checkpoint_witness :
    0 * BATCH_SIZE < (uploadAll timeoutUploaderEnv emptyUploaderWorld emptyManifest 0 7).punkIds.length ∧
    (stateAtGroup timeoutUploaderEnv
        (uploadAll timeoutUploaderEnv emptyUploaderWorld emptyManifest 0 7).punkIds
        (uploadStart emptyUploaderWorld emptyManifest) (0 + 1)).manifest.entry 3 = none :=
  have hg : 0 * BATCH_SIZE <
      (uploadAll timeoutUploaderEnv emptyUploaderWorld emptyManifest 0 7).punkIds.length := by
    decide
  ⟨hg,
   (uploadAll_group_checkpoint timeoutUploaderEnv emptyUploaderWorld emptyManifest 0 7 0
     hg).2.2.1 3 (by decide) "timeout" rfl⟩


/-! ## Restart after a crash -/

/-- A run started on the outside a crash in group `g` left. -/
theorem runUploader_after_crash (env env2 : UploaderEnv) (w : UploaderWorld)
    (manifest : UploadManifest) (startFrom endId g : Nat)
    (hload : loadManifest w env.startedAt = .ok manifest) :
    ∃ run2 persisted,
      loadManifest (crashInGroup env (pendingIds manifest startFrom endId)
        (uploadStart w manifest) g) env2.startedAt = .ok persisted ∧
      persisted.uploads = (stateAtGroup env (pendingIds manifest startFrom endId)
        (uploadStart w manifest) g).manifest.uploads ∧
      runUploader env2 (crashInGroup env (pendingIds manifest startFrom endId)
        (uploadStart w manifest) g) startFrom endId = .ok run2 ∧
      run2 = uploadAll env2 (crashInGroup env (pendingIds manifest startFrom endId)
        (uploadStart w manifest) g) persisted startFrom endId ∧
      run2.punkIds =
        ((pendingIds manifest startFrom endId).take (g * BATCH_SIZE)).filter (uploadFails env) ++
          (pendingIds manifest startFrom endId).drop (g * BATCH_SIZE) := by
  obtain ⟨persisted, hload2, hup2⟩ :=
    loadManifest_after_groups env w
      (crashInGroup env (pendingIds manifest startFrom endId) (uploadStart w manifest) g)
      manifest (pendingIds manifest startFrom endId) g env2.startedAt hload rfl
  refine ⟨_, persisted, hload2, hup2, ?_, rfl, ?_⟩
  · unfold runUploader
    rw [hload2]
  · exact pendingIds_after_groups env w manifest persisted startFrom endId g hup2

/-- C18, as the code behaves. Crash-resume: if the uploader is killed while
group `g` is in flight and restarted with the same range, the restarted run
skips every identifier present in the persisted manifest and attempts every
other identifier of the range: the identifiers of the earlier groups whose
upload failed, every member of the interrupted group, whether or not its upload
had finished before the crash, and every identifier of the later groups. -/
theorem restart_after_crash (env env2 : UploaderEnv) (w : UploaderWorld)
    (manifest : UploadManifest) (startFrom endId g : Nat)
    (hload : loadManifest w env.startedAt = .ok manifest)
    (hg : g * BATCH_SIZE < (pendingIds manifest startFrom endId).length) :
    ∃ run2 persisted new,
      loadManifest (crashInGroup env (pendingIds manifest startFrom endId)
        (uploadStart w manifest) g) env2.startedAt = .ok persisted ∧
      runUploader env2 (crashInGroup env (pendingIds manifest startFrom endId)
        (uploadStart w manifest) g) startFrom endId = .ok run2 ∧
      run2.final.world.log =
        (crashInGroup env (pendingIds manifest startFrom endId)
          (uploadStart w manifest) g).log ++ new ∧
      attemptedIds new = run2.punkIds ∧
      (∀ i, i ∈ run2.punkIds ↔ startFrom ≤ i ∧ i < endId ∧ persisted.entry i = none) ∧
      run2.punkIds =
        ((pendingIds manifest startFrom endId).take (g * BATCH_SIZE)).filter (uploadFails env) ++
          (pendingIds manifest startFrom endId).drop (g * BATCH_SIZE) ∧
      groupOf (pendingIds manifest startFrom endId) g ≠ [] ∧
      (∀ i ∈ groupOf (pendingIds manifest startFrom endId) g, i ∈ run2.punkIds) := by
  obtain ⟨run2, persisted, hload2, _, hrun2, hdef, hpend⟩ :=
    runUploader_after_crash env env2 w manifest startFrom endId g hload
  obtain ⟨hP, hfinal⟩ := uploadAll_final env2
    (crashInGroup env (pendingIds manifest startFrom endId) (uploadStart w manifest) g)
    persisted startFrom endId
  obtain ⟨new, hlog, hatt, _, _⟩ :=
    stateAtGroup_log env2 (pendingIds persisted startFrom endId)
      (uploadStart (crashInGroup env (pendingIds manifest startFrom endId)
        (uploadStart w manifest) g) persisted)
      (groupCount (pendingIds persisted startFrom endId).length)
  rw [take_all_groups] at hatt
  refine ⟨run2, persisted, new, hload2, hrun2, ?_, ?_, ?_, hpend, ?_, ?_⟩
  · rw [hdef, hfinal, hlog]; rfl
  · rw [hatt, hdef, hP]
  · intro i
    rw [hdef, hP]
    exact mem_pendingIds
  · intro hnil
    have hlen : (groupOf (pendingIds manifest startFrom endId) g).length = 0 := by
      rw [hnil]; rfl
    simp only [groupOf, List.length_take, List.length_drop, BATCH_SIZE] at hlen hg
    omega
  · intro i hi
    rw [hpend]
    exact List.mem_append_right _ (List.mem_of_mem_take hi)

theorem restart_after_crash_witness :
    0 * BATCH_SIZE < (pendingIds emptyManifest 0 2).length ∧
    ∃ run2,
      runUploader okUploaderEnv
        (crashInGroup okUploaderEnv (pendingIds emptyManifest 0 2)
          (uploadStart emptyUploaderWorld emptyManifest) 0) 0 2 = .ok run2 ∧
      ∀ i ∈ groupOf (pendingIds emptyManifest 0 2) 0, i ∈ run2.punkIds :=
  have hg : 0 * BATCH_SIZE < (pendingIds emptyManifest 0 2).length := by decide
  ⟨hg,
   match restart_after_crash okUploaderEnv okUploaderEnv emptyUploaderWorld emptyManifest 0 2 0
      rfl hg with
   | ⟨run2, _, _, _, hrun2, _, _, _, _, _, hall⟩ => ⟨run2, hrun2, hall⟩⟩

/-- C18, as stated, fails. The range is `[0, 2)`, there is no manifest file and
both uploads succeed. The process is killed while the one group, punks 0 and 1,
is in flight: both `uploadData` calls have been issued, the upload of punk 0 has
finished, nothing has been merged or written. The restarted run attempts punk 0
again, and not only punk 1. -/
theorem restart_repeats_finished_upload :
    (∃ r, (uploadPunk (okUploaderEnv.punk 0) 0).1 = .ok r) ∧
    (crashInGroup okUploaderEnv [0, 1] (uploadStart emptyUploaderWorld emptyManifest) 0).log =
      [.uploadPunk 0,
       .uploadData [137, 80, 78, 71] "image/png"
         [⟨"App-Name", "X1Punks"⟩, ⟨"Punk-Id", "0"⟩, ⟨"Type", "image"⟩],
       .uploadPunk 1,
       .uploadData [137, 80, 78, 71] "image/png"
         [⟨"App-Name", "X1Punks"⟩, ⟨"Punk-Id", "1"⟩, ⟨"Type", "image"⟩]] ∧
    (crashInGroup okUploaderEnv [0, 1] (uploadStart emptyUploaderWorld emptyManifest)
      0).manifestFile = .absent ∧
    ∃ run2 new,
      runUploader okUploaderEnv
        (crashInGroup okUploaderEnv [0, 1] (uploadStart emptyUploaderWorld emptyManifest) 0)
        0 2 = .ok run2 ∧
      run2.final.world.log =
        (crashInGroup okUploaderEnv [0, 1] (uploadStart emptyUploaderWorld emptyManifest)
          0).log ++ new ∧
      attemptedIds new = [0, 1] := by
  have hp : pendingIds emptyManifest 0 2 = [0, 1] := by decide
  obtain ⟨run2, persisted, hload2, _, hrun2, hdef, hpend⟩ :=
    runUploader_after_crash okUploaderEnv okUploaderEnv emptyUploaderWorld emptyManifest 0 2 0 rfl
  rw [hp] at hload2 hrun2 hdef hpend
  have hpend2 : run2.punkIds = [0, 1] := by
    rw [hpend]; rfl
  obtain ⟨hP, hfinal⟩ := uploadAll_final okUploaderEnv
    (crashInGroup okUploaderEnv [0, 1] (uploadStart emptyUploaderWorld emptyManifest) 0)
    persisted 0 2
  obtain ⟨new, hlog, hatt, _, _⟩ :=
    stateAtGroup_log okUploaderEnv (pendingIds persisted 0 2)
      (uploadStart (crashInGroup okUploaderEnv [0, 1]
        (uploadStart emptyUploaderWorld emptyManifest) 0) persisted)
      (groupCount (pendingIds persisted 0 2).length)
  rw [take_all_groups] at hatt
  refine ⟨⟨_, rfl⟩, by decide, rfl, run2, new, hrun2, ?_, ?_⟩
  · rw [hdef, hfinal, hlog]; rfl
  · rw [hatt, ← hP, ← hdef, hpend2]

/-! ## Pacing -/

theorem flatten_groups (punkIds : List Nat) :
    ∀ g, ((List.range g).map (groupOf punkIds)).flatten = punkIds.take (g * BATCH_SIZE) := by
  intro g
  induction g with
  | zero => simp
  | succ g ih =>
    rw [List.range_succ, List.map_append, List.flatten_append, ih, take_next_group]
    simp

theorem filter_range_lt (c : Nat) :
    ∀ k, (List.range k).filter (fun j => decide (j < c)) = List.range (min k c) := by
  intro k
  induction k with
  | zero => simp
  | succ k ih =>
    rw [List.range_succ, List.filter_append, ih]
    by_cases hk : k < c
    · have h1 : min k c = k := by omega
      have h2 : min (k + 1) c = k + 1 := by omega
      rw [h1, h2, List.range_succ]
      simp [hk]
    · have h1 : min k c = c := by omega
      have h2 : min (k + 1) c = c := by omega
      rw [h1, h2]
      simp [hk]

theorem pauses_count (n : Nat) :
    ((List.range (groupCount n)).filter (fun j => (j + 1) * BATCH_SIZE < n)).map
        (fun _ => DELAY_BETWEEN_BATCHES_MS) =
      List.replicate (groupCount n - 1) DELAY_BETWEEN_BATCHES_MS := by
  have hf : (List.range (groupCount n)).filter (fun j => decide ((j + 1) * BATCH_SIZE < n)) =
      (List.range (groupCount n)).filter (fun j => decide (j < groupCount n - 1)) := by
    apply List.filter_congr
    intro j hj
    have hj1 := List.mem_range.mp hj
    simp only [groupCount, BATCH_SIZE] at hj1 ⊢
    rw [decide_eq_decide]
    omega
  rw [hf, filter_range_lt, show min (groupCount n) (groupCount n - 1) = groupCount n - 1 by omega]
  simp [List.eq_replicate_iff]

/-- C19. Pacing: a run with `n` pending identifiers goes through
`ceil(n / 5)` passes, pass `g` handling the `g`-th consecutive group of at most 5
(and at least 1) of the pending identifiers; each pass issues the calls of its
group, writes the manifest and then, unless it is the last pass, pauses for
2000 ms; so the pauses of the run are `max(0, ceil(n / 5) - 1)` pauses of 2000 ms,
one after every group but the last. -/
theorem uploadAll_pacing (env : UploaderEnv) (w : UploaderWorld)
    (manifest : UploadManifest) (startFrom endId : Nat) :
    groupCount (uploadAll env w manifest startFrom endId).punkIds.length =
      ((uploadAll env w manifest startFrom endId).punkIds.length + 4) / 5 ∧
    (uploadAll env w manifest startFrom endId).final =
      stateAtGroup env (uploadAll env w manifest startFrom endId).punkIds
        (uploadStart w manifest)
        (groupCount (uploadAll env w manifest startFrom endId).punkIds.length) ∧
    ((List.range (groupCount (uploadAll env w manifest startFrom endId).punkIds.length)).map
      (groupOf (uploadAll env w manifest startFrom endId).punkIds)).flatten =
        (uploadAll env w manifest startFrom endId).punkIds ∧
    (∀ g, g < groupCount (uploadAll env w manifest startFrom endId).punkIds.length →
      1 ≤ (groupOf (uploadAll env w manifest startFrom endId).punkIds g).length ∧
      (groupOf (uploadAll env w manifest startFrom endId).punkIds g).length ≤ 5 ∧
      (stateAtGroup env (uploadAll env w manifest startFrom endId).punkIds
          (uploadStart w manifest) (g + 1)).world.log =
        (stateAtGroup env (uploadAll env w manifest startFrom endId).punkIds
          (uploadStart w manifest) g).world.log ++
        batchCalls env (groupOf (uploadAll env w manifest startFrom endId).punkIds g) ++
        [.writeManifest (stateAtGroup env (uploadAll env w manifest startFrom endId).punkIds
          (uploadStart w manifest) (g + 1)).manifest] ++
        (if g + 1 < groupCount (uploadAll env w manifest startFrom endId).punkIds.length
          then [.sleep 2000] else []) ∧
      pauses (batchCalls env (groupOf (uploadAll env w manifest startFrom endId).punkIds g))
        = []) ∧
    ∃ new, (uploadAll env w manifest startFrom endId).final.world.log = w.log ++ new ∧
      pauses new =
        List.replicate
          (groupCount (uploadAll env w manifest startFrom endId).punkIds.length - 1) 2000 ∧
      (flushedManifests new).length =
        groupCount (uploadAll env w manifest startFrom endId).punkIds.length := by
  obtain ⟨hP, hfinal⟩ := uploadAll_final env w manifest startFrom endId
  rw [hP]
  refine ⟨by simp [groupCount, BATCH_SIZE], hfinal, ?_, ?_, ?_⟩
  · rw [flatten_groups, take_all_groups]
  · intro g hg
    have hlt := lt_groupCount_iff.mp hg
    obtain ⟨_, _, hlog⟩ := uploadPass_spec env (pendingIds manifest startFrom endId)
      (g * BATCH_SIZE) (stateAtGroup env (pendingIds manifest startFrom endId)
        (uploadStart w manifest) g)
    refine ⟨?_, ?_, ?_, (attemptedIds_batchCalls env _).2.2⟩
    · simp only [groupOf, List.length_take, List.length_drop, BATCH_SIZE] at hlt ⊢
      omega
    · simp only [groupOf, List.length_take, List.length_drop, BATCH_SIZE]
      omega
    · rw [stateAtGroup_succ, hlog]
      have hiff : g * BATCH_SIZE + BATCH_SIZE < (pendingIds manifest startFrom endId).length ↔
          g + 1 < groupCount (pendingIds manifest startFrom endId).length := by
        rw [lt_groupCount_iff]
        simp only [BATCH_SIZE]
        omega
      by_cases hnext : g + 1 < groupCount (pendingIds manifest startFrom endId).length
      · rw [if_pos hnext, if_pos (hiff.mpr hnext)]
        rfl
      · rw [if_neg hnext, if_neg (fun h => hnext (hiff.mp h))]
        rfl
  · obtain ⟨new, hlog, _, hfl, hp⟩ :=
      stateAtGroup_log env (pendingIds manifest startFrom endId) (uploadStart w manifest)
        (groupCount (pendingIds manifest startFrom endId).length)
    refine ⟨new, ?_, ?_, ?_⟩
    · rw [hfinal, hlog]; rfl
    · rw [hp]
      exact pauses_count _
    · rw [hfl]
      simp

theorem uploadAll_pacing_witness :
    ∃ new, (uploadAll okUploaderEnv emptyUploaderWorld emptyManifest 0 12).final.world.log
        = emptyUploaderWorld.log ++ new ∧
      pauses new = List.replicate
        (groupCount (uploadAll okUploaderEnv emptyUploaderWorld emptyManifest 0 12).punkIds.length
          - 1) 2000 :=
  match (uploadAll_pacing okUploaderEnv emptyUploaderWorld emptyManifest 0 12).2.2.2.2 with
  | ⟨new, hlog, hp, _⟩ => ⟨new, hlog, hp⟩

/-! ## `totalUploaded` -/

/-- C20. The uploader preserves `totalUploaded == Object.keys(uploads).length`:
if the loaded manifest satisfies it, then for every range and every outcome of
the uploads, every manifest written to the file during the run and the manifest
the run ends with satisfy it. -/
theorem uploadAll_totalUploaded (env : UploaderEnv) (w : UploaderWorld)
    (manifest : UploadManifest) (startFrom endId : Nat)
    (h : manifest.totalUploaded = manifest.uploads.keys.length) :
    (uploadAll env w manifest startFrom endId).final.manifest.totalUploaded =
      (uploadAll env w manifest startFrom endId).final.manifest.uploads.keys.length ∧
    ∃ new, (uploadAll env w manifest startFrom endId).final.world.log = w.log ++ new ∧
      ∀ doc ∈ flushedManifests new, doc.totalUploaded = doc.uploads.keys.length := by
  obtain ⟨_, hfinal⟩ := uploadAll_final env w manifest startFrom endId
  have hinv := stateAtGroup_totalUploaded env (pendingIds manifest startFrom endId)
    (uploadStart w manifest) h
  obtain ⟨new, hlog, _, hfl, _⟩ :=
    stateAtGroup_log env (pendingIds manifest startFrom endId) (uploadStart w manifest)
      (groupCount (pendingIds manifest startFrom endId).length)
  refine ⟨?_, new, ?_, ?_⟩
  · rw [hfinal]
    exact hinv _
  · rw [hfinal, hlog]; rfl
  · intro doc hdoc
    rw [hfl] at hdoc
    obtain ⟨j, _, rfl⟩ := List.mem_map.mp hdoc
    exact hinv _

theorem uploadAll_totalUploaded_witness :
    sampleManifest.totalUploaded = sampleManifest.uploads.keys.length ∧
    (uploadAll okUploaderEnv sampleUploaderWorld sampleManifest 0 3).final.manifest.totalUploaded =
      (uploadAll okUploaderEnv sampleUploaderWorld sampleManifest 0 3).final.manifest.uploads.keys.length :=
  ⟨by decide,
   (uploadAll_totalUploaded okUploaderEnv sampleUploaderWorld sampleManifest 0 3 (by decide)).1⟩

/-! ## The exit code of the uploader -/

/-- The outcomes of the uploads do not decide how `main` ends. -/
theorem exitCode_punk (env : MainEnv) (w : UploaderWorld) (args : UploaderArgs)
    (punk : Nat → UploadEnv) :
    exitCode { env with uploader := { env.uploader with punk := punk } } w args =
      exitCode env w args := by
  unfold exitCode main runUploader loadManifest
  cases hw : env.walletFile <;> cases ha : env.jwkToAddress <;> cases hb : env.getBalance <;>
    cases hm : w.manifestFile <;> cases hf : env.finalBalance <;> simp

/-- The exit code is `0` exactly when nothing outside the uploads throws and the
credential file is there; it is `1` otherwise. -/
theorem exitCode_zero_iff (env : MainEnv) (w : UploaderWorld) (args : UploaderArgs) :
    (exitCode env w args = 0 ∨ exitCode env w args = 1) ∧
    (exitCode env w args = 0 ↔
      (∃ key, env.walletFile = .json key) ∧ (∃ addr, env.jwkToAddress = .ok addr) ∧
      (∃ balance, env.getBalance = .ok balance) ∧ w.manifestFile ≠ .unparsable ∧
      (∃ balance, env.finalBalance = .ok balance)) := by
  unfold exitCode main runUploader loadManifest
  cases hw : env.walletFile <;> cases ha : env.jwkToAddress <;> cases hb : env.getBalance <;>
    cases hm : w.manifestFile <;> cases hf : env.finalBalance <;> simp

/-- C21, as the code has it. The uploader process exits with code 1 when the
credential file `arweave-wallet.json` is absent, and also when anything outside
the uploads throws: the credential file or the manifest file does not parse, or
the address call or one of the two balance calls is rejected. It exits with
code 0 in every other run. The exit code is 0 or 1, and the outcomes of the
uploads never change it. -/
theorem exitCode_spec (env : MainEnv) (w : UploaderWorld) (args : UploaderArgs) :
    (env.walletFile = .absent → exitCode env w args = 1) ∧
    (exitCode env w args = 0 ∨ exitCode env w args = 1) ∧
    (exitCode env w args = 0 ↔
      (∃ key, env.walletFile = .json key) ∧ (∃ addr, env.jwkToAddress = .ok addr) ∧
      (∃ balance, env.getBalance = .ok balance) ∧ w.manifestFile ≠ .unparsable ∧
      (∃ balance, env.finalBalance = .ok balance)) ∧
    (∀ punk : Nat → UploadEnv,
      exitCode { env with uploader := { env.uploader with punk := punk } } w args =
        exitCode env w args) := by
  obtain ⟨h01, hiff⟩ := exitCode_zero_iff env w args
  refine ⟨?_, h01, hiff, exitCode_punk env w args⟩
  intro habs
  rcases h01 with h0 | h1
  · obtain ⟨⟨key, hkey⟩, _⟩ := hiff.mp h0
    rw [habs] at hkey
    exact absurd hkey (by simp)
  · exact h1

theorem exitCode_spec_witness :
    exitCode timeoutMainEnv emptyUploaderWorld ⟨true, 0⟩ = 0 ∧
    exitCode { okMainEnv with walletFile := .absent } emptyUploaderWorld ⟨true, 0⟩ = 1 :=
  ⟨(exitCode_spec timeoutMainEnv emptyUploaderWorld ⟨true, 0⟩).2.2.1.mpr
      ⟨⟨"JWK", rfl⟩, ⟨"ADDR", rfl⟩, ⟨"1000000000000", rfl⟩, by decide, ⟨"999000000000", rfl⟩⟩,
   (exitCode_spec { okMainEnv with walletFile := .absent } emptyUploaderWorld ⟨true, 0⟩).1 rfl⟩

/-- C21 as stated fails: the credential file is there and the process exits
with code 1, once because the storage network cannot be reached for the first
balance call, once because the manifest file does not parse. -/
theorem wallet_present_exit_one :
    offlineMainEnv.walletFile = .json "JWK" ∧
    exitCode offlineMainEnv emptyUploaderWorld ⟨false, 0⟩ = 1 ∧
    okMainEnv.walletFile = .json "JWK" ∧
    exitCode okMainEnv brokenManifestWorld ⟨false, 0⟩ = 1 :=
  ⟨rfl, rfl, rfl, rfl⟩

/-! ## The image address -/

/-- Reading a property of the parsed `uploads` object is reading it in the
uploader's manifest. -/
theorem lookup_parsed (doc : UploadManifest) (k : String) :
    doc.parsed.uploads.lookup k = doc.uploads.lookup k := by
  unfold UploadManifest.parsed AList.lookup
  simp only []
  generalize doc.uploads.entries = l
  induction l with
  | nil => rfl
  | cons e t ih =>
    obtain ⟨a, b⟩ := e
    by_cases h : k = a
    · subst h
      simp [List.lookup, List.dlookup]
    · have h2 : (k == a) = false := by simpa using h
      simp only [List.map_cons, List.lookup, h2, ih]
      rw [List.dlookup_cons_ne _ _ h]

/-- The first property named `k` of a property list. -/
theorem lookup_eq_some_of_mem {l : List (String × UploadEntry)} {k : String} {e : UploadEntry}
    (hnd : (l.map Prod.fst).Nodup) (h : (k, e) ∈ l) : l.lookup k = some e := by
  induction l with
  | nil => exact absurd h (List.not_mem_nil _)
  | cons p t ih =>
    obtain ⟨a, b⟩ := p
    simp only [List.map_cons, List.nodup_cons] at hnd
    rcases List.mem_cons.mp h with heq | hmem
    · simp only [Prod.mk.injEq] at heq
      obtain ⟨rfl, rfl⟩ := heq
      simp [List.lookup]
    · have hne : k ≠ a := fun hka =>
        hnd.1 (List.mem_map.mpr ⟨(k, e), hmem, hka⟩)
      have h2 : (k == a) = false := by simpa using hne
      simp only [List.lookup, h2]
      exact ih hnd.2 hmem

theorem lookup_eq_none_of_not_mem {l : List (String × UploadEntry)} {k : String}
    (h : ∀ e, (k, e) ∉ l) : l.lookup k = none := by
  induction l with
  | nil => rfl
  | cons p t ih =>
    obtain ⟨a, b⟩ := p
    have hne : k ≠ a := fun hka => h b (by rw [hka]; exact List.mem_cons_self _ _)
    have h2 : (k == a) = false := by simpa using hne
    simp only [List.lookup, h2]
    exact ih (fun e he => h e (List.mem_cons_of_mem _ he))

/-- What a fulfilled `uploadPunk` returns. -/
theorem uploadPunk_ok {env : UploadEnv} {punkId : Nat} {r : UploadResult}
    (h : (uploadPunk env punkId).1 = .ok r) :
    env.uploadData = .ok r.imageTxId ∧ r.imageUrl = "https://arweave.net/" ++ r.imageTxId := by
  unfold uploadPunk at h
  cases hf : env.imageFile with
  | none => simp [hf] at h
  | some data =>
    cases hu : env.uploadData with
    | error m => simp [hf, hu] at h
    | ok t =>
      simp only [hf, hu, Except.ok.injEq] at h
      rw [← h]
      exact ⟨rfl, rfl⟩

/-- C22. For every manifest and identifier `i`, `getArweaveImageUrl(i)` is the
`imageUrl` of the entry that the manifest holds under the key `String(i)` when
there is one, and otherwise the fallback address
`https://raw.githubusercontent.com/Execute007/x1punks-images/master/generated/punk_<i>.png`.
For an identifier that a run of the uploader uploads, the manifest file the run
leaves holds an entry whose `imageTxId` is the id the storage network returned
and whose `imageUrl` is `https://arweave.net/<imageTxId>`, and that is the
address the server gives once it loads that file. -/
theorem getArweaveImageUrl_spec (manifest : ArweaveManifest) (i : Nat)
    (env : UploaderEnv) (w : UploaderWorld) (loaded : UploadManifest) (startFrom endId : Nat) :
    (∀ entry, (manifest.uploads.map Prod.fst).Nodup → (toString i, entry) ∈ manifest.uploads →
      getArweaveImageUrl manifest i = entry.imageUrl) ∧
    ((∀ entry, (toString i, entry) ∉ manifest.uploads) →
      getArweaveImageUrl manifest i =
        "https://raw.githubusercontent.com/Execute007/x1punks-images/master/generated/punk_" ++
          toString i ++ ".png") ∧
    (∀ r, i ∈ (uploadAll env w loaded startFrom endId).punkIds →
      (uploadPunk (env.punk i) i).1 = .ok r →
      ∃ doc entry served,
        (uploadAll env w loaded startFrom endId).final.world.manifestFile = .json doc ∧
        doc.entry i = some entry ∧
        (env.punk i).uploadData = .ok entry.imageTxId ∧
        entry.imageUrl = "https://arweave.net/" ++ entry.imageTxId ∧
        getArweaveManifest none
          (uploadAll env w loaded startFrom endId).final.world.manifestFile = .ok served ∧
        getArweaveImageUrl served i = "https://arweave.net/" ++ entry.imageTxId) := by
  refine ⟨?_, ?_, ?_⟩
  · intro entry hnd hmem
    unfold getArweaveImageUrl
    rw [lookup_eq_some_of_mem hnd hmem]
  · intro hnone
    unfold getArweaveImageUrl
    rw [lookup_eq_none_of_not_mem hnone]
  · intro r hi hr
    obtain ⟨hP, hfinal⟩ := uploadAll_final env w loaded startFrom endId
    rw [hP] at hi
    have hnd := pendingIds_nodup loaded startFrom endId
    have hpos : groupCount (pendingIds loaded startFrom endId).length ≠ 0 := by
      have hlen : 0 < (pendingIds loaded startFrom endId).length := List.length_pos_of_mem hi
      simp only [groupCount, BATCH_SIZE]
      omega
    have hfile := stateAtGroup_file env (pendingIds loaded startFrom endId)
      (uploadStart w loaded) (groupCount (pendingIds loaded startFrom endId).length)
    rw [if_neg hpos, ← hfinal] at hfile
    have hmem : i ∈ (pendingIds loaded startFrom endId).take
        (groupCount (pendingIds loaded startFrom endId).length * BATCH_SIZE) := by
      rw [take_all_groups]
      exact hi
    have hentry := (stateAtGroup_lookup_member env _ hnd (uploadStart w loaded) i _ hmem).1 r hr
    rw [← hfinal] at hentry
    obtain ⟨hdata, hurl⟩ := uploadPunk_ok hr
    refine ⟨_, ⟨r.imageTxId, r.imageUrl, r.imageSize, (env.punk i).uploadedAt⟩,
      (uploadAll env w loaded startFrom endId).final.manifest.parsed, hfile,
      hentry, hdata, hurl, ?_, ?_⟩
    · rw [hfile]
      rfl
    · unfold getArweaveImageUrl
      rw [lookup_parsed, hentry]
      exact hurl

theorem getArweaveImageUrl_spec_witness :
    getArweaveImageUrl sampleManifest.parsed 1 = "https://arweave.net/tx1" ∧
    getArweaveImageUrl sampleManifest.parsed 2 =
      "https://raw.githubusercontent.com/Execute007/x1punks-images/master/generated/punk_2.png" ∧
    ∃ doc entry served,
      (uploadAll okUploaderEnv emptyUploaderWorld emptyManifest 0 3).final.world.manifestFile
        = .json doc ∧
      doc.entry 2 = some entry ∧
      (okUploaderEnv.punk 2).uploadData = .ok entry.imageTxId ∧
      entry.imageUrl = "https://arweave.net/" ++ entry.imageTxId ∧
      getArweaveManifest none
        (uploadAll okUploaderEnv emptyUploaderWorld emptyManifest 0 3).final.world.manifestFile
          = .ok served ∧
      getArweaveImageUrl served 2 = "https://arweave.net/" ++ entry.imageTxId :=
  ⟨(getArweaveImageUrl_spec sampleManifest.parsed 1 okUploaderEnv emptyUploaderWorld
      emptyManifest 0 3).1 ⟨"tx1", "https://arweave.net/tx1", 4, "u1"⟩ (by decide) (by decide),
   (getArweaveImageUrl_spec sampleManifest.parsed 2 okUploaderEnv emptyUploaderWorld
      emptyManifest 0 3).2.1 (by
        intro entry h
        have hk : ∀ p ∈ sampleManifest.parsed.uploads, p.1 = "1" := by decide
        have hne : toString 2 ≠ "1" := by decide
        exact hne (hk _ h)),
   (getArweaveImageUrl_spec sampleManifest.parsed 2 okUploaderEnv emptyUploaderWorld
      emptyManifest 0 3).2.2 ⟨2, "tx2", "https://arweave.net/tx2", 4⟩
      (by
        rw [(uploadAll_final okUploaderEnv emptyUploaderWorld emptyManifest 0 3).1]
        exact mem_pendingIds.mpr ⟨by decide, by decide, by decide⟩)
      rfl⟩

/-! ## The three copies of the metadata logic -/

/-- The accessories numbered by `map((trait, i) => ...)` are those the recursion
over the traits numbers. -/
theorem accessoryAttributes_eq_mapIdx (traits : List String) (start : Nat) :
    accessoryAttributes start traits =
      traits.mapIdx (fun i trait =>
        ({ trait_type := "Accessory " ++ toString (start + i + 1), value := jsTrim trait } :
          Attribute)) := by
  induction traits generalizing start with
  | nil => rfl
  | cons t rest ih =>
    rw [accessoryAttributes, List.mapIdx_cons, ih (start + 1)]
    have hf : (fun i trait =>
          ({ trait_type := "Accessory " ++ toString (start + 1 + i + 1), value := jsTrim trait } :
            Attribute)) =
        (fun i trait =>
          ({ trait_type := "Accessory " ++ toString (start + (i + 1) + 1), value := jsTrim trait } :
            Attribute)) := by
      funext i trait
      rw [show start + 1 + i + 1 = start + (i + 1) + 1 by omega]
    rw [hf]

theorem accessoryAttributes_length (traits : List String) (start : Nat) :
    (accessoryAttributes start traits).length = traits.length := by
  rw [accessoryAttributes_eq_mapIdx, List.length_mapIdx]

theorem accessoryAttributes_getElem? (traits : List String) (start j : Nat) :
    (accessoryAttributes start traits)[j]? =
      traits[j]?.map (fun trait =>
        ({ trait_type := "Accessory " ++ toString (start + j + 1), value := jsTrim trait } :
          Attribute)) := by
  rw [accessoryAttributes_eq_mapIdx]
  simp [List.getElem?_mapIdx]

/-- The accessories, one per trait in the order of the traits, numbered from 1. -/
theorem accessoryAttributes_eq_range (traits : List String) :
    accessoryAttributes 0 traits =
      (List.range traits.length).map (fun j =>
        ({ trait_type := "Accessory " ++ toString (j + 1), value := jsTrim (traits.getD j "") } :
          Attribute)) := by
  apply List.ext_getElem?
  intro j
  rw [accessoryAttributes_getElem?, List.getElem?_map]
  by_cases hj : j < traits.length
  · rw [List.getElem?_eq_getElem hj, List.getElem?_range hj]
    simp only [Option.map_some', Nat.zero_add, List.getD_eq_getElem _ _ hj]
  · rw [List.getElem?_eq_none (by omega), List.getElem?_eq_none (by simp; omega)]
    rfl

/-- C23. The three copies of the metadata logic agree. For every type,
`getRarity` of `upload-arweave.js` and of `api/inscription/[id].js` return what
`getRarity` of `server.js` returns; for every state of the cache and every
content of the trait table file, the three `loadPunkMetadata` return the same
table and leave the same cache; for every table and identifier,
`buildInscriptionJson` of `api/inscription/[id].js` and of `server.js` return
the same document, also when each reads the table with its own
`loadPunkMetadata`, and the `attributes` of `buildMetadataJson` are those of
`buildInscriptionJson`: `Type`, `Rarity`, then one `Accessory j` per trait of the
table entry, numbered from 1 in the order of the table, with type `Unknown` and
rarity `Common` and no accessory for an identifier absent from the table. -/
theorem metadata_copies_agree (punkMetaCache : Option TraitTable) (csv : Option String)
    (allMeta : TraitTable) (punkId : Nat) (type imageArweaveUrl : String) :
    (UploadArweave.getRarity type = getRarity type ∧
      ApiInscription.getRarity type = getRarity type) ∧
    (UploadArweave.loadPunkMetadata punkMetaCache csv = loadPunkMetadata punkMetaCache csv ∧
      ApiInscription.loadPunkMetadata punkMetaCache csv = loadPunkMetadata punkMetaCache csv) ∧
    ApiInscription.buildInscriptionJson allMeta punkId = buildInscriptionJson allMeta punkId ∧
    ApiInscription.buildInscriptionJson (ApiInscription.loadPunkMetadata punkMetaCache csv).1
        punkId =
      buildInscriptionJson (loadPunkMetadata punkMetaCache csv).1 punkId ∧
    (UploadArweave.buildMetadataJson allMeta punkId imageArweaveUrl).attributes =
      (buildInscriptionJson allMeta punkId).attributes ∧
    (UploadArweave.buildMetadataJson (UploadArweave.loadPunkMetadata punkMetaCache csv).1
        punkId imageArweaveUrl).attributes =
      (buildInscriptionJson (loadPunkMetadata punkMetaCache csv).1 punkId).attributes ∧
    (∀ entry, allMeta punkId = some entry →
      (buildInscriptionJson allMeta punkId).attributes =
        { trait_type := "Type", value := entry.type } ::
        { trait_type := "Rarity", value := getRarity entry.type } ::
        (List.range entry.traits.length).map (fun j =>
          ({ trait_type := "Accessory " ++ toString (j + 1)
             value := jsTrim (entry.traits.getD j "") } : Attribute))) ∧
    (allMeta punkId = none →
      (buildInscriptionJson allMeta punkId).attributes =
        [{ trait_type := "Type", value := "Unknown" },
         { trait_type := "Rarity", value := "Common" }]) := by
  have hapi : ∀ table : TraitTable,
      ApiInscription.buildInscriptionJson table punkId = buildInscriptionJson table punkId := by
    intro table
    unfold ApiInscription.buildInscriptionJson buildInscriptionJson
    simp only [accessoryAttributes_eq_mapIdx, Nat.zero_add]
    rfl
  have hup : ∀ table : TraitTable,
      (UploadArweave.buildMetadataJson table punkId imageArweaveUrl).attributes =
        (buildInscriptionJson table punkId).attributes := by
    intro table
    unfold UploadArweave.buildMetadataJson buildInscriptionJson
    simp only [accessoryAttributes_eq_mapIdx, Nat.zero_add]
    rfl
  refine ⟨⟨rfl, rfl⟩, ⟨rfl, rfl⟩, hapi allMeta, hapi _, hup allMeta, hup _, ?_, ?_⟩
  · intro entry hentry
    unfold buildInscriptionJson
    simp only [hentry, Option.getD_some, accessoryAttributes_eq_range]
  · intro hnone
    unfold buildInscriptionJson
    simp only [hnone, Option.getD_none]
    rfl

theorem metadata_copies_agree_witness :
    (loadPunkMetadata none (some sampleCsv)).1 0 = some ⟨"Alien", ["Hat", " Pipe "]⟩ ∧
    (buildInscriptionJson (loadPunkMetadata none (some sampleCsv)).1 0).attributes =
      [⟨"Type", "Alien"⟩, ⟨"Rarity", "Legendary"⟩, ⟨"Accessory 1", "Hat"⟩,
       ⟨"Accessory 2", "Pipe"⟩] ∧
    (loadPunkMetadata none (some sampleCsv)).1 1 = none ∧
    (buildInscriptionJson (loadPunkMetadata none (some sampleCsv)).1 1).attributes =
      [⟨"Type", "Unknown"⟩, ⟨"Rarity", "Common"⟩] :=
  have h0 : (loadPunkMetadata none (some sampleCsv)).1 0 = some ⟨"Alien", ["Hat", " Pipe "]⟩ := by
    decide
  have h1 : (loadPunkMetadata none (some sampleCsv)).1 1 = none := by decide
  ⟨h0,
   ((metadata_copies_agree none (some sampleCsv) (loadPunkMetadata none (some sampleCsv)).1 0
      "Alien" "").2.2.2.2.2.2.1 _ h0).trans (by decide),
   h1,
   (metadata_copies_agree none (some sampleCsv) (loadPunkMetadata none (some sampleCsv)).1 1
      "Alien" "").2.2.2.2.2.2.2 h1⟩

/-! ## The counters of a run -/

/-- The merge loop of a group whose members have no entry yet adds one property
per fulfilled upload. -/
theorem mergeBatch_keys_length (env : UploaderEnv) (batch : List Nat) (hnd : batch.Nodup) :
    ∀ st, (∀ i ∈ batch, st.manifest.uploads.lookup (toString i) = none) →
      (mergeBatch env batch st).manifest.uploads.keys.length =
        st.manifest.uploads.keys.length +
          (batch.filter (fun i => !uploadFails env i)).length := by
  induction batch with
  | nil => intro st _; rfl
  | cons id t ih =>
    intro st hnone
    have hnd' := List.nodup_cons.mp hnd
    rw [mergeBatch_cons]
    cases hres : (uploadPunk (env.punk id) id).1 with
    | error msg =>
      have hf : uploadFails env id = true := uploadFails_iff.1.mpr ⟨msg, hres⟩
      rw [ih hnd'.2 _ (fun i hi => by
        rw [(mergeResult_error st msg _).1]
        exact hnone i (List.mem_cons_of_mem _ hi))]
      rw [(mergeResult_error st msg _).1]
      simp [List.filter, hf]
    | ok r =>
      have hf : uploadFails env id = false := uploadFails_iff.2.mpr ⟨r, hres⟩
      have hid : r.punkId = id := uploadPunk_punkId hres
      have hnot : toString id ∉ st.manifest.uploads :=
        AList.lookup_eq_none.mp (hnone id (List.mem_cons_self _ _))
      rw [ih hnd'.2 _ (fun i hi => by
        rw [(mergeResult_ok st r _).1, hid,
          AList.lookup_insert_ne (fun h => hnd'.1 (by
            have hji : i = id := toString_nat_injective h
            exact hji ▸ hi))]
        exact hnone i (List.mem_cons_of_mem _ hi))]
      rw [(mergeResult_ok st r _).1, hid, AList.keys_insert,
        List.erase_of_not_mem (by simpa [AList.mem_keys] using hnot)]
      simp [List.filter, hf]
      omega

/-- After `g` passes of a run, the manifest has one property more per fulfilled
upload of the first `g` groups. -/
theorem stateAtGroup_keys_length (env : UploaderEnv) (w : UploaderWorld)
    (manifest : UploadManifest) (startFrom endId : Nat) :
    ∀ g, (stateAtGroup env (pendingIds manifest startFrom endId) (uploadStart w manifest)
        g).manifest.uploads.keys.length =
      manifest.uploads.keys.length +
        (((pendingIds manifest startFrom endId).take (g * BATCH_SIZE)).filter
          (fun i => !uploadFails env i)).length := by
  intro g
  induction g with
  | zero => simp [stateAtGroup, uploadStart]
  | succ g ih =>
    have hnd := pendingIds_nodup manifest startFrom endId
    rw [stateAtGroup_succ, uploadPass_uploads]
    show (mergeBatch env (groupOf (pendingIds manifest startFrom endId) g)
      _).manifest.uploads.keys.length = _
    rw [mergeBatch_keys_length env _ (groupOf_nodup hnd g) _
      (fun i hi => stateAtGroup_member_none env w manifest startFrom endId g i hi),
      ih, take_next_group, List.filter_append, List.length_append]
    omega

/-- C24. The counters of the uploader account for the whole range. For every
loaded manifest, every range with `start ≤ end` and every outcome of the
uploads, at the end of the run `uploaded + failed + skipped = end - start`;
`skipped` is the number of identifiers of the range that have an entry in the
loaded manifest; `uploaded` is the number of identifiers of the range that had
no entry in the loaded manifest and have one at the end, and the manifest has
exactly that many properties more than the loaded one. -/
theorem uploadAll_counters (env : UploaderEnv) (w : UploaderWorld)
    (manifest : UploadManifest) (startFrom endId : Nat) (h : startFrom ≤ endId) :
    (((uploadAll env w manifest startFrom endId).final.uploaded +
        (uploadAll env w manifest startFrom endId).final.failed +
        (uploadAll env w manifest startFrom endId).skipped : Nat) : Int) =
      (endId : Int) - (startFrom : Int) ∧
    (uploadAll env w manifest startFrom endId).skipped =
      ((List.range' startFrom (endId - startFrom)).filter
        (fun i => (manifest.entry i).isSome)).length ∧
    (uploadAll env w manifest startFrom endId).final.uploaded =
      ((List.range' startFrom (endId - startFrom)).filter
        (fun i => (manifest.entry i).isNone &&
          ((uploadAll env w manifest startFrom endId).final.manifest.entry i).isSome)).length ∧
    (uploadAll env w manifest startFrom endId).final.manifest.uploads.keys.length =
      manifest.uploads.keys.length +
        (uploadAll env w manifest startFrom endId).final.uploaded := by
  obtain ⟨_, hfinal⟩ := uploadAll_final env w manifest startFrom endId
  have hskip : (uploadAll env w manifest startFrom endId).skipped =
      (partitionIds manifest startFrom endId).1 := rfl
  have hcnt := stateAtGroup_counters env (pendingIds manifest startFrom endId)
    (uploadStart w manifest) (groupCount (pendingIds manifest startFrom endId).length)
  rw [take_all_groups] at hcnt
  have hkeys := stateAtGroup_keys_length env w manifest startFrom endId
    (groupCount (pendingIds manifest startFrom endId).length)
  rw [take_all_groups] at hkeys
  have hup : (uploadAll env w manifest startFrom endId).final.uploaded =
      ((pendingIds manifest startFrom endId).filter (fun i => !uploadFails env i)).length := by
    rw [hfinal, hcnt.1]
    simp [uploadStart]
  have hfail : (uploadAll env w manifest startFrom endId).final.failed =
      ((pendingIds manifest startFrom endId).filter (uploadFails env)).length := by
    rw [hfinal, hcnt.2]
    simp [uploadStart]
  have htotal := partitionIds_total manifest startFrom endId
  have hpend : (partitionIds manifest startFrom endId).2 = pendingIds manifest startFrom endId :=
    rfl
  have hsplit : ((pendingIds manifest startFrom endId).filter (fun i => !uploadFails env i)).length
      + ((pendingIds manifest startFrom endId).filter (uploadFails env)).length =
      (pendingIds manifest startFrom endId).length := by
    have := List.length_eq_countP_add_countP (uploadFails env)
      (pendingIds manifest startFrom endId)
    rw [List.countP_eq_length_filter, List.countP_eq_length_filter] at this
    have hc : (pendingIds manifest startFrom endId).filter
          (fun a => decide ¬uploadFails env a = true) =
        (pendingIds manifest startFrom endId).filter (fun i => !uploadFails env i) := by
      congr 1
      funext i
      cases uploadFails env i <;> rfl
    rw [hc] at this
    omega
  refine ⟨?_, ?_, ?_, ?_⟩
  · rw [hup, hfail, hskip]
    rw [hpend] at htotal
    omega
  · rw [hskip, partitionIds_eq]
  · rw [hup, pendingIds_eq, List.filter_filter]
    congr 1
    apply List.filter_congr
    intro i hi
    have hiff := stateAtGroup_entry_isNone env w manifest startFrom endId
      (groupCount (pendingIds manifest startFrom endId).length) i
    rw [take_all_groups, ← hfinal] at hiff
    cases hb : (manifest.entry i).isNone with
    | false => simp
    | true =>
      have hmem : i ∈ pendingIds manifest startFrom endId := by
        rw [pendingIds_eq, List.mem_filter]
        exact ⟨hi, hb⟩
      cases hf : uploadFails env i with
      | true =>
        have : ((uploadAll env w manifest startFrom endId).final.manifest.entry i).isNone
            = true := hiff.mpr ⟨hb, fun _ => hf⟩
        rw [Option.isNone_iff_eq_none] at this
        simp [this]
      | false =>
        have : ¬ ((uploadAll env w manifest startFrom endId).final.manifest.entry i).isNone
            = true := fun hn => by
          have := (hiff.mp hn).2 hmem
          rw [hf] at this
          exact Bool.false_ne_true this
        cases he : (uploadAll env w manifest startFrom endId).final.manifest.entry i with
        | none => rw [he] at this; exact absurd rfl this
        | some e => simp
  · rw [hup, hfinal]
    exact hkeys

theorem uploadAll_counters_witness :
    (0 : Nat) ≤ 3 ∧
    (((uploadAll timeoutUploaderEnv sampleUploaderWorld sampleManifest 0 3).final.uploaded +
        (uploadAll timeoutUploaderEnv sampleUploaderWorld sampleManifest 0 3).final.failed +
        (uploadAll timeoutUploaderEnv sampleUploaderWorld sampleManifest 0 3).skipped : Nat) : Int)
      = (3 : Int) - (0 : Int) :=
  ⟨by decide,
   (uploadAll_counters timeoutUploaderEnv sampleUploaderWorld sampleManifest 0 3 (by decide)).1⟩

end X1Punks
